import Mathlib

/-!
# OpenSprinkler firmware: main loop (`main.cpp`)

A shallow embedding of the control core found in `main.cpp`: the runtime queue,
the placement pass `schedule_all_stations`, the blocks of `do_loop` (flow-count
apportionment, rain delay, rain sensor, program switch, minute-gated scheduler pass,
stop pass, start pass, clean-up of the queue, master valves, dynamic events, safe
reboot, NTP sync and network check), `turn_off_station`, `manual_start_program`,
`process_dynamic_events`, `flow_isr`, `check_network` and `perform_ntp_sync`.

Conventions of the embedding.

* `ulong` is the 32-bit `unsigned long` of the firmware: values are natural
  numbers and every arithmetic result is reduced modulo `2^32` (`ULONG_MOD`).
* `float` variables (`volume`, `flow_last_gpm`) are idealised as rationals: rounding
  is not modelled. A float division by zero gives `none` (a non-finite value).
* The objects `os` (options, status, station bits) and `pd` (queue, station index,
  program run statistics) are declared outside `main.cpp`. The read-only option store
  is the structure `Config`; the mutable parts are fields of `State`.
* Calls into the event sink (`push_*`) and the logger (`write_log`) are recorded,
  in order, in `State.events`.
* A pointer `pd.queue + qid` that is dereferenced without a test is a lookup that may
  fail: the functions that contain one return an `Option`, and `none` stands for a read
  outside the queue.
* Station numbers are bytes: `bid*8+s` is reduced modulo 256.
-/

namespace OpenSprinkler

/-! ## Machine integers -/

/-- Modulus of the 32-bit `ulong` type. -/
def ULONG_MOD : Nat := 4294967296

/-- Conversion of a mathematical integer to `ulong` (reduction modulo `2^32`). -/
def toUlong (x : Int) : Nat := (x % 4294967296).toNat

/-! ## Data model -/

/-- Values of `os.options[OPTION_SENSOR_TYPE]` that the main loop distinguishes
(`SENSOR_TYPE_RAIN`, `SENSOR_TYPE_FLOW`, anything else). -/
inductive SensorType where
  | rain
  | flow
  | other
  deriving DecidableEq, Repr

/-- Option store and station attribute bitmaps read by the main loop
(`os.options[...]`, `os.station_attrib_bits_read(...)`, `os.nstations`). The signed
adjustments are the results of `water_time_decode_signed` on the stored option bytes;
that decoder is not part of `main.cpp`, so its result is a parameter. -/
structure Config where
  /-- Number of stations `os.nstations`. -/
  nstations : Nat
  /-- Capacity of the runtime queue (`RUNTIME_QUEUE_SIZE`). -/
  queue_size : Nat
  /-- Option `OPTION_SENSOR_TYPE`. -/
  sensor_type : SensorType
  /-- Option `OPTION_REMOTE_EXT_MODE` (a byte, non-zero means on). -/
  remote_ext_mode : Nat
  /-- Option `OPTION_WATER_PERCENTAGE` (a byte). -/
  water_percentage : Nat
  /-- Decoded `OPTION_STATION_DELAY_TIME` (an `int16_t`). -/
  station_delay : Int
  /-- Attribute bytes at `ADDR_NVM_STNSEQ`, one per board. -/
  stn_seq : List Nat
  /-- Attribute bytes at `ADDR_NVM_STNDISABLE`, one per board. -/
  stn_dis : List Nat
  /-- Number of boards `os.nboards` (eight stations each). -/
  nboards : Nat
  /-- Attribute bytes at `ADDR_NVM_IGNRAIN`, one per board. -/
  stn_ignrain : List Nat
  /-- Attribute bytes at `ADDR_NVM_MAS_OP`, one per board. -/
  mas_op : List Nat
  /-- Attribute bytes at `ADDR_NVM_MAS_OP_2`, one per board. -/
  mas_op_2 : List Nat
  /-- Decoded `OPTION_MASTER_ON_ADJ` (an `int16_t`). -/
  mas_on_adj : Int
  /-- Decoded `OPTION_MASTER_OFF_ADJ` (an `int16_t`). -/
  mas_off_adj : Int
  /-- Decoded `OPTION_MASTER_ON_ADJ_2` (an `int16_t`). -/
  mas_on_adj_2 : Int
  /-- Decoded `OPTION_MASTER_OFF_ADJ_2` (an `int16_t`). -/
  mas_off_adj_2 : Int
  /-- Option `OPTION_USE_NTP` (a byte, non-zero means on). -/
  use_ntp : Nat
  /-- Option `OPTION_MASTER_STATION` (0 means no master, otherwise station id plus one). -/
  master_station : Nat
  /-- Option `OPTION_MASTER_STATION_2`. -/
  master_station_2 : Nat
  deriving DecidableEq, Repr

/-- The test `os.station_attrib_bits_read(ADDR + bid) & (1 << s)` with
`bid = sid >> 3` and `s = sid & 0x07`. -/
def attrib_bit (bytes : List Nat) (sid : Nat) : Bool :=
  (bytes.getD (sid >>> 3) 0 &&& (1 <<< (sid &&& 7))) != 0

/-- Fields of `ProgramRunStats` (the target of `q->pgm`) that `main.cpp` uses:
`running`, `count` and `volume`. -/
structure ProgramRunStats where
  running : Bool
  count : Nat
  volume : ℚ
  deriving DecidableEq, Repr

/-- Fields of `RuntimeQueueStruct` that `main.cpp` uses. The pointer `pgm` is an index
into `State.pgms`. -/
structure RuntimeQueueStruct where
  timestamp : Nat
  sid : Nat
  pid : Nat
  st : Nat
  dur : Nat
  wl : Nat
  volume : ℚ
  running : Bool
  pgm : Nat
  deriving DecidableEq, Repr

/-- Record `pd.lastrun`. -/
structure LastRun where
  station : Nat
  program : Nat
  duration : Nat
  endtime : Nat
  deriving DecidableEq, Repr

/-- Kinds of log record passed to `write_log`. -/
inductive LogKind where
  | station
  | rainsense
  | raindelay
  | waterlevel
  | flowsense
  deriving DecidableEq, Repr

/-- Calls into the event sink and the logger, in the order they are made. -/
inductive Event where
  | program_schedule (pgm : Nat)
  | station_schedule (sid : Nat)
  | station_close (sid : Nat)
  | program_stop (pgm : Nat)
  | write_log (kind : LogKind) (time : Nat)
  | reboot_dev
  | raindelay_start (duration : Nat)
  | raindelay_stop (duration : Nat)
  | rainsensor_on
  | rainsensor_off (duration : Nat)
  | program_start (pgm : Nat)
  | station_open (sid : Nat)
  deriving DecidableEq, Repr

/-- Mutable state touched by the main loop. -/
structure State where
  /-- Elements `pd.queue[0 .. pd.nqueue)`. -/
  queue : List RuntimeQueueStruct
  /-- Table `pd.station_qid`; 255 means that the station has no tracked run. -/
  station_qid : List Nat
  /-- Field `pd.last_seq_stop_time`. -/
  last_seq_stop_time : Nat
  /-- Field `pd.lastrun`. -/
  lastrun : LastRun
  /-- Store of the `ProgramRunStats` objects that runs point to. -/
  pgms : List ProgramRunStats
  /-- Hardware station bits `os.station_bits`, one entry per station. -/
  station_bits : List Bool
  /-- Flag `os.status.program_busy`. -/
  program_busy : Bool
  /-- Field `os.status.mas` (0 means no master, otherwise station id plus one). -/
  mas : Nat
  /-- Field `os.status.mas2`. -/
  mas2 : Nat
  /-- Field `os.flowcount_log_start`. -/
  flowcount_log_start : Nat
  /-- Field `os.sensor_lasttime`. -/
  sensor_lasttime : Nat
  /-- Global `flow_count`. -/
  flow_count : Nat
  /-- Global `flow_begin`. -/
  flow_begin : Nat
  /-- Global `flow_start`. -/
  flow_start : Nat
  /-- Global `flow_stop`. -/
  flow_stop : Nat
  /-- Global `flow_gallons`. -/
  flow_gallons : Nat
  /-- Global `flow_last_gpm`. -/
  flow_last_gpm : Option ℚ
  /-- Static local `last_flow_count` of the flow distribution block of `do_loop`. -/
  last_flow_count : Nat
  /-- Static local `last_minute` of `do_loop`. -/
  last_minute : Nat
  /-- Field `os.flowcount_time_ms`: time of the last accepted flow pulse. -/
  flowcount_time_ms : Nat
  /-- Flag `os.status.enabled`. -/
  enabled : Bool
  /-- Flag `os.status.rain_delayed`. -/
  rain_delayed : Bool
  /-- Flag `os.status.rain_sensed`. -/
  rain_sensed : Bool
  /-- Field `os.status.network_fails`: consecutive failed network checks. -/
  network_fails : Nat
  /-- Flag `os.status.req_network`. -/
  req_network : Bool
  /-- Flag `os.status.req_ntpsync`. -/
  req_ntpsync : Bool
  /-- Flag `os.status.safe_reboot`. -/
  safe_reboot : Bool
  /-- System clock read by `now()` and written by `setTime`. -/
  sys_time : Nat
  /-- Static local `last_ntp_sync` of `do_loop`. -/
  last_ntp_sync : Nat
  /-- Static local `last_network_check` of `do_loop`. -/
  last_network_check : Nat
  /-- Static local `last_time` of `do_loop`. -/
  last_time : Nat
  /-- Flag `os.old_status.rain_delayed`. -/
  old_rain_delayed : Bool
  /-- Flag `os.old_status.rain_sensed`. -/
  old_rain_sensed : Bool
  /-- Field `os.raindelay_start_time`. -/
  raindelay_start_time : Nat
  /-- Recorded event sink and logger calls, oldest first. -/
  events : List Event
  deriving DecidableEq, Repr

/-! ## Runtime queue operations -/

/-- Modelled from the spec: `pd.queue_full()` is not part of `main.cpp`. The queue is
full when its occupancy has reached its capacity. -/
def queue_full (c : Config) (s : State) : Bool :=
  decide (c.queue_size ≤ s.queue.length)

/-- Modelled from the spec: the `ProgramRunStats` of a program invocation is created with
the first run referencing it. A run of the same invocation (same program id and
enqueue time) already in the queue shares its statistics. -/
def find_pgm (queue : List RuntimeQueueStruct) (pid timestamp : Nat) : Option Nat :=
  (queue.find? (fun r => r.pid == pid && r.timestamp == timestamp)).map (fun r => r.pgm)

/-- Modelled from the spec: `pd.enqueue(&q)` is not part of `main.cpp`. It fails when
the queue is full, otherwise it inserts the run behind the last element, indexes it
by station id and links it to the statistics of its program invocation, whose
station count grows by one. -/
def enqueue (c : Config) (q : RuntimeQueueStruct) (s : State) : State :=
  if queue_full c s then s
  else
    match find_pgm s.queue q.pid q.timestamp with
    | some k =>
      { s with
        queue := s.queue ++ [{ q with pgm := k }]
        station_qid := s.station_qid.set q.sid s.queue.length
        pgms := s.pgms.modify (fun p => { p with count := p.count + 1 }) k }
    | none =>
      { s with
        queue := s.queue ++ [{ q with pgm := s.pgms.length }]
        station_qid := s.station_qid.set q.sid s.queue.length
        pgms := s.pgms ++ [{ running := false, count := 1, volume := 0 }] }

/-- Modelled from the spec: `pd.schedule(q, t)` is not part of `main.cpp`. It sets the
start time of the run. -/
def schedule (q : RuntimeQueueStruct) (t : Nat) : RuntimeQueueStruct :=
  { q with st := t }

/-- Modelled from the spec: `pd.cancel(q)` is not part of `main.cpp`. It sets the
duration of the run to 0 and touches nothing else. -/
def cancel (q : RuntimeQueueStruct) : RuntimeQueueStruct :=
  { q with dur := 0 }

/-- Modelled from the spec: `pd.dequeue(q)` is not part of `main.cpp`. It removes the
slot `qid` in constant time (the last element fills the hole and its station index
entry follows it when it pointed to the last slot), lowers the station count of the
run statistics and clears the station index entry of the removed run. On a slot
outside the queue it does nothing. -/
def dequeue (qid : Nat) (s : State) : State :=
  match s.queue[qid]? with
  | none => s
  | some q =>
    let last := s.queue.length - 1
    let moved := s.queue.getD last q
    let queue1 := (s.queue.set qid moved).take last
    let idx1 :=
      if qid < last ∧ s.station_qid.getD moved.sid 255 = last then
        s.station_qid.set moved.sid qid
      else s.station_qid
    { s with
      queue := queue1
      station_qid := idx1.set q.sid 255
      pgms := s.pgms.modify (fun p => { p with count := p.count - 1 }) q.pgm }

/-- Modelled from the spec: `os.set_station_bit(sid, value)` is not part of `main.cpp`.
It sets the hardware bit of one station. -/
def set_station_bit (sid : Nat) (value : Bool) (s : State) : State :=
  { s with station_bits := s.station_bits.set sid value }

/-- Record one call into the event sink or the logger. -/
def emit (e : Event) (s : State) : State :=
  { s with events := s.events ++ [e] }

/-! ## `schedule_all_stations` -/

/-- The test of `schedule_all_stations` for sequential placement: the station is
sequential and the controller is not in remote extension mode. -/
def is_sequential (c : Config) (q : RuntimeQueueStruct) : Bool :=
  attrib_bit c.stn_seq q.sid && (c.remote_ext_mode == 0)

/-- Loop variables of `schedule_all_stations`: the two cursors and the globals that
the loop body writes (`g.queue` is not used inside the loop). -/
structure SchedLoop where
  con_start_time : Nat
  seq_start_time : Nat
  g : State

/-- One iteration of the loop of `schedule_all_stations` on the queue element `q`. -/
def schedule_iter (c : Config) (curr_time : Nat) (l : SchedLoop) (q : RuntimeQueueStruct) :
    SchedLoop × RuntimeQueueStruct :=
  if q.st ≠ 0 then (l, q)
  else if q.dur = 0 then (l, q)
  else
    let placed : SchedLoop × RuntimeQueueStruct :=
      if is_sequential c q then
        let seq1 := (l.seq_start_time + q.dur) % ULONG_MOD
        ({ l with seq_start_time := toUlong ((seq1 : Int) + c.station_delay) },
          schedule q l.seq_start_time)
      else
        ({ l with con_start_time := (l.con_start_time + 1) % ULONG_MOD },
          schedule q l.con_start_time)
    let l1 := placed.1
    let q1 := placed.2
    let g1 :=
      if (l1.g.pgms.getD q1.pgm ⟨false, 0, 0⟩).count = 1 then
        emit (Event.program_schedule q1.pgm) l1.g
      else l1.g
    let g2 := emit (Event.station_schedule q1.sid) g1
    let g3 :=
      if g2.program_busy then g2
      else
        let g2b := { g2 with program_busy := true }
        if c.sensor_type = SensorType.flow then
          { g2b with flowcount_log_start := g2b.flow_count, sensor_lasttime := curr_time }
        else g2b
    ({ l1 with g := g3 }, q1)

/-- The loop `for(;q<pd.queue+pd.nqueue;q++)` of `schedule_all_stations`. -/
def schedule_walk (c : Config) (curr_time : Nat) :
    SchedLoop → List RuntimeQueueStruct → SchedLoop × List RuntimeQueueStruct
  | l, [] => (l, [])
  | l, q :: qs =>
    let r := schedule_iter c curr_time l q
    let rest := schedule_walk c curr_time r.1 qs
    (rest.1, r.2 :: rest.2)

/-- Initial value of the sequential cursor in `schedule_all_stations`. -/
def seq_start_init (c : Config) (curr_time : Nat) (s : State) : Nat :=
  if s.last_seq_stop_time > curr_time then
    toUlong ((s.last_seq_stop_time : Int) + c.station_delay)
  else (curr_time + 1) % ULONG_MOD

/-- Function `schedule_all_stations(curr_time)`. -/
def schedule_all_stations (c : Config) (curr_time : Nat) (s : State) : State :=
  let con_start_time := (curr_time + 1) % ULONG_MOD
  let seq_start_time := seq_start_init c curr_time s
  let r := schedule_walk c curr_time ⟨con_start_time, seq_start_time, s⟩ s.queue
  { r.1.g with queue := r.2 }

/-! ## `do_loop`: the minute-gated scheduler pass -/

/-- Fields of `ProgramStruct` that `main.cpp` uses. The match predicate `check_match` is
defined outside `main.cpp` and is a parameter. -/
structure ProgramStruct where
  durations : List Nat
  use_weather : Bool
  check_match : Nat → Bool

/-- Water time of station `sid` in the scheduler pass of `do_loop`: the programmed
duration is resolved and, when the program uses weather scaling, scaled by the water
percentage. The resolver `water_time_resolve` is defined outside `main.cpp` and is a
parameter. -/
def scaled_water_time (c : Config) (water_time_resolve : Nat → Nat) (prog : ProgramStruct)
    (sid : Nat) : Nat :=
  let water_time := water_time_resolve (prog.durations.getD sid 0)
  if prog.use_weather then
    let wl := c.water_percentage
    let water_time := water_time * wl % ULONG_MOD / 100
    if wl < 20 ∧ water_time < 10 then 0 else water_time
  else water_time

/-- The run that the scheduler pass of `do_loop` builds for station `sid` of the program
with index `pid`. -/
def new_run (c : Config) (water_time_resolve : Nat → Nat) (curr_time : Nat)
    (prog : ProgramStruct) (pid sid : Nat) : RuntimeQueueStruct :=
  { timestamp := curr_time
    sid := sid
    pid := pid + 1
    st := 0
    dur := scaled_water_time c water_time_resolve prog sid
    wl := if prog.use_weather then c.water_percentage else 100
    volume := 0
    running := false
    pgm := 0 }

/-- Body of the loop `for(sid=0;sid<os.nstations;sid++)` of the scheduler pass; the
second component is the flag `match_found`. -/
def sched_station (c : Config) (water_time_resolve : Nat → Nat) (curr_time : Nat)
    (prog : ProgramStruct) (pid : Nat) (acc : State × Bool) (sid : Nat) : State × Bool :=
  if acc.1.mas = sid + 1 ∨ acc.1.mas2 = sid + 1 then acc
  else if prog.durations.getD sid 0 ≠ 0 ∧ attrib_bit c.stn_dis sid = false then
    if scaled_water_time c water_time_resolve prog sid ≠ 0 then
      if queue_full c acc.1 = false then
        (enqueue c (new_run c water_time_resolve curr_time prog pid sid) acc.1, true)
      else acc
    else acc
  else acc

/-- Body of the loop `for(pid=0; pid<pd.nprograms; pid++)` of the scheduler pass. -/
def sched_program (c : Config) (water_time_resolve : Nat → Nat) (curr_time : Nat)
    (acc : State × Bool) (pid : Nat) (prog : ProgramStruct) : State × Bool :=
  if prog.check_match curr_time then
    (List.range c.nstations).foldl (sched_station c water_time_resolve curr_time prog pid) acc
  else acc

/-- The loop over the stored programs, starting at program index `pid`. -/
def sched_programs (c : Config) (water_time_resolve : Nat → Nat) (curr_time : Nat) :
    Nat → List ProgramStruct → State × Bool → State × Bool
  | _, [], acc => acc
  | pid, prog :: rest, acc =>
    sched_programs c water_time_resolve curr_time (pid + 1) rest
      (sched_program c water_time_resolve curr_time acc pid prog)

/-- Block "Schedule program data" of `do_loop`: once per minute, enqueue the runs of the
matching programs and, when a run was enqueued, place them. -/
def do_loop_schedule (c : Config) (water_time_resolve : Nat → Nat)
    (progs : List ProgramStruct) (curr_time : Nat) (s : State) : State :=
  let curr_minute := curr_time / 60
  if curr_minute ≠ s.last_minute then
    let r := sched_programs c water_time_resolve curr_time 0 progs
      ({ s with last_minute := curr_minute }, false)
    if r.2 then schedule_all_stations c curr_time r.1 else r.1
  else s

/-! ## `do_loop`: distribution of the flow count -/

/-- The loop of `do_loop` that adds `share` to the volume of every running run and to
the volume of the program run statistics it points to. -/
def flow_walk (share : ℚ) :
    List RuntimeQueueStruct → List ProgramRunStats →
      List RuntimeQueueStruct × List ProgramRunStats
  | [], pg => ([], pg)
  | q :: qs, pg =>
    if q.running then
      let r := flow_walk share qs
        (pg.modify (fun p => { p with volume := p.volume + share }) q.pgm)
      ({ q with volume := q.volume + share } :: r.1, r.2)
    else
      let r := flow_walk share qs pg
      (q :: r.1, r.2)

/-- Block "Distribute Flow Count amonst running stations and programs" of `do_loop`. -/
def do_loop_flow (c : Config) (s : State) : State :=
  if c.sensor_type = SensorType.flow then
    let mutex_flow_count := s.flow_count
    let s1 :=
      if mutex_flow_count > s.last_flow_count then
        let nrunning := (s.queue.filter (fun q => q.running)).length
        let share : ℚ := ((mutex_flow_count - s.last_flow_count : Nat) : ℚ) / (nrunning : ℚ)
        let r := flow_walk share s.queue s.pgms
        { s with queue := r.1, pgms := r.2 }
      else s
    { s1 with last_flow_count := mutex_flow_count }
  else s

/-! ## `turn_off_station` -/

/-- The value `(float) 60000/(float)((flow_stop-flow_begin)/(flow_gallons-1))` of
`turn_off_station`: the inner quotient is an unsigned integer division; a zero quotient
makes the float division non-finite (`none`). -/
def flow_gpm (s : State) : Option ℚ :=
  let divisor := toUlong ((s.flow_stop : Int) - s.flow_begin) / (s.flow_gallons - 1)
  if divisor = 0 then none else some ((60000 : ℚ) / (divisor : ℚ))

/-- The block `if (curr_time > q->st) { ... }` of `turn_off_station` for the run `q`
found in slot `qid`: for a run that has begun on a station that is not a master, record
the last run, cancel the run, write the station log record and emit the close and stop
events. -/
def turn_off_record (sid : Nat) (curr_time : Nat) (qid : Nat) (q : RuntimeQueueStruct)
    (s1 : State) : State :=
  if curr_time > q.st then
    if s1.mas ≠ sid + 1 ∧ s1.mas2 ≠ sid + 1 then
      let s3 := { s1 with
        lastrun := ⟨sid, q.pid, curr_time - q.st, curr_time⟩
        queue := s1.queue.set qid (cancel q) }
      let s4 := emit (Event.write_log LogKind.station curr_time) s3
      let s5 := if q.running then emit (Event.station_close q.sid) s4 else s4
      let pgm := s5.pgms.getD q.pgm ⟨false, 0, 0⟩
      if pgm.running ∧ pgm.count = 1 then emit (Event.program_stop q.pgm) s5 else s5
    else s1
  else s1

/-- Function `turn_off_station(sid, curr_time)`. -/
def turn_off_station (sid : Nat) (curr_time : Nat) (s0 : State) : State :=
  let s := set_station_bit sid false s0
  let qid := s.station_qid.getD sid 255
  -- `if (qid>=pd.nqueue) return;`
  match s.queue[qid]? with
  | none => s
  | some q =>
    let s1 := { s with flow_last_gpm := if s.flow_gallons > 1 then flow_gpm s else some 0 }
    dequeue qid (turn_off_record sid curr_time qid q s1)

/-- Invariant of the runtime queue: the queue has at most 255 slots (slot indices are
bytes and 255 means "no tracked run") and every entry of the station index is either 255
or the index of a slot that holds a run of that station. -/
def queue_inv (s : State) : Prop :=
  s.queue.length ≤ 255
  ∧ ∀ sid, sid < s.station_qid.length →
      s.station_qid.getD sid 255 = 255
      ∨ ∃ q, s.queue[s.station_qid.getD sid 255]? = some q ∧ q.sid = sid

/-- Sum over the slots of the queue of the volume added to the run of the slot between
the queue `old` and the queue `new`. -/
def added_volume (old new : List RuntimeQueueStruct) : ℚ :=
  ((old.zip new).map (fun p => p.2.volume - p.1.volume)).sum

/-! ## `flow_isr` -/

/-- Function `flow_isr()`, run at the time `curr = millis()` of a sensor pulse. -/
def flow_isr (c : Config) (curr : Nat) (s : State) : State :=
  if c.sensor_type ≠ SensorType.flow then s
  else if toUlong ((curr : Int) - s.flowcount_time_ms) < 50 then s
  else
    let s1 := { s with flow_count := (s.flow_count + 1) % ULONG_MOD, flowcount_time_ms := curr }
    let s2 := if s1.flow_start = 0 then { s1 with flow_gallons := 0, flow_start := curr } else s1
    let s3 :=
      if toUlong ((curr : Int) - s2.flow_start) < 90000 then { s2 with flow_gallons := 0 }
      else if s2.flow_gallons = 1 then { s2 with flow_begin := curr }
      else s2
    { s3 with flow_stop := curr, flow_gallons := (s3.flow_gallons + 1) % ULONG_MOD }

/-- The pulses at the times `ts`, in order, each handled by `flow_isr`. -/
def flow_pulses (c : Config) (ts : List Nat) (s : State) : State :=
  ts.foldl (fun x t => flow_isr c t x) s

/-- The pulse at time `curr` passes the two tests at the head of `flow_isr`: the sensor
is a flow sensor and at least 50 ms (unsigned 32-bit difference) have passed since the
last accepted pulse. -/
def accepted (c : Config) (curr : Nat) (s : State) : Prop :=
  c.sensor_type = SensorType.flow ∧ 50 ≤ toUlong ((curr : Int) - s.flowcount_time_ms)

/-- Every pulse of the sequence `ts`, handled in order from the state `s`, is accepted. -/
def all_accepted (c : Config) : List Nat → State → Prop
  | [], _ => True
  | t :: ts, s => accepted c t s ∧ all_accepted c ts (flow_isr c t s)

/-! ## `check_network`, `perform_ntp_sync` and the safe reboot step -/

/-- Modelled from the spec: `os.reboot_dev()` is not part of `main.cpp`. It restarts the
device; the call is recorded as the event `reboot_dev`. -/
def reboot_dev (s : State) : State :=
  emit Event.reboot_dev s

/-- Function `check_network()` (Arduino build). The outcome of the ping (`ping_failed`)
and of `os.start_network()` (`reconnect_ok`, only read when a reconnect is attempted) are
parameters. The field `network_fails` stays within 0..6 under this function, so the
increment cannot overflow a field of three bits or more. -/
def check_network (ping_failed reconnect_ok : Bool) (s : State) : State :=
  if s.program_busy then s
  else if s.req_network then
    let s1 : State := { s with req_network := false }
    let s2 : State :=
      if ping_failed then
        let s1b : State := { s1 with network_fails := s1.network_fails + 1 }
        if s1b.network_fails > 6 then { s1b with network_fails := 6 } else s1b
      else { s1 with network_fails := 0 }
    if s2.network_fails ≥ 6 then { s2 with safe_reboot := true }
    else if s2.network_fails > 2 then
      if reconnect_ok then { s2 with network_fails := 0 } else s2
    else s2
  else s

/-- Block "check network connection" of `do_loop` once its timer has expired: the check
is requested and `check_network` runs. -/
def request_check_network (ping_failed reconnect_ok : Bool) (s : State) : State :=
  check_network ping_failed reconnect_ok { s with req_network := true }

/-- Consecutive requested runs of `check_network`, one per pair of outcomes
(ping failed, reconnect succeeded). -/
def check_network_runs (outcomes : List (Bool × Bool)) (s : State) : State :=
  outcomes.foldl (fun x o => request_check_network o.1 o.2 x) s

/-- Block "check network connection" of `do_loop` with its timer. -/
def do_loop_network (ping_failed reconnect_ok : Bool) (curr_time : Nat) (s : State) : State :=
  if curr_time ≠ 0 ∧ toUlong ((curr_time : Int) - s.last_network_check) ≥ 601 then
    { request_check_network ping_failed reconnect_ok s with last_network_check := curr_time }
  else s

/-- Function `perform_ntp_sync()` (Arduino build). The result of `getNtpTime()` is the
parameter `ntp_time` (0 on failure); `setTime(t)` and `RTC.set(t)` set the system clock,
which `now()` reads back. -/
def perform_ntp_sync (c : Config) (ntp_time : Nat) (s : State) : State :=
  if c.use_ntp = 0 ∨ s.network_fails > 0 ∨ s.program_busy then s
  else if s.req_ntpsync then
    let rtc_zero := decide (s.sys_time ≤ 978307200)
    let s1 := { s with req_ntpsync := false }
    if ntp_time > 0 then
      let s2 := { s1 with sys_time := ntp_time }
      if rtc_zero ∧ s2.sys_time > 978307200 then reboot_dev s2 else s2
    else s1
  else s

/-- Block "perform ntp sync" of `do_loop` with its timer. -/
def do_loop_ntp (c : Config) (ntp_time : Nat) (curr_time : Nat) (s : State) : State :=
  if toUlong ((curr_time : Int) - s.last_ntp_sync) ≥ 86403 then
    { perform_ntp_sync c ntp_time { s with req_ntpsync := true } with
      last_ntp_sync := curr_time }
  else s

/-- Block "check safe_reboot condition" of `do_loop` (Arduino build): the loop over the
stored programs with its `break` is the test whether some program matches at
`curr_time+60`. -/
def do_loop_safe_reboot (progs : List ProgramStruct) (curr_time : Nat) (s : State) : State :=
  if s.safe_reboot then
    if s.program_busy then s
    else
      let willrun := progs.any (fun prog => prog.check_match ((curr_time + 60) % ULONG_MOD))
      if willrun then s else reboot_dev s
  else s

/-! ## `do_loop`: the master valves -/

/-- The test `curr_time >= q->st + on_adj && curr_time <= q->st + q->dur + off_adj` of the
master blocks of `do_loop`, in `ulong` arithmetic. -/
def master_window (on_adj off_adj : Int) (curr_time : Nat) (q : RuntimeQueueStruct) : Bool :=
  decide (toUlong ((q.st : Int) + on_adj) ≤ curr_time)
    && decide (curr_time ≤ toUlong ((((q.st + q.dur) % ULONG_MOD : Nat) : Int) + off_adj))

/-- The loop `for(sid=0;sid<os.nstations;sid++)` of a master block of `do_loop`, over the
station ids `sids`; the result is `masbit`. The run of a station is read at
`pd.queue + pd.station_qid[sid]` without a check: a read outside the queue gives `none`. -/
def master_scan (mas : Nat) (on_adj off_adj : Int) (masop : List Nat) (curr_time : Nat)
    (s : State) : List Nat → Option Bool
  | [] => some false
  | sid :: rest =>
    if mas = sid + 1 then master_scan mas on_adj off_adj masop curr_time s rest
    else if s.station_bits.getD sid false && attrib_bit masop sid then
      match s.queue[s.station_qid.getD sid 255]? with
      | none => none
      | some q =>
        if master_window on_adj off_adj curr_time q then some true
        else master_scan mas on_adj off_adj masop curr_time s rest
    else master_scan mas on_adj off_adj masop curr_time s rest

/-- One master block of `do_loop` ("handle master" with the first master and its options,
"handle master2" with the second master and its options; the two blocks differ in
nothing else). -/
def handle_master (c : Config) (mas : Nat) (on_adj off_adj : Int) (masop : List Nat)
    (curr_time : Nat) (s : State) : Option State :=
  if mas > 0 then
    (master_scan mas on_adj off_adj masop curr_time s (List.range c.nstations)).map
      (fun masbit => set_station_bit (mas - 1) masbit s)
  else some s

/-- Blocks "handle master" and "handle master2" of `do_loop`. -/
def do_loop_master (c : Config) (curr_time : Nat) (s : State) : Option State :=
  (handle_master c s.mas c.mas_on_adj c.mas_off_adj c.mas_op curr_time s).bind
    (fun s1 => handle_master c s1.mas2 c.mas_on_adj_2 c.mas_off_adj_2 c.mas_op_2 curr_time s1)

/-! ## `process_dynamic_events` -/

/-- Body of the loops of `process_dynamic_events` for station `s_` of board `bid`. The
station number `sid` is a byte. The run of a station whose index entry is not 255 is
read at `pd.queue + qid` without a check: a read outside the queue gives `none`. -/
def pde_station (c : Config) (curr_time : Nat) (rain en : Bool) (bid s_ : Nat) (x : State) :
    Option State :=
  let rbits := c.stn_ignrain.getD bid 0
  let sid := (bid * 8 + s_) % 256
  if x.mas = sid + 1 then some x
  else if x.mas2 = sid + 1 then some x
  else
    let qid := x.station_qid.getD sid 255
    if qid = 255 then some x
    else
      match x.queue[qid]? with
      | none => none
      | some q =>
        if q.pid < 99 ∧ (en = false ∨ (rain = true ∧ (rbits &&& (1 <<< s_)) = 0)) then
          some (turn_off_station sid curr_time x)
        else some x

/-- The pairs (board, station of the board) in the order in which the nested loops
`for(bid=0;bid<os.nboards;bid++)` and `for(s=0;s<8;s++)` visit them. -/
def board_stations (nboards : Nat) : List (Nat × Nat) :=
  (List.range nboards).flatMap (fun bid => (List.range 8).map (fun s_ => (bid, s_)))

/-- The loops of `process_dynamic_events` over the pairs (board, station). -/
def pde_walk (c : Config) (curr_time : Nat) (rain en : Bool) :
    List (Nat × Nat) → State → Option State
  | [], x => some x
  | p :: rest, x =>
    (pde_station c curr_time rain en p.1 p.2 x).bind (pde_walk c curr_time rain en rest)

/-- The flag `rain` of `process_dynamic_events`: a rain delay is active, or rain is sensed
with a rain-type sensor. -/
def rain_in_effect (c : Config) (s : State) : Bool :=
  s.rain_delayed || (s.rain_sensed && decide (c.sensor_type = SensorType.rain))

/-- Function `process_dynamic_events(curr_time)`. -/
def process_dynamic_events (c : Config) (curr_time : Nat) (s : State) : Option State :=
  let en := s.enabled
  let rain := rain_in_effect c s
  pde_walk c curr_time rain en (board_stations c.nboards) s

/-- The run that the station index tracks for station `sid`, if any. -/
def tracked (s : State) (sid : Nat) : Option RuntimeQueueStruct :=
  if s.station_qid.getD sid 255 = 255 then none else s.queue[s.station_qid.getD sid 255]?

/-- Station `sid` is to be preempted by the dynamic events, in the words of the spec: it
is a station of one of the boards, it is not a master station, its tracked run belongs
to a regular program (program id below 99), and the controller is disabled or rain is
in effect while the ignore-rain bit of the station is clear. -/
def preempt_condition (c : Config) (s : State) (sid : Nat) : Prop :=
  sid < c.nboards * 8 ∧ s.mas ≠ sid + 1 ∧ s.mas2 ≠ sid + 1
  ∧ ∃ q, tracked s sid = some q ∧ q.pid < 99
      ∧ (s.enabled = false
          ∨ (rain_in_effect c s = true ∧ attrib_bit c.stn_ignrain sid = false))

/-- The part of `preempt_condition` that does not depend on the number of boards. -/
def preempt_core (c : Config) (s : State) (sid : Nat) : Prop :=
  s.mas ≠ sid + 1 ∧ s.mas2 ≠ sid + 1
  ∧ ∃ q, tracked s sid = some q ∧ q.pid < 99
      ∧ (s.enabled = false
          ∨ (rain_in_effect c s = true ∧ attrib_bit c.stn_ignrain sid = false))

/-- Loop invariant of `process_dynamic_events` started in `s0`, with `D` the set of the
stations visited so far and `x` the current state: the queue invariant holds, the master
stations are those of `s0`, the visited stations that were to be preempted have no
tracked run and a clear bit, and every other station is as in `s0`. -/
def pde_post (c : Config) (s0 : State) (D : Nat → Prop) (x : State) : Prop :=
  queue_inv x ∧ x.mas = s0.mas ∧ x.mas2 = s0.mas2
  ∧ ∀ sid,
      ((D sid ∧ preempt_core c s0 sid) →
        tracked x sid = none ∧ x.station_bits.getD sid false = false)
      ∧ (¬ (D sid ∧ preempt_core c s0 sid) →
        tracked x sid = tracked s0 sid
        ∧ x.station_bits.getD sid false = s0.station_bits.getD sid false)

/-! ## `do_loop`: removal of finished queue elements -/

/-- The test `!q->dur || curr_time>=q->st+q->dur` of the clean-up loop of `do_loop`. -/
def finished (curr_time : Nat) (q : RuntimeQueueStruct) : Bool :=
  q.dur == 0 || decide ((q.st + q.dur) % ULONG_MOD ≤ curr_time)

/-- The loop `for(qi=pd.nqueue-1;qi>=0;qi--)` of `do_loop` with `n = qi + 1` iterations
left. A read outside the queue gives `none`. -/
def gc_loop (curr_time : Nat) : Nat → State → Option State
  | 0, s => some s
  | qi + 1, s =>
    match s.queue[qi]? with
    | none => none
    | some q =>
      if finished curr_time q then gc_loop curr_time qi (dequeue qi s)
      else gc_loop curr_time qi s

/-- Block "clear up elements marked for removal" of `do_loop`. -/
def do_loop_gc (curr_time : Nat) (s : State) : Option State :=
  gc_loop curr_time s.queue.length s

/-! ## `do_loop`: rain delay and rain sensor -/

/-- Modelled from the spec: `os.raindelay_start()` is not part of `main.cpp`. It opens
the rain-delay window: the flag `os.status.rain_delayed` is set. -/
def raindelay_start (s : State) : State :=
  { s with rain_delayed := true }

/-- Modelled from the spec: `os.raindelay_stop()` is not part of `main.cpp`. It closes
the rain-delay window: the flag `os.status.rain_delayed` is cleared. -/
def raindelay_stop (s : State) : State :=
  { s with rain_delayed := false }

/-- Blocks "Check raindelay status" and "Check controller status changes and write log"
of `do_loop`; `rd_stop_time` is the value of `os.nvdata.rd_stop_time`. -/
def do_loop_raindelay (rd_stop_time curr_time : Nat) (s : State) : State :=
  let s1 :=
    if s.rain_delayed then
      if curr_time ≥ rd_stop_time then raindelay_stop s else s
    else
      if rd_stop_time > curr_time then raindelay_start s else s
  if s1.old_rain_delayed ≠ s1.rain_delayed then
    let s2 :=
      if s1.rain_delayed then
        let s1b := { s1 with raindelay_start_time := curr_time }
        emit (Event.raindelay_start (toUlong ((rd_stop_time : Int) - s1b.raindelay_start_time)))
          s1b
      else
        emit (Event.raindelay_stop
            (if curr_time > s1.raindelay_start_time then curr_time - s1.raindelay_start_time
             else 0))
          (emit (Event.write_log LogKind.raindelay curr_time) s1)
    { s2 with old_rain_delayed := s2.rain_delayed }
  else s1

/-- Modelled from the spec: `os.rainsensor_status()` is not part of `main.cpp`. It reads
the rain sensor, here the parameter `sensor`, into the flag `os.status.rain_sensed`. -/
def rainsensor_status (sensor : Bool) (s : State) : State :=
  { s with rain_sensed := sensor }

/-- Block "Check rain sensor status" of `do_loop`. -/
def do_loop_rainsensor (c : Config) (sensor : Bool) (curr_time : Nat) (s : State) : State :=
  if c.sensor_type = SensorType.rain then
    let s1 := rainsensor_status sensor s
    if s1.old_rain_sensed ≠ s1.rain_sensed then
      let s2 :=
        if s1.rain_sensed then
          emit Event.rainsensor_on { s1 with sensor_lasttime := curr_time }
        else
          if curr_time > (s1.sensor_lasttime + 10) % ULONG_MOD then
            emit (Event.rainsensor_off
                (if curr_time > s1.sensor_lasttime then curr_time - s1.sensor_lasttime else 0))
              (emit (Event.write_log LogKind.rainsense curr_time) s1)
          else s1
      { s2 with old_rain_sensed := s2.rain_sensed }
    else s1
  else s

/-! ## `reset_all_stations_immediate` and `manual_start_program` -/

/-- Modelled from the spec: `os.clear_all_station_bits()` is not part of `main.cpp`. It
clears the hardware bit of every station. -/
def clear_all_station_bits (s : State) : State :=
  { s with station_bits := s.station_bits.map (fun _ => false) }

/-- Modelled from the spec: `pd.reset_runtime()` is not part of `main.cpp`. It discards
every queued run: the queue becomes empty, every station index entry becomes 255 and the
last sequential stop time becomes 0. -/
def reset_runtime (s : State) : State :=
  { s with queue := [], station_qid := s.station_qid.map (fun _ => 255),
           last_seq_stop_time := 0 }

/-- Function `reset_all_stations_immediate()`; `os.apply_all_station_bits()` drives the
pins from the station bits and changes no variable. -/
def reset_all_stations_immediate (s : State) : State :=
  reset_runtime (clear_all_station_bits s)

/-- The value of `dur` that `manual_start_program(pid, uwt)` computes for station `sid`.
The local variable `prog` of the function is declared without an initialiser and is never
assigned (the function does not call `pd.read`): its content is indeterminate and is the
parameter `prog`. -/
def manual_dur (c : Config) (water_time_resolve : Nat → Nat) (prog : ProgramStruct)
    (pid : Nat) (uwt : Bool) (sid : Nat) : Nat :=
  let dur :=
    if pid = 255 then 2
    else if pid > 0 then water_time_resolve (prog.durations.getD sid 0)
    else 60
  if uwt then dur * c.water_percentage % ULONG_MOD / 100 else dur

/-- The run that `manual_start_program` builds for station `sid`. -/
def manual_run (c : Config) (water_time_resolve : Nat → Nat) (prog : ProgramStruct)
    (pid : Nat) (uwt : Bool) (timestamp sid : Nat) : RuntimeQueueStruct :=
  { timestamp := timestamp
    sid := sid
    pid := 254
    st := 0
    dur := manual_dur c water_time_resolve prog pid uwt sid
    wl := if uwt then c.water_percentage else 100
    volume := 0
    running := false
    pgm := 0 }

/-- Body of the loop `for(sid=0;sid<os.nstations;sid++)` of `manual_start_program`; the
second component is the flag `match_found`. -/
def manual_station (c : Config) (water_time_resolve : Nat → Nat) (prog : ProgramStruct)
    (pid : Nat) (uwt : Bool) (timestamp : Nat) (acc : State × Bool) (sid : Nat) :
    State × Bool :=
  if acc.1.mas = sid + 1 ∨ acc.1.mas2 = sid + 1 then acc
  else if manual_dur c water_time_resolve prog pid uwt sid > 0
      ∧ attrib_bit c.stn_dis sid = false then
    if queue_full c acc.1 = false then
      (enqueue c (manual_run c water_time_resolve prog pid uwt timestamp sid) acc.1, true)
    else acc
  else acc

/-- Function `manual_start_program(pid, uwt)`, called at the time `now = os.now_tz()`;
`prog` is the indeterminate content of its uninitialised local variable. -/
def manual_start_program (c : Config) (water_time_resolve : Nat → Nat) (prog : ProgramStruct)
    (pid : Nat) (uwt : Bool) (now : Nat) (s : State) : State :=
  let s1 := reset_all_stations_immediate s
  let r := (List.range c.nstations).foldl
    (manual_station c water_time_resolve prog pid uwt now) (s1, false)
  if r.2 then schedule_all_stations c now r.1 else r.1

/-- Block "Check program switch status" of `do_loop`; `switch_on` is the result of
`os.programswitch_status(curr_time)`, which is not part of `main.cpp`. -/
def do_loop_program_switch (c : Config) (water_time_resolve : Nat → Nat)
    (progs : List ProgramStruct) (prog : ProgramStruct) (switch_on : Bool) (curr_time : Nat)
    (s : State) : State :=
  if switch_on then
    let s1 := reset_all_stations_immediate s
    if progs.length > 0 then manual_start_program c water_time_resolve prog 1 false curr_time s1
    else s1
  else s

/-! ## `do_loop`: the Running block -/

/-- A loop over the pairs (board, station of the board) whose body may read outside the
queue (`none`). -/
def station_walk (body : Nat → Nat → State → Option State) :
    List (Nat × Nat) → State → Option State
  | [], x => some x
  | p :: rest, x => (body p.1 p.2 x).bind (station_walk body rest)

/-- Body of the loops "turn scheduled stations off" of `do_loop` for station `s_` of
board `bid`. The station number `sid` is a byte. The run of a station whose index entry
is not 255 is read at `pd.queue + pd.station_qid[sid]` without a check: a read outside
the queue gives `none`. -/
def stop_station (curr_time : Nat) (bid s_ : Nat) (x : State) : Option State :=
  let sid := (bid * 8 + s_) % 256
  if x.mas = sid + 1 then some x
  else if x.mas2 = sid + 1 then some x
  else if x.station_qid.getD sid 255 = 255 then some x
  else
    match x.queue[x.station_qid.getD sid 255]? with
    | none => none
    | some q =>
      if q.st > 0 then
        if curr_time ≥ (q.st + q.dur) % ULONG_MOD then some (turn_off_station sid curr_time x)
        else some x
      else some x

/-- The loops "turn scheduled stations off" of `do_loop`. -/
def stop_pass (c : Config) (curr_time : Nat) (s : State) : Option State :=
  station_walk (stop_station curr_time) (board_stations c.nboards) s

/-- The statements of the start pass that activate the run `q` found in slot `qid` for
station `sid`: the program start and the station open are notified once, the bit of the
station is set and the flow warm-up baseline is reset. -/
def start_run (sid qid : Nat) (q : RuntimeQueueStruct) (x : State) : State :=
  let x1 :=
    if (x.pgms.getD q.pgm ⟨false, 0, 0⟩).running then x
    else
      emit (Event.program_start q.pgm)
        { x with pgms := x.pgms.modify (fun p => { p with running := true }) q.pgm }
  let x2 :=
    if q.running then x1
    else
      emit (Event.station_open q.sid)
        { x1 with queue := x1.queue.set qid { q with running := true } }
  { set_station_bit sid true x2 with flow_start := 0 }

/-- Body of the loops "turn scheduled stations on" of `do_loop` for station `s_` of board
`bid`; `bitvalue` is the copy of the bits of the board taken before its stations are
visited. The station number `sid` is a byte. The run is read only when the copied bit of
the station is clear; a read outside the queue gives `none`. -/
def start_station (curr_time : Nat) (bitvalue : List Bool) (bid s_ : Nat) (x : State) :
    Option State :=
  let sid := (bid * 8 + s_) % 256
  if x.mas = sid + 1 then some x
  else if x.mas2 = sid + 1 then some x
  else if x.station_qid.getD sid 255 = 255 then some x
  else if bitvalue.getD s_ false then some x
  else
    match x.queue[x.station_qid.getD sid 255]? with
    | none => none
    | some q =>
      if q.st ≤ curr_time ∧ curr_time < (q.st + q.dur) % ULONG_MOD then
        some (start_run sid (x.station_qid.getD sid 255) q x)
      else some x

/-- The copy `bitvalue = os.station_bits[bid]` of the bits of board `bid`. -/
def board_bits (bid : Nat) (x : State) : List Bool :=
  (List.range 8).map (fun s_ => x.station_bits.getD (bid * 8 + s_) false)

/-- The inner loop `for(s=0;s<8;s++)` of the loops "turn scheduled stations on" for
board `bid`. -/
def start_board (curr_time : Nat) (bid : Nat) (x : State) : Option State :=
  station_walk (start_station curr_time (board_bits bid x))
    ((List.range 8).map (fun s_ => (bid, s_))) x

/-- The outer loop `for(bid=0;bid<os.nboards; bid++)` of the loops "turn scheduled
stations on" over the boards `bids`. -/
def start_boards (curr_time : Nat) : List Nat → State → Option State
  | [], x => some x
  | bid :: rest, x => (start_board curr_time bid x).bind (start_boards curr_time rest)

/-- The loops "turn scheduled stations on" of `do_loop`. -/
def start_pass (c : Config) (curr_time : Nat) (s : State) : Option State :=
  start_boards curr_time (List.range c.nboards) s

/-- The loop of `do_loop` that computes `pd.last_seq_stop_time` from the queue. -/
def last_seq_stop (c : Config) (curr_time : Nat) (queue : List RuntimeQueueStruct) : Nat :=
  queue.foldl
    (fun acc q =>
      let sst := (q.st + q.dur) % ULONG_MOD
      if sst > curr_time then
        if is_sequential c q then (if sst > acc then sst else acc) else acc
      else acc)
    0

/-- The block `if (!pd.nqueue) { ... }` of `do_loop`. -/
def do_loop_idle (c : Config) (curr_time : Nat) (s : State) : State :=
  if s.queue.length = 0 then
    let s1 := reset_runtime (clear_all_station_bits s)
    let s2 := { s1 with program_busy := false }
    let s3 :=
      if c.sensor_type = SensorType.flow then
        emit (Event.write_log LogKind.flowsense curr_time) s2
      else s2
    { s3 with mas := c.master_station, mas2 := c.master_station_2 }
  else s

/-- Block "Run program data" of `do_loop`: the stop pass, the start pass, the clean-up
of the queue, the dynamic events, the last sequential stop time and the return to idle.
`os.apply_all_station_bits()` drives the pins from the station bits and changes no
variable. -/
def do_loop_running (c : Config) (curr_time : Nat) (s : State) : Option State :=
  if s.program_busy then
    ((((stop_pass c curr_time s).bind (start_pass c curr_time)).bind
        (do_loop_gc curr_time)).bind (process_dynamic_events c curr_time)).map
      (fun x =>
        do_loop_idle c curr_time
          { x with last_seq_stop_time := last_seq_stop c curr_time x.queue })
  else some s

/-! ## `do_loop` -/

/-- What one pass of `do_loop` reads from outside: the time `os.now_tz()`, the rain-delay
stop time `os.nvdata.rd_stop_time`, the rain sensor, the program switch, the
indeterminate content of the local `prog` of `manual_start_program`, the result of
`getNtpTime()` and the outcomes of the ping and of `os.start_network()`. -/
structure TickInput where
  curr_time : Nat
  rd_stop_time : Nat
  rain_sensor : Bool
  program_switch : Bool
  prog : ProgramStruct
  ntp_time : Nat
  ping_failed : Bool
  reconnect_ok : Bool

/-- The blocks of `do_loop` between the test `last_time != curr_time` and the scheduler
pass: the flow count, the rain delay, the rain sensor and the program switch. -/
def do_loop_head (c : Config) (water_time_resolve : Nat → Nat) (progs : List ProgramStruct)
    (i : TickInput) (s0 : State) : State :=
  let s1 := { s0 with last_time := i.curr_time }
  let s2 := do_loop_flow c s1
  let s3 := do_loop_raindelay i.rd_stop_time i.curr_time s2
  let s4 := do_loop_rainsensor c i.rain_sensor i.curr_time s3
  do_loop_program_switch c water_time_resolve progs i.prog i.program_switch i.curr_time s4

/-- The blocks of `do_loop` after the second call of `process_dynamic_events`: the safe
reboot, the NTP sync and the network check. -/
def do_loop_tail (c : Config) (progs : List ProgramStruct) (i : TickInput) (s9 : State) :
    State :=
  do_loop_network i.ping_failed i.reconnect_ok i.curr_time
    (do_loop_ntp c i.ntp_time i.curr_time (do_loop_safe_reboot progs i.curr_time s9))

/-- Function `do_loop()` (Arduino build) without a web request and without a button
event. The blocks that are left out (reboot notification, LCD, real-time flow count,
weather check and weather notifications) write neither the queue, the station index, the
station bits, `program_busy` nor the static `last_minute`. A read outside the queue gives
`none`. -/
def do_loop (c : Config) (water_time_resolve : Nat → Nat) (progs : List ProgramStruct)
    (i : TickInput) (s : State) : Option State :=
  let s0 := { s with mas := c.master_station, mas2 := c.master_station_2 }
  if s0.last_time ≠ i.curr_time then
    let s6 := do_loop_schedule c water_time_resolve progs i.curr_time
      (do_loop_head c water_time_resolve progs i s0)
    (((do_loop_running c i.curr_time s6).bind (do_loop_master c i.curr_time)).bind
        (process_dynamic_events c i.curr_time)).map (do_loop_tail c progs i)
  else some s0

/-- The passes of `do_loop` for the inputs `is`, in order. -/
def do_loops (c : Config) (water_time_resolve : Nat → Nat) (progs : List ProgramStruct) :
    List TickInput → State → Option State
  | [], s => some s
  | i :: rest, s =>
    (do_loop c water_time_resolve progs i s).bind (do_loops c water_time_resolve progs rest)

/-! ## Predicates used to state the properties of the passes of `do_loop` -/

/-- The state `s1` has the status flags and the master stations of the state `s`: the
fields that no queue operation writes. -/
def same_status (s s1 : State) : Prop :=
  s1.program_busy = s.program_busy ∧ s1.enabled = s.enabled
  ∧ s1.rain_delayed = s.rain_delayed ∧ s1.rain_sensed = s.rain_sensed
  ∧ s1.mas = s.mas ∧ s1.mas2 = s.mas2 ∧ s1.last_minute = s.last_minute

/-- The test `curr_time >= q->st && curr_time < q->st+q->dur` of the start pass. -/
def in_window (now : Nat) (q : RuntimeQueueStruct) : Bool :=
  decide (q.st ≤ now) && decide (now < (q.st + q.dur) % ULONG_MOD)

/-- The flag `running` of the program run statistics at index `k`. -/
def pgm_running (s : State) (k : Nat) : Bool :=
  (s.pgms.getD k ⟨false, 0, 0⟩).running

/-- Station `sid` is to be started by the start pass at time `now`: it is not a master
station, its bit is clear and its tracked run is inside its window. -/
def start_condition (now : Nat) (s : State) (sid : Nat) : Prop :=
  s.mas ≠ sid + 1 ∧ s.mas2 ≠ sid + 1 ∧ s.station_bits.getD sid false = false
  ∧ ∃ q, tracked s sid = some q ∧ in_window now q = true

/-- Loop invariant of the start pass started in `s0`, with `D` the set of the stations
visited so far and `x` the current state. -/
def start_post (now : Nat) (s0 : State) (D : Nat → Prop) (x : State) : Prop :=
  queue_inv x ∧ same_status s0 x ∧ x.station_qid = s0.station_qid
  ∧ x.station_bits.length = s0.station_bits.length
  ∧ x.pgms.length = s0.pgms.length
  ∧ x.queue.length = s0.queue.length
  ∧ (∀ k, pgm_running s0 k = true → pgm_running x k = true)
  ∧ ∀ sid,
      ((D sid ∧ start_condition now s0 sid) →
        x.station_bits.getD sid false = true
        ∧ ∀ q, tracked s0 sid = some q →
            tracked x sid = some { q with running := true }
            ∧ (q.pgm < s0.pgms.length → pgm_running x q.pgm = true))
      ∧ (¬ (D sid ∧ start_condition now s0 sid) →
        x.station_bits.getD sid false = s0.station_bits.getD sid false
        ∧ tracked x sid = tracked s0 sid)

/-- The state `s1` has the queue, the station index, the busy flag and the minute
watermark of the state `s`. -/
def same_queue (s s1 : State) : Prop :=
  s1.queue = s.queue ∧ s1.station_qid = s.station_qid ∧ s1.program_busy = s.program_busy
  ∧ s1.last_minute = s.last_minute

/-- The states that the passes of `do_loop` reach from an initial state: the queue is
empty, no station is tracked and the controller is idle. -/
inductive reachable (c : Config) (water_time_resolve : Nat → Nat)
    (progs : List ProgramStruct) : State → Prop
  | init (s : State) : s.queue = [] → s.program_busy = false →
      (∀ v ∈ s.station_qid, v = 255) → reachable c water_time_resolve progs s
  | tick (s s1 : State) (i : TickInput) : reachable c water_time_resolve progs s →
      do_loop c water_time_resolve progs i s = some s1 →
      reachable c water_time_resolve progs s1

/-! ## Reference values used to state the placement rules -/

/-- A run that the placement pass still has to place: not yet scheduled (`st` is 0) and
not cancelled (`dur` is not 0). -/
def unplaced (q : RuntimeQueueStruct) : Bool :=
  q.st == 0 && q.dur != 0

/-- Start times that the sequential placement rule prescribes for runs of durations
`durs` when the first of them starts at `start`: each next start is the previous start
plus the previous duration plus the station delay, in `ulong` arithmetic. -/
def spec_seq_starts (delay : Int) : Nat → List Nat → List Nat
  | _, [] => []
  | start, d :: ds => start :: spec_seq_starts delay (toUlong ((start : Int) + d + delay)) ds

/-- New start times, in queue order, of the runs selected by `sel`: each run of the
queue `old` before a pass is paired with the run in the same slot of the queue `new`
after the pass. -/
def starts_of (sel : RuntimeQueueStruct → Bool) (old new : List RuntimeQueueStruct) :
    List Nat :=
  ((old.zip new).filter (fun p => sel p.1)).map (fun p => p.2.st)

/-- Invariant of the loops that enqueue runs (the scheduler pass and
`manual_start_program`), for the state and the flag `match_found`: the queue invariant
holds, the minute watermark is `m`, and when the queue is not empty the controller is
busy, or a run was enqueued and the queue holds a run that is still to be placed. -/
def enq_inv (m : Nat) (acc : State × Bool) : Prop :=
  queue_inv acc.1 ∧ acc.1.last_minute = m
  ∧ (acc.1.queue ≠ [] →
      acc.1.program_busy = true ∨ (acc.2 = true ∧ ∃ q ∈ acc.1.queue, unplaced q = true))

/-- The conditions of the spec for a run of station `sid` of a matching program: the
station is neither master station, the raw duration of the program for the station is
not zero, the station is not disabled, and the final duration is not zero. -/
def spec_candidate (c : Config) (water_time_resolve : Nat → Nat) (s : State)
    (prog : ProgramStruct) (sid : Nat) : Bool :=
  decide (s.mas ≠ sid + 1 ∧ s.mas2 ≠ sid + 1 ∧ prog.durations.getD sid 0 ≠ 0
    ∧ attrib_bit c.stn_dis sid = false
    ∧ scaled_water_time c water_time_resolve prog sid ≠ 0)

/-- The runs that the spec prescribes for the program with index `pid` at time `now`, in
station order, when the queue has room for all of them: none when the program does not
match. -/
def spec_program_runs (c : Config) (water_time_resolve : Nat → Nat) (now : Nat) (s : State)
    (pid : Nat) (prog : ProgramStruct) : List RuntimeQueueStruct :=
  if prog.check_match now then
    ((List.range c.nstations).filter (spec_candidate c water_time_resolve s prog)).map
      (new_run c water_time_resolve now prog pid)
  else []

/-- The runs that the spec prescribes for the stored programs `progs`, the first of which
has the index `pid`, in program order. -/
def spec_pass_runs (c : Config) (water_time_resolve : Nat → Nat) (now : Nat) (s : State) :
    Nat → List ProgramStruct → List RuntimeQueueStruct
  | _, [] => []
  | pid, prog :: rest =>
    spec_program_runs c water_time_resolve now s pid prog
      ++ spec_pass_runs c water_time_resolve now s (pid + 1) rest

/-- Invariant of the loops of the scheduler pass started in `s`, with `cands` the runs
that the spec prescribes for the stations visited so far: the queue is the queue of `s`
followed by the first of these runs, as many as the queue has room for, each linked to
its run statistics; the master stations are those of `s`; the flag `match_found` is set
exactly when a run was added. -/
def pass_inv (c : Config) (s : State) (cands : List RuntimeQueueStruct)
    (acc : State × Bool) : Prop :=
  acc.1.mas = s.mas ∧ acc.1.mas2 = s.mas2
  ∧ ∃ added : List RuntimeQueueStruct,
      acc.1.queue = s.queue ++ added
      ∧ added.map (fun q => { q with pgm := 0 }) = cands.take (c.queue_size - s.queue.length)
      ∧ (acc.2 = true ↔ added ≠ [])

/-! ## Example data -/

/-- An eight-station controller: stations 0 and 1 are sequential, station delay 5 s. -/
def demo_config : Config :=
  { nstations := 8, queue_size := 8, sensor_type := SensorType.other, remote_ext_mode := 0,
    water_percentage := 100, station_delay := 5, stn_seq := [3], stn_dis := [0],
    nboards := 1, stn_ignrain := [0], mas_op := [255], mas_op_2 := [0], mas_on_adj := 0,
    mas_off_adj := 0, mas_on_adj_2 := 0, mas_off_adj_2 := 0, use_ntp := 1,
    master_station := 0, master_station_2 := 0 }

/-- An unscheduled run of program 1 enqueued at time 1000. -/
def demo_run (sid dur : Nat) : RuntimeQueueStruct :=
  { timestamp := 1000, sid := sid, pid := 1, st := 0, dur := dur, wl := 100, volume := 0,
    running := false, pgm := 0 }

/-- An idle controller with an empty queue. -/
def demo_state : State :=
  { queue := [], station_qid := List.replicate 8 255, last_seq_stop_time := 0,
    lastrun := ⟨0, 0, 0, 0⟩, pgms := [], station_bits := List.replicate 8 false,
    program_busy := false, mas := 0, mas2 := 0, flowcount_log_start := 0, sensor_lasttime := 0,
    flow_count := 0, flow_begin := 0, flow_start := 0, flow_stop := 0, flow_gallons := 0,
    flow_last_gpm := some 0, last_flow_count := 0, last_minute := 0, flowcount_time_ms := 0,
    enabled := true, rain_delayed := false, rain_sensed := false, network_fails := 0,
    req_network := false, req_ntpsync := false, safe_reboot := false,
    sys_time := 1500000000, last_ntp_sync := 0, last_network_check := 0, last_time := 0,
    old_rain_delayed := false, old_rain_sensed := false, raindelay_start_time := 0,
    events := [] }

/-- A program that waters station 2 for `dur` seconds and matches at every time. -/
def demo_prog (dur : Nat) (use_weather : Bool) : ProgramStruct :=
  { durations := [0, 0, dur], use_weather := use_weather, check_match := fun _ => true }

/-- Configuration of the examples with the ignore-rain bit of station 2 set. -/
def demo_rain_config : Config :=
  { demo_config with stn_ignrain := [4] }

/-- State of the examples during a rain delay: station 0 and station 2 run program 1,
station 1 runs the test program. -/
def demo_rain_state : State :=
  { demo_state with
    queue := [{ demo_run 0 10 with st := 1001 }, { demo_run 1 20 with st := 1016, pid := 254 },
              { demo_run 2 30 with st := 1001 }]
    station_qid := [0, 1, 2, 255, 255, 255, 255, 255]
    station_bits := [true, true, true, false, false, false, false, false]
    rain_delayed := true }

/-- Input of a pass of `do_loop` at time `t` with no rain, no rain delay, no program
switch, no NTP answer and a successful ping. -/
def demo_tick (t : Nat) : TickInput :=
  { curr_time := t, rd_stop_time := 0, rain_sensor := false, program_switch := false,
    prog := { durations := [], use_weather := false, check_match := fun _ => false },
    ntp_time := 0, ping_failed := false, reconnect_ok := false }

/-- The example controller with station 0 as first master, station 1 as second master,
station 2 operating the first master and station 0 operating the second master. -/
def demo_master_config : Config :=
  { demo_config with master_station := 1, master_station_2 := 2, mas_op := [4], mas_op_2 := [1] }

/-! ## Lemmas on the placement loop -/

theorem schedule_iter_skip (c : Config) (t : Nat) (l : SchedLoop) (q : RuntimeQueueStruct)
    (h : unplaced q = false) : schedule_iter c t l q = (l, q) := by
  unfold unplaced at h
  unfold schedule_iter
  by_cases h1 : q.st = 0
  · by_cases h2 : q.dur = 0
    · simp [h1, h2]
    · simp [h1, h2] at h
  · simp [h1]

theorem schedule_iter_seq (c : Config) (t : Nat) (l : SchedLoop) (q : RuntimeQueueStruct)
    (h : unplaced q = true) (hs : is_sequential c q = true) :
    (schedule_iter c t l q).2 = schedule q l.seq_start_time
    ∧ (schedule_iter c t l q).1.seq_start_time
        = toUlong ((((l.seq_start_time + q.dur) % ULONG_MOD : Nat) : Int) + c.station_delay)
    ∧ (schedule_iter c t l q).1.con_start_time = l.con_start_time := by
  have h12 : q.st = 0 ∧ q.dur ≠ 0 := by simpa [unplaced] using h
  obtain ⟨h1, h2⟩ := h12
  unfold schedule_iter
  simp [h1, h2, hs]

theorem schedule_iter_con (c : Config) (t : Nat) (l : SchedLoop) (q : RuntimeQueueStruct)
    (h : unplaced q = true) (hs : is_sequential c q = false) :
    (schedule_iter c t l q).2 = schedule q l.con_start_time
    ∧ (schedule_iter c t l q).1.con_start_time = (l.con_start_time + 1) % ULONG_MOD
    ∧ (schedule_iter c t l q).1.seq_start_time = l.seq_start_time := by
  have h12 : q.st = 0 ∧ q.dur ≠ 0 := by simpa [unplaced] using h
  obtain ⟨h1, h2⟩ := h12
  unfold schedule_iter
  simp [h1, h2, hs]

theorem schedule_walk_cons (c : Config) (t : Nat) (l : SchedLoop) (q : RuntimeQueueStruct)
    (qs : List RuntimeQueueStruct) :
    (schedule_walk c t l (q :: qs)).2
      = (schedule_iter c t l q).2 :: (schedule_walk c t (schedule_iter c t l q).1 qs).2 := rfl

theorem schedule_all_stations_queue (c : Config) (t : Nat) (s : State) :
    (schedule_all_stations c t s).queue
      = (schedule_walk c t ⟨(t + 1) % ULONG_MOD, seq_start_init c t s, s⟩ s.queue).2 := rfl

theorem toUlong_add_mod (a d : Nat) (delay : Int) :
    toUlong ((((a + d) % ULONG_MOD : Nat) : Int) + delay) = toUlong ((a : Int) + d + delay) := by
  unfold toUlong ULONG_MOD
  congr 1
  push_cast
  rw [Int.emod_add_emod]

theorem schedule_walk_seq_starts (c : Config) (t : Nat) (qs : List RuntimeQueueStruct) :
    ∀ l : SchedLoop,
      starts_of (fun q => unplaced q && is_sequential c q) qs (schedule_walk c t l qs).2
        = spec_seq_starts c.station_delay l.seq_start_time
            ((qs.filter (fun q => unplaced q && is_sequential c q)).map (fun q => q.dur)) := by
  induction qs with
  | nil => intro l; rfl
  | cons q qs ih =>
    intro l
    unfold starts_of at ih ⊢
    rw [schedule_walk_cons, List.zip_cons_cons]
    by_cases hu : unplaced q = true
    · by_cases hs : is_sequential c q = true
      · obtain ⟨h1, h2, _⟩ := schedule_iter_seq c t l q hu hs
        simp only [List.filter_cons, hu, hs, Bool.and_self, if_true, List.map_cons]
        rw [ih, h2, h1, toUlong_add_mod]
        simp [spec_seq_starts, schedule]
      · have hs' : is_sequential c q = false := by simpa using hs
        obtain ⟨_, _, h3⟩ := schedule_iter_con c t l q hu hs'
        simp [List.filter_cons, hu, hs', ih, h3]
    · have hu' : unplaced q = false := by simpa using hu
      rw [schedule_iter_skip c t l q hu']
      simp [List.filter_cons, hu', ih]

theorem schedule_walk_con_starts (c : Config) (t : Nat) (qs : List RuntimeQueueStruct) :
    ∀ (l : SchedLoop) (a : Nat), l.con_start_time = a % ULONG_MOD →
      starts_of (fun q => unplaced q && !is_sequential c q) qs (schedule_walk c t l qs).2
        = (List.range (qs.filter (fun q => unplaced q && !is_sequential c q)).length).map
            (fun k => (a + k) % ULONG_MOD) := by
  induction qs with
  | nil => intro l a _; rfl
  | cons q qs ih =>
    intro l a ha
    unfold starts_of at ih ⊢
    rw [schedule_walk_cons, List.zip_cons_cons]
    by_cases hu : unplaced q = true
    · by_cases hs : is_sequential c q = true
      · obtain ⟨_, _, h3⟩ := schedule_iter_seq c t l q hu hs
        have := ih (schedule_iter c t l q).1 a (by rw [h3, ha])
        simp [List.filter_cons, hu, hs, this]
      · have hs' : is_sequential c q = false := by simpa using hs
        obtain ⟨h1, h2, _⟩ := schedule_iter_con c t l q hu hs'
        have := ih (schedule_iter c t l q).1 (a + 1) (by rw [h2, ha, Nat.mod_add_mod])
        simp only [List.filter_cons, hu, hs', Bool.not_false, Bool.and_self, if_true,
          List.map_cons, List.length_cons]
        rw [this, h1, List.range_succ_eq_map, List.map_cons, List.map_map]
        simp only [schedule, Nat.add_zero, ha]
        congr 1
        apply List.map_congr_left
        intro k _
        simp only [Function.comp, Nat.succ_eq_add_one]
        congr 1
        omega
    · have hu' : unplaced q = false := by simpa using hu
      rw [schedule_iter_skip c t l q hu']
      simp [List.filter_cons, hu', ih l a ha]

theorem schedule_iter_frame (c : Config) (t : Nat) (l : SchedLoop) (q : RuntimeQueueStruct) :
    (schedule_iter c t l q).2 = { q with st := (schedule_iter c t l q).2.st } := by
  by_cases hu : unplaced q = true
  · by_cases hs : is_sequential c q = true
    · rw [(schedule_iter_seq c t l q hu hs).1]; rfl
    · have hs' : is_sequential c q = false := by simpa using hs
      rw [(schedule_iter_con c t l q hu hs').1]; rfl
  · have hu' : unplaced q = false := by simpa using hu
    rw [schedule_iter_skip c t l q hu']

theorem schedule_walk_length (c : Config) (t : Nat) (qs : List RuntimeQueueStruct) :
    ∀ l : SchedLoop, (schedule_walk c t l qs).2.length = qs.length := by
  induction qs with
  | nil => intro l; rfl
  | cons q qs ih => intro l; rw [schedule_walk_cons]; simp [ih]

theorem schedule_walk_frame (c : Config) (t : Nat) (qs : List RuntimeQueueStruct) :
    ∀ l : SchedLoop, ∀ p ∈ qs.zip (schedule_walk c t l qs).2, p.2 = { p.1 with st := p.2.st } := by
  induction qs with
  | nil => intro l p hp; simp [schedule_walk] at hp
  | cons q qs ih =>
    intro l p hp
    rw [schedule_walk_cons, List.zip_cons_cons, List.mem_cons] at hp
    rcases hp with hp | hp
    · subst hp; exact schedule_iter_frame c t l q
    · exact ih _ p hp

theorem schedule_walk_get (c : Config) (t : Nat) (qs : List RuntimeQueueStruct) :
    ∀ (l : SchedLoop) (i : Nat) (q : RuntimeQueueStruct), qs[i]? = some q →
      ∃ l1 : SchedLoop, (schedule_walk c t l qs).2[i]? = some (schedule_iter c t l1 q).2 := by
  induction qs with
  | nil => intro l i q h; simp at h
  | cons q0 qs ih =>
    intro l i q h
    rw [schedule_walk_cons]
    cases i with
    | zero =>
      simp only [List.getElem?_cons_zero, Option.some.injEq] at h
      subst h
      exact ⟨l, by simp⟩
    | succ i =>
      simp only [List.getElem?_cons_succ] at h
      obtain ⟨l1, h1⟩ := ih (schedule_iter c t l q0).1 i q h
      exact ⟨l1, by simpa using h1⟩

/-! ## Lemmas on the scheduler pass -/

theorem sched_station_eq (c : Config) (wtr : Nat → Nat) (now : Nat) (prog : ProgramStruct)
    (pid : Nat) (s : State) (mf : Bool) (sid : Nat) :
    sched_station c wtr now prog pid (s, mf) sid
      = if s.mas ≠ sid + 1 ∧ s.mas2 ≠ sid + 1 ∧ prog.durations.getD sid 0 ≠ 0
            ∧ attrib_bit c.stn_dis sid = false ∧ scaled_water_time c wtr prog sid ≠ 0
            ∧ s.queue.length < c.queue_size
        then (enqueue c (new_run c wtr now prog pid sid) s, true)
        else (s, mf) := by
  unfold sched_station queue_full
  generalize prog.durations.getD sid 0 = raw
  by_cases h1 : s.mas = sid + 1
  · simp [h1]
  by_cases h2 : s.mas2 = sid + 1
  · simp [h2]
  by_cases h3 : raw = 0
  · simp [h3]
  by_cases h4 : attrib_bit c.stn_dis sid = false
  · by_cases h5 : scaled_water_time c wtr prog sid = 0
    · simp [h5]
    · by_cases h6 : s.queue.length < c.queue_size
      · simp [h1, h2, h3, h4, h5, h6]
      · simp [h1, h2, h3, h4, h5, h6]
  · simp [h1, h2, h3, h4]

theorem enqueue_queue (c : Config) (q : RuntimeQueueStruct) (s : State)
    (h : s.queue.length < c.queue_size) :
    ∃ k, (enqueue c q s).queue = s.queue ++ [{ q with pgm := k }] := by
  unfold enqueue queue_full
  have h1 : ¬ c.queue_size ≤ s.queue.length := Nat.not_le.mpr h
  cases hf : find_pgm s.queue q.pid q.timestamp with
  | none => exact ⟨s.pgms.length, by simp [h1]⟩
  | some k => exact ⟨k, by simp [h1]⟩

/-! ## Placement pass: claims C1, C2, C6, C7 -/

/-- C1: in `schedule_all_stations(now)`, with remote-extension mode off and no earlier
sequential run still active (`last_seq_stop_time <= now`), the unscheduled, non-cancelled
runs on sequential stations receive, in queue order, the start times `s_1 = now + 1` and
`s_(k+1) = s_k + dur_k + stationDelay` (arithmetic of the 32-bit `ulong` type); the pass
keeps the queue length and changes no field of a run other than its start, so the
durations are unchanged. Durations 100 s and 50 s with station delay 5 s at `now = 1000`
get the starts 1001 and 1106. -/
theorem C1_sequential_starts (c : Config) (now : Nat) (s : State)
    (hre : c.remote_ext_mode = 0) (hlast : s.last_seq_stop_time ≤ now) :
    starts_of (fun q => unplaced q && attrib_bit c.stn_seq q.sid) s.queue
        (schedule_all_stations c now s).queue
      = spec_seq_starts c.station_delay ((now + 1) % ULONG_MOD)
          ((s.queue.filter (fun q => unplaced q && attrib_bit c.stn_seq q.sid)).map
            (fun q => q.dur))
    ∧ (schedule_all_stations c now s).queue.length = s.queue.length
    ∧ (∀ p ∈ s.queue.zip (schedule_all_stations c now s).queue,
        p.2 = { p.1 with st := p.2.st })
    ∧ (schedule_all_stations demo_config 1000
          { demo_state with queue := [demo_run 0 100, demo_run 1 50] }).queue.map
        (fun q => (q.st, q.dur)) = [(1001, 100), (1106, 50)] := by
  have hsel : (fun q => unplaced q && attrib_bit c.stn_seq q.sid)
      = (fun q => unplaced q && is_sequential c q) := by
    funext q
    simp [is_sequential, hre]
  have hinit : seq_start_init c now s = (now + 1) % ULONG_MOD := by
    unfold seq_start_init
    rw [if_neg (Nat.not_lt.mpr hlast)]
  refine ⟨?_, ?_, ?_, by decide⟩
  · rw [hsel, schedule_all_stations_queue, schedule_walk_seq_starts, hinit]
  · rw [schedule_all_stations_queue, schedule_walk_length]
  · rw [schedule_all_stations_queue]
    exact schedule_walk_frame c now s.queue _

/-- Witness of C1: the two sequential runs of scenario C. -/
theorem C1_sequential_starts_witness :
    demo_config.remote_ext_mode = 0
    ∧ ({ demo_state with queue := [demo_run 0 100, demo_run 1 50] } : State).last_seq_stop_time
        ≤ 1000
    ∧ starts_of (fun q => unplaced q && attrib_bit demo_config.stn_seq q.sid)
        [demo_run 0 100, demo_run 1 50]
        (schedule_all_stations demo_config 1000
          { demo_state with queue := [demo_run 0 100, demo_run 1 50] }).queue
      = [1001, 1106] :=
  ⟨rfl, by decide,
    (C1_sequential_starts demo_config 1000
      { demo_state with queue := [demo_run 0 100, demo_run 1 50] } rfl (by decide)).1.trans
      (by decide)⟩

/-- C2: in `schedule_all_stations(now)`, the k-th (1-based, in queue order) unscheduled,
non-cancelled run that is placed concurrently (its station is not sequential, or the
controller is in remote-extension mode) receives the start `now + k` (arithmetic of the
32-bit `ulong` type), whatever sequentially placed runs are interleaved with it. Two
concurrent stations at `now = 1000` get the starts 1001 and 1002. -/
theorem C2_concurrent_starts (c : Config) (now : Nat) (s : State) :
    starts_of (fun q => unplaced q && !is_sequential c q) s.queue
        (schedule_all_stations c now s).queue
      = (List.range (s.queue.filter (fun q => unplaced q && !is_sequential c q)).length).map
          (fun k => (now + (k + 1)) % ULONG_MOD)
    ∧ (schedule_all_stations demo_config 1000
          { demo_state with queue := [demo_run 2 7, demo_run 3 9] }).queue.map
        (fun q => q.st) = [1001, 1002] := by
  refine ⟨?_, by decide⟩
  rw [schedule_all_stations_queue,
    schedule_walk_con_starts c now s.queue _ (now + 1) rfl]
  apply List.map_congr_left
  intro k _
  congr 1
  omega

/-- C6: `schedule_all_stations(now)` leaves a run whose start time is already non-zero
as it is, in its slot; a run that the pass changes had start time 0 (and a non-zero
duration) before the pass. -/
theorem C6_start_assigned_once (c : Config) (now : Nat) (s : State) (i : Nat)
    (q : RuntimeQueueStruct) (hq : s.queue[i]? = some q) :
    (q.st ≠ 0 → (schedule_all_stations c now s).queue[i]? = some q)
    ∧ (∀ q1, (schedule_all_stations c now s).queue[i]? = some q1 → q1 ≠ q →
        q.st = 0 ∧ q.dur ≠ 0) := by
  rw [schedule_all_stations_queue]
  obtain ⟨l1, h1⟩ := schedule_walk_get c now s.queue _ i q hq
  rw [h1]
  constructor
  · intro hst
    have hu : unplaced q = false := by simp [unplaced, hst]
    rw [schedule_iter_skip c now l1 q hu]
  · intro q1 hq1 hne
    by_cases hu : unplaced q = true
    · simpa [unplaced] using hu
    · have hu' : unplaced q = false := by simpa using hu
      rw [schedule_iter_skip c now l1 q hu'] at hq1
      exact absurd (Option.some.inj hq1).symm hne

/-- Witness of C6: a run already scheduled at 900 keeps its start while the run queued
behind it is placed. -/
theorem C6_start_assigned_once_witness :
    ({ demo_state with queue := [{ demo_run 0 100 with st := 900 }, demo_run 1 50] } :
        State).queue[0]? = some { demo_run 0 100 with st := 900 }
    ∧ (schedule_all_stations demo_config 1000
        { demo_state with queue := [{ demo_run 0 100 with st := 900 }, demo_run 1 50] }).queue[0]?
      = some { demo_run 0 100 with st := 900 } :=
  ⟨rfl,
    (C6_start_assigned_once demo_config 1000
      { demo_state with queue := [{ demo_run 0 100 with st := 900 }, demo_run 1 50] } 0
      { demo_run 0 100 with st := 900 } rfl).1 (by decide)⟩

/-- Counterexample to C7 as stated: at `now = 1000` with `lastSequentialStop = 1000` and
station delay 5 the pass places the first sequential run at 1001, whereas
`max(now + 1, lastSequentialStop + stationDelay)` is 1005. -/
theorem C7_counterexample :
    ((seq_start_init demo_config 1000 { demo_state with last_seq_stop_time := 1000 } : Nat) : Int)
      ≠ max ((1000 : Int) + 1) ((1000 : Int) + demo_config.station_delay)
    ∧ (schedule_all_stations demo_config 1000
        { demo_state with last_seq_stop_time := 1000, queue := [demo_run 0 100] }).queue.map
        (fun q => q.st) = [1001] := by
  constructor
  · decide
  · decide

/-- C7 (amended): the start that `schedule_all_stations(now)` gives to the first
sequentially placed run is `lastSequentialStop + stationDelay` (arithmetic of the 32-bit
`ulong` type) when `lastSequentialStop > now`, and `now + 1` otherwise. -/
theorem C7_sequential_cursor (c : Config) (now : Nat) (s : State) (st : Nat)
    (hfirst : (starts_of (fun q => unplaced q && is_sequential c q) s.queue
        (schedule_all_stations c now s).queue).head? = some st) :
    st = (if s.last_seq_stop_time > now then
            toUlong ((s.last_seq_stop_time : Int) + c.station_delay)
          else (now + 1) % ULONG_MOD) := by
  rw [schedule_all_stations_queue, schedule_walk_seq_starts] at hfirst
  cases hd : (s.queue.filter (fun q => unplaced q && is_sequential c q)).map (fun q => q.dur) with
  | nil => rw [hd] at hfirst; simp [spec_seq_starts] at hfirst
  | cons d ds =>
    rw [hd] at hfirst
    simp only [spec_seq_starts, List.head?_cons, Option.some.injEq] at hfirst
    rw [← hfirst]
    rfl

/-- Witness of C7 (amended): a sequential run still active until 1200 pushes the first
new sequential run to 1205. -/
theorem C7_sequential_cursor_witness :
    (starts_of (fun q => unplaced q && is_sequential demo_config q) [demo_run 0 100]
        (schedule_all_stations demo_config 1000
          { demo_state with last_seq_stop_time := 1200, queue := [demo_run 0 100] }).queue).head?
      = some 1205
    ∧ (1205 : Nat) = (if (1200 : Nat) > 1000 then toUlong ((1200 : Int) + 5) else (1000 + 1) % ULONG_MOD) :=
  ⟨by decide,
    C7_sequential_cursor demo_config 1000
      { demo_state with last_seq_stop_time := 1200, queue := [demo_run 0 100] } 1205 (by decide)⟩

/-! ## Scheduler pass: claims C3, C4, C5 -/

/-- C3: for a program with weather scaling enabled, the final duration of a station is
the resolved duration times the water percentage divided by 100 (integer division; the
product is taken in the 32-bit `ulong` type and is exact below `2^32`), except that it
is forced to 0 when the percentage is below 20 and the scaled value is below 10; when the
final duration is 0 the station iteration of the scheduler pass enqueues nothing and
leaves the state as it is. Percentage 15 and a resolved 40 s scale to 6 s, which is
forced to 0, and the station is not queued. -/
theorem C3_weather_scaling (c : Config) (wtr : Nat → Nat) (now : Nat) (prog : ProgramStruct)
    (pid : Nat) (s : State) (mf : Bool) (sid : Nat) (hw : prog.use_weather = true) :
    scaled_water_time c wtr prog sid
      = (if c.water_percentage < 20
            ∧ wtr (prog.durations.getD sid 0) * c.water_percentage % ULONG_MOD / 100 < 10
          then 0
          else wtr (prog.durations.getD sid 0) * c.water_percentage % ULONG_MOD / 100)
    ∧ (wtr (prog.durations.getD sid 0) * c.water_percentage < ULONG_MOD →
        wtr (prog.durations.getD sid 0) * c.water_percentage % ULONG_MOD / 100
          = wtr (prog.durations.getD sid 0) * c.water_percentage / 100)
    ∧ (scaled_water_time c wtr prog sid = 0 →
        sched_station c wtr now prog pid (s, mf) sid = (s, mf))
    ∧ (40 * 15 / 100 = 6
        ∧ scaled_water_time { demo_config with water_percentage := 15 } id (demo_prog 40 true) 2
          = 0
        ∧ (do_loop_schedule { demo_config with water_percentage := 15 } id [demo_prog 40 true]
            1000 demo_state).queue = []) := by
  refine ⟨?_, ?_, ?_, by decide⟩
  · unfold scaled_water_time
    simp [hw]
  · intro h
    rw [Nat.mod_eq_of_lt h]
  · intro h0
    rw [sched_station_eq]
    simp [h0]

/-- Witness of C3: scenario B, percentage 15 and a resolved duration of 40 s. -/
theorem C3_weather_scaling_witness :
    (demo_prog 40 true).use_weather = true
    ∧ scaled_water_time { demo_config with water_percentage := 15 } id (demo_prog 40 true) 2 = 0
    ∧ sched_station { demo_config with water_percentage := 15 } id 1000 (demo_prog 40 true) 0
        (demo_state, false) 2 = (demo_state, false) :=
  ⟨rfl, by decide,
    (C3_weather_scaling { demo_config with water_percentage := 15 } id 1000 (demo_prog 40 true) 0
      demo_state false 2 rfl).2.2.1 (by decide)⟩

/-- C4: for a program with weather scaling disabled, the final duration of a station
equals its resolved duration for every value of the water percentage, and a station
iteration of the scheduler pass either changes nothing or appends to the queue one run
whose duration is the resolved duration and whose applied water level is 100. A
duration of 300 s stays 300 s at percentage 50. -/
theorem C4_no_weather_scaling (c : Config) (wtr : Nat → Nat) (now : Nat)
    (prog : ProgramStruct) (pid : Nat) (s : State) (mf : Bool) (sid : Nat)
    (hw : prog.use_weather = false) :
    scaled_water_time c wtr prog sid = wtr (prog.durations.getD sid 0)
    ∧ (sched_station c wtr now prog pid (s, mf) sid = (s, mf)
        ∨ ∃ k, (sched_station c wtr now prog pid (s, mf) sid).1.queue
            = s.queue ++ [{ timestamp := now, sid := sid, pid := pid + 1, st := 0,
                            dur := wtr (prog.durations.getD sid 0), wl := 100, volume := 0,
                            running := false, pgm := k }])
    ∧ (do_loop_schedule { demo_config with water_percentage := 50 } id [demo_prog 300 false]
          1000 demo_state).queue.map (fun q => (q.sid, q.dur, q.wl)) = [(2, 300, 100)] := by
  have hd : scaled_water_time c wtr prog sid = wtr (prog.durations.getD sid 0) := by
    unfold scaled_water_time
    simp [hw]
  refine ⟨hd, ?_, by decide⟩
  rw [sched_station_eq]
  split
  · rename_i hc
    right
    obtain ⟨k, hk⟩ := enqueue_queue c (new_run c wtr now prog pid sid) s hc.2.2.2.2.2
    refine ⟨k, ?_⟩
    rw [hk]
    simp [new_run, hd, hw]
  · left
    rfl

/-- Witness of C4: scenario A, a duration of 300 s at percentage 50 without weather
scaling. -/
theorem C4_no_weather_scaling_witness :
    (demo_prog 300 false).use_weather = false
    ∧ scaled_water_time { demo_config with water_percentage := 50 } id (demo_prog 300 false) 2
        = 300 :=
  ⟨rfl,
    (C4_no_weather_scaling { demo_config with water_percentage := 50 } id 1000
      (demo_prog 300 false) 0 demo_state false 2 rfl).1⟩

/-- One iteration of the loops of the scheduler pass: a program that does not match `now`
enqueues nothing; for a matching program the stations are visited in order and the iteration of
station `sid` of program index `pid` appends a run to the queue if and only if `sid` is
neither master station, the raw duration of the program for `sid` is non-zero, `sid` is
not disabled, the final duration is non-zero and the queue is not full at that moment.
The appended run has station `sid`, program id `pid + 1`, start 0, enqueue time `now`,
the final duration, running flag false and volume 0. In every other case, a full queue
included, the iteration leaves the whole state as it is. -/
theorem sched_station_condition (c : Config) (wtr : Nat → Nat) (now : Nat)
    (prog : ProgramStruct) (pid : Nat) (s : State) (mf : Bool) (sid : Nat) :
    (prog.check_match now = false → sched_program c wtr now (s, mf) pid prog = (s, mf))
    ∧ (prog.check_match now = true →
        sched_program c wtr now (s, mf) pid prog
          = (List.range c.nstations).foldl (sched_station c wtr now prog pid) (s, mf))
    ∧ ((s.mas ≠ sid + 1 ∧ s.mas2 ≠ sid + 1 ∧ prog.durations.getD sid 0 ≠ 0
          ∧ attrib_bit c.stn_dis sid = false ∧ scaled_water_time c wtr prog sid ≠ 0
          ∧ s.queue.length < c.queue_size) →
        (sched_station c wtr now prog pid (s, mf) sid).2 = true
        ∧ ∃ k, (sched_station c wtr now prog pid (s, mf) sid).1.queue
            = s.queue ++ [{ timestamp := now, sid := sid, pid := pid + 1, st := 0,
                            dur := scaled_water_time c wtr prog sid,
                            wl := if prog.use_weather then c.water_percentage else 100,
                            volume := 0, running := false, pgm := k }])
    ∧ (¬ (s.mas ≠ sid + 1 ∧ s.mas2 ≠ sid + 1 ∧ prog.durations.getD sid 0 ≠ 0
          ∧ attrib_bit c.stn_dis sid = false ∧ scaled_water_time c wtr prog sid ≠ 0
          ∧ s.queue.length < c.queue_size) →
        sched_station c wtr now prog pid (s, mf) sid = (s, mf)) := by
  refine ⟨?_, ?_, ?_, ?_⟩
  · intro h
    simp [sched_program, h]
  · intro h
    simp [sched_program, h]
  · intro hc
    rw [sched_station_eq, if_pos hc]
    refine ⟨rfl, ?_⟩
    obtain ⟨k, hk⟩ := enqueue_queue c (new_run c wtr now prog pid sid) s hc.2.2.2.2.2
    exact ⟨k, by rw [hk]; rfl⟩
  · intro hc
    rw [sched_station_eq, if_neg hc]

/-- Example of one iteration: with a queue of capacity 1 that already holds a run, the
run of station 2 is dropped and the state is unchanged. -/
theorem sched_station_condition_demo :
    ¬ ((({ demo_state with queue := [demo_run 0 100] } : State).mas ≠ 2 + 1
        ∧ ({ demo_state with queue := [demo_run 0 100] } : State).mas2 ≠ 2 + 1
        ∧ (demo_prog 300 false).durations.getD 2 0 ≠ 0
        ∧ attrib_bit ({ demo_config with queue_size := 1 } : Config).stn_dis 2 = false
        ∧ scaled_water_time { demo_config with queue_size := 1 } id (demo_prog 300 false) 2 ≠ 0
        ∧ ({ demo_state with queue := [demo_run 0 100] } : State).queue.length
            < ({ demo_config with queue_size := 1 } : Config).queue_size))
    ∧ sched_station { demo_config with queue_size := 1 } id 1000 (demo_prog 300 false) 0
        ({ demo_state with queue := [demo_run 0 100] }, false) 2
      = ({ demo_state with queue := [demo_run 0 100] }, false) :=
  ⟨by decide,
    (sched_station_condition { demo_config with queue_size := 1 } id 1000 (demo_prog 300 false) 0
      { demo_state with queue := [demo_run 0 100] } false 2).2.2.2 (by decide)⟩

/-! ## The scheduler pass as a whole: claim C5 -/

theorem enqueue_mas (c : Config) (q : RuntimeQueueStruct) (s : State) :
    (enqueue c q s).mas = s.mas ∧ (enqueue c q s).mas2 = s.mas2 := by
  unfold enqueue
  split
  · exact ⟨rfl, rfl⟩
  · split <;> exact ⟨rfl, rfl⟩

/-- One iteration of the station loop of the scheduler pass keeps the invariant of the
pass and adds the run of the station to the prescribed runs when the spec prescribes
one. -/
theorem pass_inv_sched_station (c : Config) (wtr : Nat → Nat) (now : Nat) (s : State)
    (prog : ProgramStruct) (pid : Nat) (cands : List RuntimeQueueStruct) (acc : State × Bool)
    (sid : Nat) (h : pass_inv c s cands acc) :
    pass_inv c s
      (cands ++ (if spec_candidate c wtr s prog sid then [new_run c wtr now prog pid sid]
                 else []))
      (sched_station c wtr now prog pid acc sid) := by
  obtain ⟨x, mf⟩ := acc
  obtain ⟨hm1, hm2, added, hq, hmap, hflag⟩ := h
  have hm1 : x.mas = s.mas := hm1
  have hm2 : x.mas2 = s.mas2 := hm2
  have hq : x.queue = s.queue ++ added := hq
  have hlen : added.length = min (c.queue_size - s.queue.length) cands.length := by
    have := congrArg List.length hmap
    simpa using this
  have hxl : x.queue.length = s.queue.length + added.length := by rw [hq]; simp
  rw [sched_station_eq]
  by_cases hcand : spec_candidate c wtr s prog sid = true
  · rw [if_pos hcand]
    have hc5 : s.mas ≠ sid + 1 ∧ s.mas2 ≠ sid + 1 ∧ prog.durations.getD sid 0 ≠ 0
        ∧ attrib_bit c.stn_dis sid = false ∧ scaled_water_time c wtr prog sid ≠ 0 := by
      simpa [spec_candidate] using hcand
    by_cases hroom : x.queue.length < c.queue_size
    · rw [if_pos ⟨by rw [hm1]; exact hc5.1, by rw [hm2]; exact hc5.2.1, hc5.2.2.1, hc5.2.2.2.1,
        hc5.2.2.2.2, hroom⟩]
      obtain ⟨k, hk⟩ := enqueue_queue c (new_run c wtr now prog pid sid) x hroom
      refine ⟨((enqueue_mas c _ x).1).trans hm1, ((enqueue_mas c _ x).2).trans hm2,
        added ++ [{ new_run c wtr now prog pid sid with pgm := k }], ?_, ?_, ?_⟩
      · show (enqueue c (new_run c wtr now prog pid sid) x).queue = _
        rw [hk, hq, List.append_assoc]
      · have hcl : cands.length < c.queue_size - s.queue.length := by omega
        rw [List.map_append, hmap, List.take_of_length_le (by omega),
          List.take_of_length_le (by simp; omega)]
        rfl
      · simp
    · rw [if_neg (fun hc => hroom hc.2.2.2.2.2)]
      refine ⟨hm1, hm2, added, hq, ?_, hflag⟩
      rw [hmap, List.take_append_of_le_length (by omega)]
  · rw [if_neg hcand, List.append_nil]
    have hnc : ¬ (x.mas ≠ sid + 1 ∧ x.mas2 ≠ sid + 1 ∧ prog.durations.getD sid 0 ≠ 0
        ∧ attrib_bit c.stn_dis sid = false ∧ scaled_water_time c wtr prog sid ≠ 0
        ∧ x.queue.length < c.queue_size) := by
      intro hc
      apply hcand
      rw [hm1, hm2] at hc
      simp only [spec_candidate, decide_eq_true_eq]
      exact ⟨hc.1, hc.2.1, hc.2.2.1, hc.2.2.2.1, hc.2.2.2.2.1⟩
    rw [if_neg hnc]
    exact ⟨hm1, hm2, added, hq, hmap, hflag⟩

theorem pass_inv_sched_stations (c : Config) (wtr : Nat → Nat) (now : Nat) (s : State)
    (prog : ProgramStruct) (pid : Nat) :
    ∀ (sids : List Nat) (cands : List RuntimeQueueStruct) (acc : State × Bool),
      pass_inv c s cands acc →
      pass_inv c s
        (cands ++ (sids.filter (spec_candidate c wtr s prog)).map (new_run c wtr now prog pid))
        (sids.foldl (sched_station c wtr now prog pid) acc) := by
  intro sids
  induction sids with
  | nil =>
    intro cands acc h
    simpa using h
  | cons sid rest ih =>
    intro cands acc h
    have h1 := ih _ _ (pass_inv_sched_station c wtr now s prog pid cands acc sid h)
    rw [List.foldl_cons]
    by_cases hcand : spec_candidate c wtr s prog sid = true
    · rw [List.filter_cons_of_pos hcand, List.map_cons]
      rw [if_pos hcand, List.append_assoc] at h1
      exact h1
    · rw [List.filter_cons_of_neg hcand]
      rw [if_neg hcand, List.append_nil] at h1
      exact h1

theorem pass_inv_sched_programs (c : Config) (wtr : Nat → Nat) (now : Nat) (s : State) :
    ∀ (progs : List ProgramStruct) (pid : Nat) (cands : List RuntimeQueueStruct)
      (acc : State × Bool), pass_inv c s cands acc →
      pass_inv c s (cands ++ spec_pass_runs c wtr now s pid progs)
        (sched_programs c wtr now pid progs acc) := by
  intro progs
  induction progs with
  | nil =>
    intro pid cands acc h
    simpa [spec_pass_runs, sched_programs] using h
  | cons prog rest ih =>
    intro pid cands acc h
    have hprog : pass_inv c s (cands ++ spec_program_runs c wtr now s pid prog)
        (sched_program c wtr now acc pid prog) := by
      unfold sched_program spec_program_runs
      by_cases hm : prog.check_match now = true
      · rw [if_pos hm, if_pos hm]
        exact pass_inv_sched_stations c wtr now s prog pid _ cands acc h
      · rw [if_neg hm, if_neg hm, List.append_nil]
        exact h
    have h1 := ih (pid + 1) _ _ hprog
    rw [List.append_assoc] at h1
    exact h1

/-- The runs that the spec prescribes for a pass are the runs `new_run` of the stations
that satisfy the conditions of the spec, for the matching programs, each with the index
of its program in the list of the stored programs. -/
theorem mem_spec_pass_runs (c : Config) (wtr : Nat → Nat) (now : Nat) (s : State)
    (r : RuntimeQueueStruct) :
    ∀ (progs : List ProgramStruct) (p0 : Nat),
      r ∈ spec_pass_runs c wtr now s p0 progs ↔
        ∃ k prog sid, progs[k]? = some prog ∧ prog.check_match now = true
          ∧ sid < c.nstations ∧ spec_candidate c wtr s prog sid = true
          ∧ r = new_run c wtr now prog (p0 + k) sid := by
  intro progs
  induction progs with
  | nil =>
    intro p0
    simp [spec_pass_runs]
  | cons prog rest ih =>
    intro p0
    rw [spec_pass_runs, List.mem_append, ih (p0 + 1)]
    constructor
    · rintro (h | ⟨k, pg, sid, hk, hm, hs, hc, hr⟩)
      · unfold spec_program_runs at h
        by_cases hm : prog.check_match now = true
        · rw [if_pos hm] at h
          obtain ⟨sid, hsid, hr⟩ := List.mem_map.mp h
          obtain ⟨hs1, hs2⟩ := List.mem_filter.mp hsid
          exact ⟨0, prog, sid, by simp, hm, List.mem_range.mp hs1, hs2, hr.symm⟩
        · rw [if_neg hm] at h
          simp at h
      · refine ⟨k + 1, pg, sid, ?_, hm, hs, hc, ?_⟩
        · simpa using hk
        · rw [hr]
          congr 1
          omega
    · rintro ⟨k, pg, sid, hk, hm, hs, hc, hr⟩
      cases k with
      | zero =>
        left
        have hpg : prog = pg := by simpa using hk
        subst hpg
        unfold spec_program_runs
        rw [if_pos hm]
        exact List.mem_map.mpr ⟨sid, List.mem_filter.mpr ⟨List.mem_range.mpr hs, hc⟩, hr.symm⟩
      | succ k =>
        right
        refine ⟨k, pg, sid, by simpa using hk, hm, hs, hc, ?_⟩
        rw [hr]
        congr 1
        omega

theorem zip_frame_length (c : Config) (t : Nat) (s : State) :
    (schedule_all_stations c t s).queue.length = s.queue.length
    ∧ ∀ p ∈ s.queue.zip (schedule_all_stations c t s).queue, p.2 = { p.1 with st := p.2.st } := by
  rw [schedule_all_stations_queue]
  exact ⟨schedule_walk_length c t s.queue _, schedule_walk_frame c t s.queue _⟩

theorem zip_self_mem (l : List RuntimeQueueStruct) :
    ∀ p ∈ l.zip l, p.2 = p.1 := by
  induction l with
  | nil => intro p hp; simp at hp
  | cons a l ih =>
    intro p hp
    rw [List.zip_cons_cons] at hp
    rcases List.mem_cons.mp hp with h | h
    · rw [h]
    · exact ih p h

/-- C5: the scheduler pass is minute-gated: in the minute of the watermark it leaves the
state as it is. In another minute, the pass at time `now` walks the stored programs in
order, the program with index `pid` having the position `pid` in the list, and the
stations of each matching program in order; a run is prescribed for station `sid` of
program index `pid` if and only if the program matches `now`, `sid` is neither master
station, the raw duration of the program for `sid` is non-zero, `sid` is not disabled and
the final (possibly weather-scaled) duration is non-zero, and the prescribed run has
station `sid`, program id `pid + 1`, start 0, enqueue time `now`, the final duration,
running flag false and volume 0. The queue after the enqueueing loops is the old queue
followed by the prescribed runs, in order, as long as the queue is not full at that
moment: the runs prescribed once the queue is full are dropped, and a pass that starts
with a full queue leaves the queue unchanged. The flag `match_found` is set exactly when
a run was enqueued, and the placement that follows changes nothing but start times. -/
theorem C5_enqueue_condition (c : Config) (wtr : Nat → Nat) (progs : List ProgramStruct)
    (now : Nat) (s : State) :
    (now / 60 = s.last_minute → do_loop_schedule c wtr progs now s = s)
    ∧ (now / 60 ≠ s.last_minute →
        ∃ added : List RuntimeQueueStruct,
          (sched_programs c wtr now 0 progs ({ s with last_minute := now / 60 }, false)).1.queue
            = s.queue ++ added
          ∧ added.map (fun q => { q with pgm := 0 })
              = (spec_pass_runs c wtr now s 0 progs).take (c.queue_size - s.queue.length)
          ∧ ((sched_programs c wtr now 0 progs
                ({ s with last_minute := now / 60 }, false)).2 = true ↔ added ≠ [])
          ∧ (do_loop_schedule c wtr progs now s).queue.length = s.queue.length + added.length
          ∧ (∀ p ∈ (s.queue ++ added).zip (do_loop_schedule c wtr progs now s).queue,
              p.2 = { p.1 with st := p.2.st })
          ∧ (c.queue_size ≤ s.queue.length →
              (do_loop_schedule c wtr progs now s).queue = s.queue))
    ∧ (∀ r, r ∈ spec_pass_runs c wtr now s 0 progs ↔
        ∃ pid prog sid, progs[pid]? = some prog ∧ prog.check_match now = true
          ∧ sid < c.nstations ∧ s.mas ≠ sid + 1 ∧ s.mas2 ≠ sid + 1
          ∧ prog.durations.getD sid 0 ≠ 0 ∧ attrib_bit c.stn_dis sid = false
          ∧ scaled_water_time c wtr prog sid ≠ 0
          ∧ r = { timestamp := now, sid := sid, pid := pid + 1, st := 0,
                  dur := scaled_water_time c wtr prog sid,
                  wl := if prog.use_weather then c.water_percentage else 100,
                  volume := 0, running := false, pgm := 0 }) := by
  refine ⟨?_, ?_, ?_⟩
  · intro hm
    unfold do_loop_schedule
    dsimp only
    rw [if_neg (by simp [hm])]
  · intro hm
    have h0 : pass_inv c s [] (({ s with last_minute := now / 60 } : State), false) :=
      ⟨rfl, rfl, [], by simp, by simp, by simp⟩
    have h1 := pass_inv_sched_programs c wtr now s progs 0 [] _ h0
    rw [List.nil_append] at h1
    obtain ⟨_, _, added, hq, hmap, hflag⟩ := h1
    have hds : do_loop_schedule c wtr progs now s
        = if (sched_programs c wtr now 0 progs ({ s with last_minute := now / 60 }, false)).2
          then schedule_all_stations c now
            (sched_programs c wtr now 0 progs ({ s with last_minute := now / 60 }, false)).1
          else (sched_programs c wtr now 0 progs ({ s with last_minute := now / 60 }, false)).1 := by
      unfold do_loop_schedule
      dsimp only
      rw [if_pos hm]
    generalize sched_programs c wtr now 0 progs ({ s with last_minute := now / 60 }, false) = r
      at hq hmap hflag hds
    have hfin : (do_loop_schedule c wtr progs now s).queue.length = s.queue.length + added.length
        ∧ ∀ p ∈ (s.queue ++ added).zip (do_loop_schedule c wtr progs now s).queue,
            p.2 = { p.1 with st := p.2.st } := by
      rw [hds]
      by_cases hr : r.2 = true
      · rw [if_pos hr]
        obtain ⟨z1, z2⟩ := zip_frame_length c now r.1
        rw [hq] at z1 z2
        exact ⟨by rw [z1]; simp, z2⟩
      · rw [if_neg hr, hq]
        refine ⟨by simp, ?_⟩
        intro p hp
        rw [zip_self_mem _ p hp]
    refine ⟨added, hq, hmap, hflag, hfin.1, hfin.2, ?_⟩
    intro hfull
    have hadd : added = [] := by
      have hz : c.queue_size - s.queue.length = 0 := by omega
      rw [hz, List.take_zero] at hmap
      exact List.map_eq_nil_iff.mp hmap
    have hr : ¬ r.2 = true := by
      rw [hflag, hadd]
      simp
    rw [hds, if_neg hr, hq, hadd, List.append_nil]
  · intro r
    rw [mem_spec_pass_runs c wtr now s r progs 0]
    constructor
    · rintro ⟨k, prog, sid, hk, hm, hs, hc, hr⟩
      have hc5 : s.mas ≠ sid + 1 ∧ s.mas2 ≠ sid + 1 ∧ prog.durations.getD sid 0 ≠ 0
          ∧ attrib_bit c.stn_dis sid = false ∧ scaled_water_time c wtr prog sid ≠ 0 := by
        simpa [spec_candidate] using hc
      refine ⟨k, prog, sid, hk, hm, hs, hc5.1, hc5.2.1, hc5.2.2.1, hc5.2.2.2.1, hc5.2.2.2.2, ?_⟩
      rw [hr, Nat.zero_add]
      rfl
    · rintro ⟨k, prog, sid, hk, hm, hs, a1, a2, a3, a4, a5, hr⟩
      refine ⟨k, prog, sid, hk, hm, hs, ?_, ?_⟩
      · simp only [spec_candidate, decide_eq_true_eq]
        exact ⟨a1, a2, a3, a4, a5⟩
      · rw [hr, Nat.zero_add]
        rfl

/-- Witness of C5: a queue with room for two runs; program 0 waters the stations 2 and 3
and program 1 waters station 4, both match at 1200. The runs of program 0 are enqueued,
the run of program 1 is dropped, and the placement starts the two runs at 1201 and 1202. -/
theorem C5_enqueue_condition_witness :
    (1200 / 60 ≠ demo_state.last_minute)
    ∧ (∃ added : List RuntimeQueueStruct,
        (sched_programs { demo_config with queue_size := 2 } id 1200 0
            [{ durations := [0, 0, 30, 40], use_weather := false, check_match := fun _ => true },
             { durations := [0, 0, 0, 0, 50], use_weather := false,
               check_match := fun _ => true }]
            ({ demo_state with last_minute := 1200 / 60 }, false)).1.queue
          = demo_state.queue ++ added
        ∧ added.map (fun q => { q with pgm := 0 })
            = (spec_pass_runs { demo_config with queue_size := 2 } id 1200 demo_state 0
                [{ durations := [0, 0, 30, 40], use_weather := false,
                   check_match := fun _ => true },
                 { durations := [0, 0, 0, 0, 50], use_weather := false,
                   check_match := fun _ => true }]).take
                (({ demo_config with queue_size := 2 } : Config).queue_size
                  - demo_state.queue.length))
    ∧ (spec_pass_runs { demo_config with queue_size := 2 } id 1200 demo_state 0
        [{ durations := [0, 0, 30, 40], use_weather := false, check_match := fun _ => true },
         { durations := [0, 0, 0, 0, 50], use_weather := false,
           check_match := fun _ => true }]).map (fun q => (q.sid, q.pid, q.st, q.dur))
      = [(2, 1, 0, 30), (3, 1, 0, 40), (4, 2, 0, 50)]
    ∧ (do_loop_schedule { demo_config with queue_size := 2 } id
        [{ durations := [0, 0, 30, 40], use_weather := false, check_match := fun _ => true },
         { durations := [0, 0, 0, 0, 50], use_weather := false, check_match := fun _ => true }]
        1200 demo_state).queue.map (fun q => (q.sid, q.pid, q.st, q.dur))
      = [(2, 1, 1201, 30), (3, 1, 1202, 40)] :=
  ⟨by decide,
    ((C5_enqueue_condition { demo_config with queue_size := 2 } id
      [{ durations := [0, 0, 30, 40], use_weather := false, check_match := fun _ => true },
       { durations := [0, 0, 0, 0, 50], use_weather := false, check_match := fun _ => true }]
      1200 demo_state).2.1 (by decide)).elim
      (fun added h => ⟨added, h.1, h.2.1⟩),
    by decide, by decide⟩

/-! ## Flow distribution: claim C8 -/

theorem flow_walk_queue (share : ℚ) (qs : List RuntimeQueueStruct) :
    ∀ pg : List ProgramRunStats,
      (flow_walk share qs pg).1
        = qs.map (fun q => if q.running then { q with volume := q.volume + share } else q) := by
  induction qs with
  | nil => intro pg; rfl
  | cons q qs ih =>
    intro pg
    unfold flow_walk
    by_cases hr : q.running = true
    · simp [hr, ih]
    · simp [hr, ih]

theorem added_volume_share (share : ℚ) (qs : List RuntimeQueueStruct) :
    added_volume qs
        (qs.map (fun q => if q.running then { q with volume := q.volume + share } else q))
      = ((qs.filter (fun q => q.running)).length : ℚ) * share := by
  unfold added_volume
  induction qs with
  | nil => simp
  | cons q qs ih =>
    rw [List.map_cons, List.zip_cons_cons, List.map_cons, List.sum_cons, ih]
    by_cases hr : q.running = true
    · simp [hr, List.filter_cons]
      ring
    · simp [hr, List.filter_cons]

theorem flow_walk_pgms (share : ℚ) (qs : List RuntimeQueueStruct) :
    ∀ (pg : List ProgramRunStats) (k : Nat) (p : ProgramRunStats), pg[k]? = some p →
      (flow_walk share qs pg).2[k]?
        = some { p with
            volume := p.volume
              + ((qs.filter (fun q => q.running && q.pgm == k)).length : ℚ) * share } := by
  induction qs with
  | nil => intro pg k p h; simp [flow_walk, h]
  | cons q qs ih =>
    intro pg k p h
    unfold flow_walk
    by_cases hr : q.running = true
    · by_cases hk : q.pgm = k
      · have h1 : (pg.modify (fun p => { p with volume := p.volume + share }) q.pgm)[k]?
            = some { p with volume := p.volume + share } := by
          rw [List.getElem?_modify, h]; simp [hk]
        simp only [hr, if_true]
        rw [ih _ k _ h1]
        simp [List.filter_cons, hr, hk]
        ring
      · have h1 : (pg.modify (fun p => { p with volume := p.volume + share }) q.pgm)[k]?
            = some p := by
          rw [List.getElem?_modify, h]; simp [hk]
        simp only [hr, if_true]
        rw [ih _ k _ h1]
        simp [List.filter_cons, hr, hk]
    · simp only [hr]
      rw [if_neg (by simp), ih _ k _ h]
      simp [List.filter_cons, hr]

/-- Counterexample to C8 as stated: with flow sensing enabled, five pulses counted since
the previous tick and one queued run that is not running, no volume is added to any run,
so the volumes added in the tick sum to 0 and not to the pulse-count delta 5. -/
theorem C8_counterexample :
    (do_loop_flow { demo_config with sensor_type := SensorType.flow }
        { demo_state with queue := [demo_run 0 100], flow_count := 5, last_flow_count := 0 }).queue
      = [demo_run 0 100]
    ∧ added_volume [demo_run 0 100]
        (do_loop_flow { demo_config with sensor_type := SensorType.flow }
          { demo_state with queue := [demo_run 0 100], flow_count := 5, last_flow_count := 0 }).queue
      ≠ (((5 - 0 : Nat) : ℚ)) := by
  have h : (do_loop_flow { demo_config with sensor_type := SensorType.flow }
        { demo_state with queue := [demo_run 0 100], flow_count := 5, last_flow_count := 0 }).queue
      = [demo_run 0 100] := by decide
  refine ⟨h, ?_⟩
  rw [h]
  norm_num [added_volume]

/-- C8 (amended): in a tick with flow sensing enabled, every running run receives the
pulse-count delta (current counter minus the snapshot of the previous tick, 0 when the
counter has not grown) divided by the number of running runs, in exact rational
arithmetic, no other run changes, and the statistics of each program invocation receive
one such share per running run that points to them; the volumes added to the runs sum to
the delta when at least one run is running; when no run is running, no volume is added
to any run nor to any statistics, whatever the delta. The snapshot is set to the
current counter in every case. -/
theorem C8_flow_apportion (c : Config) (s : State) (hflow : c.sensor_type = SensorType.flow) :
    (do_loop_flow c s).queue
      = s.queue.map (fun q =>
          if q.running then
            { q with volume := q.volume
                + ((s.flow_count - s.last_flow_count : Nat) : ℚ)
                  / ((s.queue.filter (fun q => q.running)).length : ℚ) }
          else q)
    ∧ (0 < (s.queue.filter (fun q => q.running)).length →
        added_volume s.queue (do_loop_flow c s).queue
          = ((s.flow_count - s.last_flow_count : Nat) : ℚ))
    ∧ (∀ (k : Nat) (p : ProgramRunStats), s.pgms[k]? = some p →
          (do_loop_flow c s).pgms[k]?
            = some { p with
                volume := p.volume
                  + ((s.queue.filter (fun q => q.running && q.pgm == k)).length : ℚ)
                    * (((s.flow_count - s.last_flow_count : Nat) : ℚ)
                        / ((s.queue.filter (fun q => q.running)).length : ℚ)) })
    ∧ ((s.queue.filter (fun q => q.running)).length = 0 →
        (do_loop_flow c s).queue = s.queue ∧ (do_loop_flow c s).pgms = s.pgms)
    ∧ (do_loop_flow c s).last_flow_count = s.flow_count := by
  have hq : (do_loop_flow c s).queue
      = s.queue.map (fun q =>
          if q.running then
            { q with volume := q.volume
                + ((s.flow_count - s.last_flow_count : Nat) : ℚ)
                  / ((s.queue.filter (fun q => q.running)).length : ℚ) }
          else q) := by
    by_cases hgt : s.last_flow_count < s.flow_count
    · simp only [do_loop_flow, hflow, if_true, gt_iff_lt, hgt]
      exact flow_walk_queue _ s.queue s.pgms
    · have hs : do_loop_flow c s = { s with last_flow_count := s.flow_count } := by
        simp only [do_loop_flow, hflow, if_true, gt_iff_lt, hgt, if_false]
      rw [hs, Nat.sub_eq_zero_of_le (Nat.not_lt.mp hgt)]
      conv_lhs => rw [← List.map_id s.queue]
      apply List.map_congr_left
      intro q _
      by_cases hr : q.running = true
      · rw [if_pos hr]
        simp only [Nat.cast_zero, zero_div, add_zero]
        rfl
      · rw [if_neg hr]
        rfl
  have hp : ∀ (k : Nat) (p : ProgramRunStats), s.pgms[k]? = some p →
      (do_loop_flow c s).pgms[k]?
        = some { p with
            volume := p.volume
              + ((s.queue.filter (fun q => q.running && q.pgm == k)).length : ℚ)
                * (((s.flow_count - s.last_flow_count : Nat) : ℚ)
                    / ((s.queue.filter (fun q => q.running)).length : ℚ)) } := by
    intro k p hk
    by_cases hgt : s.last_flow_count < s.flow_count
    · have hp1 : (do_loop_flow c s).pgms
          = (flow_walk (((s.flow_count - s.last_flow_count : Nat) : ℚ)
              / ((s.queue.filter (fun q => q.running)).length : ℚ)) s.queue s.pgms).2 := by
        simp only [do_loop_flow, hflow, if_true, gt_iff_lt, hgt]
      rw [hp1]
      exact flow_walk_pgms _ s.queue s.pgms k p hk
    · have hs : do_loop_flow c s = { s with last_flow_count := s.flow_count } := by
        simp only [do_loop_flow, hflow, if_true, gt_iff_lt, hgt, if_false]
      rw [hs, Nat.sub_eq_zero_of_le (Nat.not_lt.mp hgt)]
      simp [hk]
  have hnone : (s.queue.filter (fun q => q.running)).length = 0 →
      ∀ q ∈ s.queue, q.running = false := by
    intro h q hq1
    by_contra hr
    have hmem : q ∈ s.queue.filter (fun q => q.running) := by
      rw [List.mem_filter]
      exact ⟨hq1, by simpa using hr⟩
    rw [List.length_eq_zero] at h
    rw [h] at hmem
    simp at hmem
  refine ⟨hq, ?_, hp, ?_, ?_⟩
  · intro hn
    rw [hq, added_volume_share]
    have hn0 : ((s.queue.filter (fun q => q.running)).length : ℚ) ≠ 0 := by
      exact_mod_cast Nat.pos_iff_ne_zero.mp hn
    field_simp
  · intro h
    constructor
    · rw [hq]
      conv_rhs => rw [← List.map_id s.queue]
      apply List.map_congr_left
      intro q hq1
      simp [hnone h q hq1]
    · apply List.ext_getElem?
      intro k
      cases hk : s.pgms[k]? with
      | none =>
        have hlen : (do_loop_flow c s).pgms.length = s.pgms.length := by
          have hw : ∀ (share : ℚ) (qs : List RuntimeQueueStruct) (pg : List ProgramRunStats),
              (flow_walk share qs pg).2.length = pg.length := by
            intro share qs
            induction qs with
            | nil => intro pg; rfl
            | cons q qs ih =>
              intro pg
              unfold flow_walk
              split
              · simp only [ih, List.length_modify]
              · exact ih pg
          unfold do_loop_flow
          dsimp only
          split_ifs
          · exact hw _ _ _
          · rfl
        rw [List.getElem?_eq_none_iff] at hk ⊢
        omega
      | some p =>
        rw [hp k p hk]
        have h0 : (s.queue.filter (fun q => q.running && q.pgm == k)).length = 0 := by
          rw [List.length_eq_zero, List.filter_eq_nil_iff]
          intro q hq1
          simp [hnone h q hq1]
        rw [h0]
        simp
  · simp [do_loop_flow, hflow]

/-- Witness of C8 (amended): five pulses shared by two running runs. -/
theorem C8_flow_apportion_witness :
    ({ demo_config with sensor_type := SensorType.flow } : Config).sensor_type
      = SensorType.flow
    ∧ added_volume
        [{ demo_run 0 100 with running := true }, { demo_run 1 50 with running := true }]
        (do_loop_flow { demo_config with sensor_type := SensorType.flow }
          { demo_state with
            queue := [{ demo_run 0 100 with running := true },
                      { demo_run 1 50 with running := true }]
            flow_count := 5 }).queue
      = (((5 - 0 : Nat) : ℚ)) :=
  ⟨rfl,
    (C8_flow_apportion { demo_config with sensor_type := SensorType.flow }
      { demo_state with
        queue := [{ demo_run 0 100 with running := true },
                  { demo_run 1 50 with running := true }]
        flow_count := 5 } rfl).2.1 (by decide)⟩

/-! ## Lemmas on `dequeue` and `turn_off_station` -/

theorem set_take_perm (l : List RuntimeQueueStruct) :
    ∀ (qid : Nat) (q m : RuntimeQueueStruct), l[qid]? = some q →
      (qid < l.length - 1 → l[l.length - 1]? = some m) →
      l.Perm (q :: (l.set qid m).take (l.length - 1)) := by
  induction l with
  | nil => intro qid q m h; simp at h
  | cons x xs ih =>
    intro qid q m h hm
    cases qid with
    | zero =>
      simp only [List.getElem?_cons_zero, Option.some.injEq] at h
      subst h
      simp only [List.set_cons_zero, List.length_cons, Nat.add_sub_cancel]
      cases hxs : xs.length with
      | zero =>
        have hnil : xs = [] := List.length_eq_zero.mp hxs
        subst hnil
        simp
      | succ n =>
        have hlast : xs[n]? = some m := by
          have := hm (by simp [hxs])
          simpa [hxs] using this
        have hsplit : xs = xs.take n ++ [m] := by
          have hlt : n < xs.length := by omega
          rw [List.getElem?_eq_getElem hlt] at hlast
          have h1 := List.take_append_drop n xs
          have h2 : xs.drop n = [m] := by
            rw [List.drop_eq_getElem_cons hlt, List.drop_of_length_le (by omega)]
            simp at hlast
            rw [hlast]
          rw [h2] at h1
          exact h1.symm
        rw [List.take_succ_cons]
        refine List.Perm.cons _ ?_
        conv_lhs => rw [hsplit]
        exact List.perm_append_singleton m (xs.take n)
    | succ k =>
      simp only [List.getElem?_cons_succ] at h
      have hk : k < xs.length := by
        by_contra hc
        rw [List.getElem?_eq_none (by omega)] at h
        simp at h
      obtain ⟨n, hn⟩ : ∃ n, xs.length = n + 1 := ⟨xs.length - 1, by omega⟩
      have hm1 : k < xs.length - 1 → xs[xs.length - 1]? = some m := by
        intro hlt
        have := hm (by simp; omega)
        simpa [hn] using this
      have := ih k q m h hm1
      simp only [List.set_cons_succ, List.length_cons, Nat.add_sub_cancel, hn,
        List.take_succ_cons]
      rw [hn] at this
      simp only [Nat.add_sub_cancel] at this
      exact (List.Perm.cons x this).trans (List.Perm.swap q x _)

theorem dequeue_none (qid : Nat) (s : State) (h : s.queue[qid]? = none) :
    dequeue qid s = s := by
  simp only [dequeue, h]

theorem dequeue_queue (qid : Nat) (s : State) (q : RuntimeQueueStruct)
    (h : s.queue[qid]? = some q) :
    (dequeue qid s).queue
      = (s.queue.set qid (s.queue.getD (s.queue.length - 1) q)).take (s.queue.length - 1) := by
  simp only [dequeue, h]

theorem dequeue_index_cleared (qid : Nat) (s : State) (q : RuntimeQueueStruct)
    (h : s.queue[qid]? = some q) :
    (dequeue qid s).station_qid.getD q.sid 255 = 255 := by
  simp only [dequeue, h]
  rw [List.getD_eq_getElem?_getD, List.getElem?_set]
  simp only [if_true]
  split <;> split <;> rfl

theorem dequeue_frame (qid : Nat) (s : State) :
    (dequeue qid s).station_bits = s.station_bits
    ∧ (dequeue qid s).lastrun = s.lastrun
    ∧ (dequeue qid s).flow_last_gpm = s.flow_last_gpm := by
  unfold dequeue
  cases s.queue[qid]? <;> simp

theorem turn_off_record_frame (sid t qid : Nat) (q : RuntimeQueueStruct) (s1 : State) :
    (turn_off_record sid t qid q s1).station_qid = s1.station_qid
    ∧ (turn_off_record sid t qid q s1).station_bits = s1.station_bits
    ∧ (turn_off_record sid t qid q s1).flow_last_gpm = s1.flow_last_gpm
    ∧ ((turn_off_record sid t qid q s1).queue = s1.queue
        ∨ (turn_off_record sid t qid q s1).queue = s1.queue.set qid (cancel q))
    ∧ (turn_off_record sid t qid q s1).lastrun
        = (if t > q.st ∧ s1.mas ≠ sid + 1 ∧ s1.mas2 ≠ sid + 1 then
            ⟨sid, q.pid, t - q.st, t⟩
          else s1.lastrun) := by
  unfold turn_off_record
  by_cases h1 : t > q.st
  · by_cases h2 : s1.mas ≠ sid + 1 ∧ s1.mas2 ≠ sid + 1
    · have h12 : t > q.st ∧ s1.mas ≠ sid + 1 ∧ s1.mas2 ≠ sid + 1 := ⟨h1, h2⟩
      rw [if_pos h1, if_pos h2, if_pos h12]
      dsimp only
      split_ifs <;> exact ⟨rfl, rfl, rfl, Or.inr rfl, rfl⟩
    · have h12 : ¬ (t > q.st ∧ s1.mas ≠ sid + 1 ∧ s1.mas2 ≠ sid + 1) := fun h => h2 h.2
      rw [if_pos h1, if_neg h2, if_neg h12]
      exact ⟨rfl, rfl, rfl, Or.inl rfl, rfl⟩
  · have h12 : ¬ (t > q.st ∧ s1.mas ≠ sid + 1 ∧ s1.mas2 ≠ sid + 1) := fun h => h1 h.1
    rw [if_neg h1, if_neg h12]
    exact ⟨rfl, rfl, rfl, Or.inl rfl, rfl⟩

theorem turn_off_station_untracked (sid t : Nat) (s : State)
    (h : s.queue[s.station_qid.getD sid 255]? = none) :
    turn_off_station sid t s = set_station_bit sid false s := by
  simp only [turn_off_station, set_station_bit, h]

theorem turn_off_station_tracked (sid t : Nat) (s : State) (q : RuntimeQueueStruct)
    (h : s.queue[s.station_qid.getD sid 255]? = some q) :
    turn_off_station sid t s
      = dequeue (s.station_qid.getD sid 255)
          (turn_off_record sid t (s.station_qid.getD sid 255) q
            { set_station_bit sid false s with
              flow_last_gpm :=
                if s.flow_gallons > 1 then flow_gpm (set_station_bit sid false s) else some 0 }) := by
  simp only [turn_off_station, set_station_bit, h]

/-- Shape of the state after `turn_off_station` on a station with the tracked run `q`. -/
theorem turn_off_station_shape (sid t : Nat) (s : State) (q : RuntimeQueueStruct)
    (h : s.queue[s.station_qid.getD sid 255]? = some q) :
    (turn_off_station sid t s).station_bits = s.station_bits.set sid false
    ∧ (turn_off_station sid t s).station_qid.getD q.sid 255 = 255
    ∧ (∃ m, (s.station_qid.getD sid 255 < s.queue.length - 1 →
              s.queue[s.queue.length - 1]? = some m)
        ∧ (turn_off_station sid t s).queue
            = (s.queue.set (s.station_qid.getD sid 255) m).take (s.queue.length - 1))
    ∧ (turn_off_station sid t s).lastrun
        = (if t > q.st ∧ s.mas ≠ sid + 1 ∧ s.mas2 ≠ sid + 1 then
            ⟨sid, q.pid, t - q.st, t⟩
          else s.lastrun) := by
  rw [turn_off_station_tracked sid t s q h]
  generalize hs1 : ({ set_station_bit sid false s with
      flow_last_gpm :=
        if s.flow_gallons > 1 then flow_gpm (set_station_bit sid false s) else some 0 } : State)
    = s1
  have e1 : s1.station_qid = s.station_qid := by rw [← hs1]; rfl
  have e2 : s1.station_bits = s.station_bits.set sid false := by rw [← hs1]; rfl
  have e3 : s1.queue = s.queue := by rw [← hs1]; rfl
  have e4 : s1.lastrun = s.lastrun := by rw [← hs1]; rfl
  have e5 : s1.mas = s.mas := by rw [← hs1]; rfl
  have e6 : s1.mas2 = s.mas2 := by rw [← hs1]; rfl
  generalize hqid : s.station_qid.getD sid 255 = qid at h ⊢
  have hlt : qid < s.queue.length := by
    by_contra hc
    rw [List.getElem?_eq_none (by omega)] at h
    simp at h
  obtain ⟨f1, f2, _, f4, f5⟩ := turn_off_record_frame sid t qid q s1
  generalize hs2 : turn_off_record sid t qid q s1 = s2 at f1 f2 f4 f5
  have hq2 : ∃ q2, s2.queue[qid]? = some q2 ∧ q2.sid = q.sid
      ∧ (s2.queue = s.queue ∨ s2.queue = s.queue.set qid q2) := by
    rcases f4 with f4 | f4
    · exact ⟨q, by rw [f4, e3]; exact h, rfl, Or.inl (by rw [f4, e3])⟩
    · refine ⟨cancel q, ?_, rfl, Or.inr (by rw [f4, e3])⟩
      rw [f4, e3, List.getElem?_set_self hlt]
  obtain ⟨q2, hq2a, hq2b, hq2c⟩ := hq2
  have hlen : s2.queue.length = s.queue.length := by
    rcases hq2c with h3 | h3
    · rw [h3]
    · rw [h3, List.length_set]
  refine ⟨?_, ?_, ?_, ?_⟩
  · rw [(dequeue_frame qid s2).1, f2, e2]
  · rw [← hq2b]
    exact dequeue_index_cleared qid s2 q2 hq2a
  · refine ⟨s2.queue.getD (s2.queue.length - 1) q2, ?_, ?_⟩
    · intro hlast
      rw [hlen]
      have hl : s.queue.length - 1 < s.queue.length := by omega
      rcases hq2c with h3 | h3
      · rw [h3, List.getD_eq_getElem?_getD, List.getElem?_eq_getElem hl]
        rfl
      · rw [h3, List.getD_eq_getElem?_getD, List.getElem?_set_ne (by omega),
          List.getElem?_eq_getElem hl]
        rfl
    · rw [dequeue_queue qid s2 q2 hq2a, hlen]
      rcases hq2c with h3 | h3
      · rw [h3]
      · rw [h3, List.set_set]
  · rw [(dequeue_frame qid s2).2.1, f5, e4, e5, e6]

/-! ## The queue invariant is kept by the queue operations -/

theorem queue_inv_congr (s s1 : State)
    (hq : s1.queue.map (fun q => q.sid) = s.queue.map (fun q => q.sid))
    (hi : s1.station_qid = s.station_qid) (h : queue_inv s) : queue_inv s1 := by
  have hlen : s1.queue.length = s.queue.length := by
    have := congrArg List.length hq
    simpa using this
  refine ⟨by rw [hlen]; exact h.1, ?_⟩
  intro sid hsid
  rw [hi] at hsid ⊢
  rcases h.2 sid hsid with h1 | ⟨q, hq1, hq2⟩
  · exact Or.inl h1
  · right
    have h2 : (s1.queue.map (fun q => q.sid))[s.station_qid.getD sid 255]? = some sid := by
      rw [hq, List.getElem?_map, hq1]
      simp [hq2]
    rw [List.getElem?_map, Option.map_eq_some'] at h2
    exact h2

theorem queue_inv_enqueue (c : Config) (q : RuntimeQueueStruct) (s : State)
    (hc : c.queue_size ≤ 255) (h : queue_inv s) : queue_inv (enqueue c q s) := by
  unfold enqueue queue_full
  by_cases hf : c.queue_size ≤ s.queue.length
  · simpa [hf] using h
  · have key : ∀ k : Nat, ∀ pg : List ProgramRunStats,
        queue_inv { s with
          queue := s.queue ++ [{ q with pgm := k }]
          station_qid := s.station_qid.set q.sid s.queue.length
          pgms := pg } := by
      intro k pg
      refine ⟨by simp; omega, ?_⟩
      intro sid hsid
      simp only [List.length_set] at hsid
      simp only [List.getD_eq_getElem?_getD, List.getElem?_set]
      by_cases he : q.sid = sid
      · right
        subst he
        simp [hsid]
      · simp only [he, if_false]
        rcases h.2 sid hsid with h1 | ⟨q0, hq1, hq2⟩
        · left
          simpa [List.getD_eq_getElem?_getD] using h1
        · right
          refine ⟨q0, ?_, hq2⟩
          simp only [List.getD_eq_getElem?_getD] at hq1
          have hlt : (s.station_qid[sid]?.getD 255) < s.queue.length := by
            by_contra hc1
            rw [List.getElem?_eq_none (by omega)] at hq1
            simp at hq1
          rw [List.getElem?_append_left hlt]
          exact hq1
    simp only [hf, decide_False, Bool.false_eq_true, if_false]
    cases find_pgm s.queue q.pid q.timestamp with
    | none => exact key _ _
    | some k => exact key _ _

theorem getD_set_nat (l : List Nat) (i j v d : Nat) :
    (l.set i v).getD j d = if i = j ∧ j < l.length then v else l.getD j d := by
  rw [List.getD_eq_getElem?_getD, List.getD_eq_getElem?_getD, List.getElem?_set]
  by_cases hij : i = j
  · subst hij
    by_cases hl : i < l.length
    · simp [hl]
    · simp [hl, List.getElem?_eq_none (Nat.not_lt.mp hl)]
  · simp [hij]

theorem queue_inv_dequeue (qid : Nat) (s : State) (h : queue_inv s) :
    queue_inv (dequeue qid s) := by
  cases hq : s.queue[qid]? with
  | none => rw [dequeue_none qid s hq]; exact h
  | some q =>
    have hlt : qid < s.queue.length := by
      by_contra hc
      rw [List.getElem?_eq_none (by omega)] at hq
      simp at hq
    have hlast : s.queue.length - 1 < s.queue.length := by omega
    obtain ⟨m, hm⟩ : ∃ m, s.queue[s.queue.length - 1]? = some m :=
      ⟨_, List.getElem?_eq_getElem hlast⟩
    have hmd : s.queue.getD (s.queue.length - 1) q = m := by
      rw [List.getD_eq_getElem?_getD, hm]; rfl
    simp only [dequeue, hq, hmd]
    generalize hI1 : (if qid < s.queue.length - 1
        ∧ s.station_qid.getD m.sid 255 = s.queue.length - 1 then
          s.station_qid.set m.sid qid
        else s.station_qid) = I1
    have hI1len : I1.length = s.station_qid.length := by
      rw [← hI1]; split <;> simp
    have hI1get : ∀ sid, I1.getD sid 255
        = if (qid < s.queue.length - 1 ∧ s.station_qid.getD m.sid 255 = s.queue.length - 1)
              ∧ m.sid = sid ∧ sid < s.station_qid.length then qid
          else s.station_qid.getD sid 255 := by
      intro sid
      rw [← hI1]
      by_cases hcond : qid < s.queue.length - 1
          ∧ s.station_qid.getD m.sid 255 = s.queue.length - 1
      · rw [if_pos hcond, getD_set_nat]
        by_cases hx : m.sid = sid ∧ sid < s.station_qid.length
        · rw [if_pos hx, if_pos ⟨hcond, hx⟩]
        · rw [if_neg hx, if_neg (fun hc => hx hc.2)]
      · rw [if_neg hcond, if_neg (fun hc => hcond hc.1)]
    refine ⟨by simp; have := h.1; omega, ?_⟩
    intro sid hsid
    have hsid0 : sid < s.station_qid.length := by
      simpa [hI1len] using hsid
    show (I1.set q.sid 255).getD sid 255 = 255
      ∨ ∃ q0, ((s.queue.set qid m).take (s.queue.length - 1))[(I1.set q.sid 255).getD sid 255]?
          = some q0 ∧ q0.sid = sid
    rw [getD_set_nat]
    by_cases he : q.sid = sid
    · left
      rw [if_pos ⟨he, by rw [hI1len]; exact hsid0⟩]
    · rw [if_neg (fun hc => he hc.1), hI1get]
      by_cases hmv : (qid < s.queue.length - 1
            ∧ s.station_qid.getD m.sid 255 = s.queue.length - 1)
          ∧ m.sid = sid ∧ sid < s.station_qid.length
      · right
        rw [if_pos hmv]
        refine ⟨m, ?_, hmv.2.1⟩
        rw [List.getElem?_take_of_lt hmv.1.1, List.getElem?_set_self hlt]
      · rw [if_neg hmv]
        rcases h.2 sid hsid0 with h1 | ⟨q0, hq1, hq2⟩
        · exact Or.inl h1
        · right
          have hv : s.station_qid.getD sid 255 < s.queue.length := by
            by_contra hc1
            rw [List.getElem?_eq_none (by omega)] at hq1
            simp at hq1
          have hne : s.station_qid.getD sid 255 ≠ qid := by
            intro hc1
            rw [hc1, hq] at hq1
            exact he (by rw [Option.some.inj hq1]; exact hq2)
          have hne2 : s.station_qid.getD sid 255 ≠ s.queue.length - 1 := by
            intro hc1
            have hm2 : m.sid = sid := by
              rw [hc1, hm] at hq1
              rw [Option.some.inj hq1]; exact hq2
            apply hmv
            refine ⟨⟨?_, ?_⟩, hm2, hsid0⟩
            · rw [hc1] at hne
              omega
            · rw [hm2]; exact hc1
          refine ⟨q0, ?_, hq2⟩
          rw [List.getElem?_take_of_lt (by omega), List.getElem?_set_ne (Ne.symm hne)]
          exact hq1

theorem map_sid_set (l : List RuntimeQueueStruct) (i : Nat) (q x : RuntimeQueueStruct)
    (h : l[i]? = some q) (hx : x.sid = q.sid) :
    (l.set i x).map (fun q => q.sid) = l.map (fun q => q.sid) := by
  apply List.ext_getElem?
  intro j
  rw [List.getElem?_map, List.getElem?_map, List.getElem?_set]
  by_cases hij : i = j
  · subst hij
    have hlt : i < l.length := by
      by_contra hc
      rw [List.getElem?_eq_none (by omega)] at h
      simp at h
    simp [hlt, h, hx]
  · simp [hij]

theorem queue_inv_turn_off_station (sid t : Nat) (s : State) (h : queue_inv s) :
    queue_inv (turn_off_station sid t s) := by
  cases hq : s.queue[s.station_qid.getD sid 255]? with
  | none =>
    rw [turn_off_station_untracked sid t s hq]
    exact queue_inv_congr s _ rfl rfl h
  | some q =>
    rw [turn_off_station_tracked sid t s q hq]
    apply queue_inv_dequeue
    obtain ⟨f1, _, _, f4, _⟩ := turn_off_record_frame sid t (s.station_qid.getD sid 255) q
      { set_station_bit sid false s with
        flow_last_gpm :=
          if s.flow_gallons > 1 then flow_gpm (set_station_bit sid false s) else some 0 }
    apply queue_inv_congr s _ _ f1 h
    rcases f4 with f4 | f4
    · rw [f4]; rfl
    · rw [f4]
      exact map_sid_set s.queue _ q (cancel q) hq rfl

theorem schedule_iter_globals (c : Config) (t : Nat) (l : SchedLoop) (q : RuntimeQueueStruct) :
    (schedule_iter c t l q).1.g.station_qid = l.g.station_qid := by
  unfold schedule_iter
  by_cases h1 : q.st ≠ 0
  · rw [if_pos h1]
  rw [if_neg h1]
  by_cases h2 : q.dur = 0
  · rw [if_pos h2]
  rw [if_neg h2]
  by_cases h3 : is_sequential c q = true
  · simp only [h3, if_true]
    split_ifs <;> rfl
  · simp only [h3, Bool.false_eq_true, if_false]
    split_ifs <;> rfl

theorem schedule_walk_globals (c : Config) (t : Nat) (qs : List RuntimeQueueStruct) :
    ∀ l : SchedLoop, (schedule_walk c t l qs).1.g.station_qid = l.g.station_qid := by
  induction qs with
  | nil => intro l; rfl
  | cons q qs ih =>
    intro l
    show (schedule_walk c t (schedule_iter c t l q).1 qs).1.g.station_qid = l.g.station_qid
    rw [ih, schedule_iter_globals]

theorem schedule_walk_sids (c : Config) (t : Nat) (qs : List RuntimeQueueStruct) :
    ∀ l : SchedLoop,
      (schedule_walk c t l qs).2.map (fun q => q.sid) = qs.map (fun q => q.sid) := by
  induction qs with
  | nil => intro l; rfl
  | cons q qs ih =>
    intro l
    rw [schedule_walk_cons, List.map_cons, List.map_cons, ih, schedule_iter_frame]

theorem queue_inv_schedule_all_stations (c : Config) (t : Nat) (s : State)
    (h : queue_inv s) : queue_inv (schedule_all_stations c t s) := by
  apply queue_inv_congr s _ _ _ h
  · rw [schedule_all_stations_queue, schedule_walk_sids]
  · exact schedule_walk_globals c t s.queue _

theorem queue_inv_sched_station (c : Config) (wtr : Nat → Nat) (now : Nat)
    (prog : ProgramStruct) (pid : Nat) (hc : c.queue_size ≤ 255) (acc : State × Bool)
    (sid : Nat) (h : queue_inv acc.1) :
    queue_inv (sched_station c wtr now prog pid acc sid).1 := by
  obtain ⟨s, mf⟩ := acc
  rw [sched_station_eq]
  split
  · exact queue_inv_enqueue c _ s hc h
  · exact h

theorem queue_inv_sched_program (c : Config) (wtr : Nat → Nat) (now : Nat)
    (hc : c.queue_size ≤ 255) (acc : State × Bool) (pid : Nat) (prog : ProgramStruct)
    (h : queue_inv acc.1) : queue_inv (sched_program c wtr now acc pid prog).1 := by
  unfold sched_program
  split
  · generalize List.range c.nstations = sids
    induction sids generalizing acc with
    | nil => exact h
    | cons sid sids ih =>
      rw [List.foldl_cons]
      exact ih _ (queue_inv_sched_station c wtr now prog pid hc acc sid h)
  · exact h

theorem queue_inv_sched_programs (c : Config) (wtr : Nat → Nat) (now : Nat)
    (hc : c.queue_size ≤ 255) (progs : List ProgramStruct) :
    ∀ (pid : Nat) (acc : State × Bool), queue_inv acc.1 →
      queue_inv (sched_programs c wtr now pid progs acc).1 := by
  induction progs with
  | nil => intro pid acc h; exact h
  | cons prog rest ih =>
    intro pid acc h
    exact ih (pid + 1) _ (queue_inv_sched_program c wtr now hc acc pid prog h)

theorem queue_inv_do_loop_schedule (c : Config) (wtr : Nat → Nat)
    (progs : List ProgramStruct) (now : Nat) (s : State) (hc : c.queue_size ≤ 255)
    (h : queue_inv s) : queue_inv (do_loop_schedule c wtr progs now s) := by
  unfold do_loop_schedule
  have h1 : queue_inv
      (sched_programs c wtr now 0 progs ({ s with last_minute := now / 60 }, false)).1 :=
    queue_inv_sched_programs c wtr now hc progs 0 _ (queue_inv_congr s _ rfl rfl h)
  dsimp only
  split_ifs
  · exact queue_inv_schedule_all_stations c now _ h1
  · exact h1
  · exact h

theorem queue_inv_do_loop_flow (c : Config) (s : State) (h : queue_inv s) :
    queue_inv (do_loop_flow c s) := by
  apply queue_inv_congr s _ _ _ h
  · by_cases hf : c.sensor_type = SensorType.flow
    · by_cases hgt : s.flow_count > s.last_flow_count
      · simp only [do_loop_flow, hf, if_true, hgt]
        rw [flow_walk_queue, List.map_map]
        apply List.map_congr_left
        intro q _
        simp only [Function.comp]
        split <;> rfl
      · simp only [do_loop_flow, hf, if_true, hgt, if_false]
    · simp only [do_loop_flow, hf, if_false]
  · unfold do_loop_flow
    dsimp only
    split_ifs <;> rfl

theorem queue_inv_demo_state : queue_inv demo_state := by
  unfold queue_inv
  decide

/-! ## `turn_off_station`: claims C9, C10 -/

/-- C9: `turn_off_station` is idempotent on every state that satisfies the invariant of
the runtime queue (an invariant that every queue operation keeps, see the `queue_inv_`
lemmas): calling `turn_off_station(sid, now)` twice yields the same state as calling it
once. On a station that has no tracked run the call only clears the hardware bit of the
station: the queue, the station index, the last-run record and the last flow rate are
unchanged. -/
theorem C9_turn_off_idempotent (sid now : Nat) (s : State) (hinv : queue_inv s) :
    turn_off_station sid now (turn_off_station sid now s) = turn_off_station sid now s
    ∧ (s.queue[s.station_qid.getD sid 255]? = none →
        turn_off_station sid now s = { s with station_bits := s.station_bits.set sid false }
        ∧ (turn_off_station sid now s).queue = s.queue
        ∧ (turn_off_station sid now s).station_qid = s.station_qid
        ∧ (turn_off_station sid now s).lastrun = s.lastrun
        ∧ (turn_off_station sid now s).flow_last_gpm = s.flow_last_gpm) := by
  have hun : ∀ s0 : State, s0.queue[s0.station_qid.getD sid 255]? = none →
      turn_off_station sid now s0 = { s0 with station_bits := s0.station_bits.set sid false } :=
    fun s0 h0 => turn_off_station_untracked sid now s0 h0
  constructor
  · cases h : s.queue[s.station_qid.getD sid 255]? with
    | none =>
      rw [hun s h]
      rw [hun { s with station_bits := s.station_bits.set sid false } h]
      simp [List.set_set]
    | some q =>
      obtain ⟨b1, b2, ⟨m, _, b3⟩, _⟩ := turn_off_station_shape sid now s q h
      have hlt : s.station_qid.getD sid 255 < s.queue.length := by
        by_contra hc
        rw [List.getElem?_eq_none (by omega)] at h
        simp at h
      have hsid : q.sid = sid := by
        by_cases hs : sid < s.station_qid.length
        · rcases hinv.2 sid hs with h255 | ⟨q1, hq1, hs1⟩
          · have := hinv.1
            omega
          · rw [h] at hq1
            rw [Option.some.inj hq1]
            exact hs1
        · rw [List.getD_eq_getElem?_getD, List.getElem?_eq_none (by omega)] at hlt
          have := hinv.1
          simp at hlt
          omega
      rw [hsid] at b2
      have hnone : (turn_off_station sid now s).queue[
          (turn_off_station sid now s).station_qid.getD sid 255]? = none := by
        rw [b2, b3]
        apply List.getElem?_eq_none
        have := hinv.1
        simp
        omega
      rw [hun _ hnone]
      generalize turn_off_station sid now s = s1 at b1 ⊢
      have : s1.station_bits.set sid false = s1.station_bits := by
        rw [b1, List.set_set]
      rw [this]
  · intro h
    rw [hun s h]
    exact ⟨rfl, rfl, rfl, rfl, rfl⟩

/-- Witness of C9: station 1 of a queue of three scheduled runs is turned off twice. -/
theorem C9_turn_off_idempotent_witness :
    turn_off_station 1 1200
        (turn_off_station 1 1200
          { demo_state with
            queue := [{ demo_run 0 10 with st := 1001 }, { demo_run 1 20 with st := 1016 },
                      { demo_run 2 30 with st := 1001 }]
            station_qid := [0, 1, 2, 255, 255, 255, 255, 255] })
      = turn_off_station 1 1200
          { demo_state with
            queue := [{ demo_run 0 10 with st := 1001 }, { demo_run 1 20 with st := 1016 },
                      { demo_run 2 30 with st := 1001 }]
            station_qid := [0, 1, 2, 255, 255, 255, 255, 255] } :=
  (C9_turn_off_idempotent 1 1200
    { demo_state with
      queue := [{ demo_run 0 10 with st := 1001 }, { demo_run 1 20 with st := 1016 },
                { demo_run 2 30 with st := 1001 }]
      station_qid := [0, 1, 2, 255, 255, 255, 255, 255] }
    (by unfold queue_inv; decide)).1

/-- C10: for a station `sid` with the tracked run `q`, `turn_off_station(sid, now)`
clears the hardware bit of the station and removes `q` from the queue (the old queue is
the new queue plus `q`, and the station index entry of the station of `q` is cleared)
whether or not the run had started; the last-run record becomes (station `sid`, program
`q.pid`, duration `now - q.start`, end time `now`) exactly when `now > q.start` and `sid`
is not a master station, and is unchanged otherwise. -/
theorem C10_turn_off_tracked (sid now : Nat) (s : State) (q : RuntimeQueueStruct)
    (hq : s.queue[s.station_qid.getD sid 255]? = some q) :
    (turn_off_station sid now s).station_bits.getD sid false = false
    ∧ s.queue.Perm (q :: (turn_off_station sid now s).queue)
    ∧ (turn_off_station sid now s).queue.length + 1 = s.queue.length
    ∧ (turn_off_station sid now s).station_qid.getD q.sid 255 = 255
    ∧ ((now > q.st ∧ s.mas ≠ sid + 1 ∧ s.mas2 ≠ sid + 1) →
        (turn_off_station sid now s).lastrun = ⟨sid, q.pid, now - q.st, now⟩)
    ∧ (¬ (now > q.st ∧ s.mas ≠ sid + 1 ∧ s.mas2 ≠ sid + 1) →
        (turn_off_station sid now s).lastrun = s.lastrun) := by
  obtain ⟨b1, b2, ⟨m, hm, b3⟩, b4⟩ := turn_off_station_shape sid now s q hq
  have hperm := set_take_perm s.queue (s.station_qid.getD sid 255) q m hq hm
  rw [← b3] at hperm
  refine ⟨?_, hperm, ?_, b2, ?_, ?_⟩
  · rw [b1, List.getD_eq_getElem?_getD, List.getElem?_set]
    simp only [if_true]
    split <;> rfl
  · have := hperm.length_eq
    simp at this
    omega
  · intro hc
    rw [b4, if_pos hc]
  · intro hc
    rw [b4, if_neg hc]

/-- Witness of C10: station 1, running since 1016, is turned off at 1200. -/
theorem C10_turn_off_tracked_witness :
    ({ demo_state with
        queue := [{ demo_run 0 10 with st := 1001 }, { demo_run 1 20 with st := 1016 },
                  { demo_run 2 30 with st := 1001 }]
        station_qid := [0, 1, 2, 255, 255, 255, 255, 255] } : State).queue[
      ({ demo_state with
        queue := [{ demo_run 0 10 with st := 1001 }, { demo_run 1 20 with st := 1016 },
                  { demo_run 2 30 with st := 1001 }]
        station_qid := [0, 1, 2, 255, 255, 255, 255, 255] } : State).station_qid.getD 1 255]?
      = some { demo_run 1 20 with st := 1016 }
    ∧ (turn_off_station 1 1200
        { demo_state with
          queue := [{ demo_run 0 10 with st := 1001 }, { demo_run 1 20 with st := 1016 },
                    { demo_run 2 30 with st := 1001 }]
          station_qid := [0, 1, 2, 255, 255, 255, 255, 255] }).lastrun
      = ⟨1, 1, 184, 1200⟩ :=
  ⟨by decide,
    (C10_turn_off_tracked 1 1200
      { demo_state with
        queue := [{ demo_run 0 10 with st := 1001 }, { demo_run 1 20 with st := 1016 },
                  { demo_run 2 30 with st := 1001 }]
        station_qid := [0, 1, 2, 255, 255, 255, 255, 255] }
      { demo_run 1 20 with st := 1016 } (by decide)).2.2.2.2.1 (by decide)⟩

/-! ## `flow_isr`: claims C11, C12 -/

theorem toUlong_sub (a b : Nat) (h : b ≤ a) (ha : a < ULONG_MOD) :
    toUlong ((a : Int) - b) = a - b := by
  unfold toUlong
  unfold ULONG_MOD at ha
  have h1 : ((a : Int) - b) = ((a - b : Nat) : Int) := by omega
  rw [h1]
  have h2 : (((a - b : Nat) : Int) % 4294967296) = ((a - b : Nat) : Int) := by
    apply Int.emod_eq_of_lt <;> omega
  rw [h2]
  simp

theorem flow_isr_rejected (c : Config) (curr : Nat) (s : State)
    (h : c.sensor_type ≠ SensorType.flow ∨ toUlong ((curr : Int) - s.flowcount_time_ms) < 50) :
    flow_isr c curr s = s := by
  unfold flow_isr
  rcases h with h | h
  · rw [if_pos h]
  · by_cases h1 : c.sensor_type ≠ SensorType.flow
    · rw [if_pos h1]
    · rw [if_neg h1, if_pos h]

/-- Effect of an accepted pulse on the flow variables. -/
theorem flow_isr_accepted (c : Config) (curr : Nat) (s : State)
    (hflow : c.sensor_type = SensorType.flow)
    (hacc : 50 ≤ toUlong ((curr : Int) - s.flowcount_time_ms)) :
    (flow_isr c curr s).flow_count = (s.flow_count + 1) % ULONG_MOD
    ∧ (flow_isr c curr s).flowcount_time_ms = curr
    ∧ (flow_isr c curr s).flow_stop = curr
    ∧ (flow_isr c curr s).flow_start = (if s.flow_start = 0 then curr else s.flow_start)
    ∧ (flow_isr c curr s).flow_gallons
        = ((if toUlong ((curr : Int) - (if s.flow_start = 0 then curr else s.flow_start)) < 90000
              then 0
            else if s.flow_start = 0 then 0 else s.flow_gallons) + 1) % ULONG_MOD
    ∧ (flow_isr c curr s).flow_begin
        = (if ¬ toUlong ((curr : Int) - (if s.flow_start = 0 then curr else s.flow_start)) < 90000
              ∧ (if s.flow_start = 0 then 0 else s.flow_gallons) = 1
            then curr
            else s.flow_begin) := by
  unfold flow_isr
  rw [if_neg (by simp [hflow]), if_neg (Nat.not_lt.mpr hacc)]
  by_cases h0 : s.flow_start = 0
  · simp only [h0, if_true]
    split_ifs <;> simp_all
  · simp only [h0, if_false]
    split_ifs <;> simp_all

theorem flow_pulses_cons (c : Config) (t : Nat) (ts : List Nat) (s : State) :
    flow_pulses c (t :: ts) s = flow_pulses c ts (flow_isr c t s) := rfl

/-- Pulses that follow the first pulse of a warm-up: `tp` is the time of the last pulse
handled so far and `k` the number of pulses counted after the warm-up so far. -/
theorem flow_pulses_after_first (c : Config) (hflow : c.sensor_type = SensorType.flow)
    (t0 : Nat) (ht0 : 0 < t0) :
    ∀ (rest : List Nat) (x : State) (tp k : Nat),
      x.flow_start = t0 → x.flowcount_time_ms = tp → x.flow_stop = tp →
      x.flow_gallons = 1 + k → t0 ≤ tp → (k = 0 ∨ 90000 ≤ tp - t0) → 1 + k ≤ tp →
      List.Chain (fun a b => a < b) tp rest → (∀ t ∈ rest, t < ULONG_MOD) →
      all_accepted c rest x →
      (flow_pulses c rest x).flow_start = t0
      ∧ (flow_pulses c rest x).flow_stop = rest.getLastD tp
      ∧ (flow_pulses c rest x).flow_gallons
          = 1 + k + (rest.filter (fun t => decide (90000 ≤ t - t0))).length
      ∧ (flow_pulses c rest x).flow_begin
          = (if k = 0 then (rest.find? (fun t => decide (90000 ≤ t - t0))).getD x.flow_begin
             else x.flow_begin) := by
  intro rest
  induction rest with
  | nil =>
    intro x tp k h1 _ h3 h4 _ _ _ _ _ _
    refine ⟨h1, h3, by simpa using h4, ?_⟩
    simp [flow_pulses]
  | cons t rest ih =>
    intro x tp k h1 h2 h3 h4 h5 h6 h7 hch hlt hacc
    have htp : tp < t := (List.chain_cons.mp hch).1
    have hch1 : List.Chain (fun a b => a < b) t rest := (List.chain_cons.mp hch).2
    have htM : t < ULONG_MOD := hlt t (List.mem_cons_self _ _)
    have hacc1 : 50 ≤ toUlong ((t : Int) - x.flowcount_time_ms) := hacc.1.2
    have hacc2 : all_accepted c rest (flow_isr c t x) := hacc.2
    have hne : x.flow_start ≠ 0 := by omega
    obtain ⟨_, e2, e3, e4, e5, e6⟩ := flow_isr_accepted c t x hflow hacc1
    have ht0ne : ¬ t0 = 0 := by omega
    rw [if_neg hne] at e4
    simp only [h1, if_neg ht0ne, toUlong_sub t t0 (by omega) htM, h4] at e5 e6
    rw [h1] at e4
    rw [flow_pulses_cons]
    have hM : ULONG_MOD = 4294967296 := rfl
    by_cases hw : t - t0 < 90000
    · have hk : k = 0 := by omega
      subst hk
      rw [if_pos hw] at e5
      have e5b : (flow_isr c t x).flow_gallons = 1 + 0 := by rw [e5, hM]
      have e6b : (flow_isr c t x).flow_begin = x.flow_begin := by
        rw [e6, if_neg (fun h => h.1 hw)]
      obtain ⟨r1, r2, r3, r4⟩ := ih (flow_isr c t x) t 0 e4 e2 e3 e5b (by omega) (Or.inl rfl)
        (by omega) hch1 (fun u hu => hlt u (List.mem_cons_of_mem _ hu)) hacc2
      have hd : decide (90000 ≤ t - t0) = false := by simp; omega
      refine ⟨r1, ?_, ?_, ?_⟩
      · rw [r2]; cases rest <;> rfl
      · rw [r3, List.filter_cons, hd]; simp
      · rw [r4, e6b, List.find?_cons, hd]
    · have hw1 : 90000 ≤ t - t0 := by omega
      rw [if_neg hw] at e5
      have e5b : (flow_isr c t x).flow_gallons = 1 + (k + 1) := by
        rw [e5, Nat.mod_eq_of_lt (by rw [hM] at htM ⊢; omega)]
        omega
      obtain ⟨r1, r2, r3, r4⟩ := ih (flow_isr c t x) t (k + 1) e4 e2 e3 e5b (by omega)
        (Or.inr hw1) (by omega) hch1 (fun u hu => hlt u (List.mem_cons_of_mem _ hu)) hacc2
      have hd : decide (90000 ≤ t - t0) = true := by simpa using hw1
      refine ⟨r1, ?_, ?_, ?_⟩
      · rw [r2]; cases rest <;> rfl
      · rw [r3, List.filter_cons, hd]; simp; omega
      · rw [r4, if_neg (by omega), e6, List.find?_cons, hd]
        by_cases hk : k = 0
        · rw [if_pos ⟨hw, by omega⟩, if_pos hk]; rfl
        · rw [if_neg (fun h => hk (by omega)), if_neg hk]

/-- C11: starting from a reset warm-up baseline (`flow_start = 0`), after any sequence of
accepted pulses at the times `t0 < t1 < ... < tn` (milliseconds below `2^32`, `t0 > 0`),
`flow_start` is `t0`, `flow_stop` is `tn`, the gallon tally `flow_gallons` is 1 plus the
number of pulses with `ti - t0 >= 90000`, and `flow_begin` is the time of the first such
pulse when one exists (and is unchanged otherwise). Pulses at the seconds 1, 41, 91, 92
and 131 (0, 40, 90, 91 and 130 s after the first) give the tally 4, `flow_begin` at the
pulse 90 s after the first and `flow_stop` at the last pulse. -/
theorem C11_flow_warmup (c : Config) (s : State) (t0 : Nat) (rest : List Nat)
    (hstart : s.flow_start = 0) (ht0 : 0 < t0)
    (hinc : List.Chain (fun a b => a < b) t0 rest)
    (hlt : ∀ t ∈ t0 :: rest, t < ULONG_MOD)
    (hacc : all_accepted c (t0 :: rest) s) :
    (flow_pulses c (t0 :: rest) s).flow_start = t0
    ∧ (flow_pulses c (t0 :: rest) s).flow_stop = rest.getLastD t0
    ∧ (flow_pulses c (t0 :: rest) s).flow_gallons
        = 1 + ((t0 :: rest).filter (fun t => decide (90000 ≤ t - t0))).length
    ∧ (flow_pulses c (t0 :: rest) s).flow_begin
        = ((t0 :: rest).find? (fun t => decide (90000 ≤ t - t0))).getD s.flow_begin
    ∧ (let r := flow_pulses { demo_config with sensor_type := SensorType.flow }
          [1000, 41000, 91000, 92000, 131000] demo_state
       (r.flow_start, r.flow_begin, r.flow_stop, r.flow_gallons) = (1000, 91000, 131000, 4)) := by
  have hflow : c.sensor_type = SensorType.flow := hacc.1.1
  have hacc1 : 50 ≤ toUlong ((t0 : Int) - s.flowcount_time_ms) := hacc.1.2
  have ht0M : t0 < ULONG_MOD := hlt t0 (List.mem_cons_self _ _)
  obtain ⟨_, e2, e3, e4, e5, e6⟩ := flow_isr_accepted c t0 s hflow hacc1
  have hz : toUlong ((t0 : Int) - t0) = 0 := by rw [toUlong_sub t0 t0 (le_refl _) ht0M]; simp
  simp only [hstart, if_true, hz] at e4 e5 e6
  have e5b : (flow_isr c t0 s).flow_gallons = 1 + 0 := by rw [e5]; rfl
  have e6b : (flow_isr c t0 s).flow_begin = s.flow_begin := by
    rw [e6, if_neg (fun h => h.1 (by norm_num))]
  obtain ⟨r1, r2, r3, r4⟩ := flow_pulses_after_first c hflow t0 ht0 rest (flow_isr c t0 s) t0 0
    e4 e2 e3 e5b (le_refl _) (Or.inl rfl) (by omega) hinc
    (fun u hu => hlt u (List.mem_cons_of_mem _ hu)) hacc.2
  rw [flow_pulses_cons]
  have hd : decide (90000 ≤ t0 - t0) = false := by simp
  refine ⟨r1, r2, ?_, ?_, by decide⟩
  · rw [r3, List.filter_cons, hd]; simp
  · rw [r4, if_pos rfl, e6b, List.find?_cons, hd]

/-- Witness of C11: the five pulses of scenario E, the first one at 1 s. -/
theorem C11_flow_warmup_witness :
    (flow_pulses { demo_config with sensor_type := SensorType.flow }
        [1000, 41000, 91000, 92000, 131000] demo_state).flow_gallons
      = 1 + (([1000, 41000, 91000, 92000, 131000] : List Nat).filter
          (fun t => decide (90000 ≤ t - 1000))).length :=
  (C11_flow_warmup { demo_config with sensor_type := SensorType.flow } demo_state 1000
    [41000, 91000, 92000, 131000] rfl (by decide) (by simp) (by decide)
    ⟨⟨rfl, by decide⟩, ⟨rfl, by decide⟩, ⟨rfl, by decide⟩, ⟨rfl, by decide⟩, ⟨rfl, by decide⟩,
      trivial⟩).2.2.1

/-- C12: `flow_isr` at time `curr` leaves the whole state, and so every flow variable,
unchanged when the sensor type is not flow or when `curr - lastAcceptedTime < 50`
(unsigned 32-bit difference); otherwise it increases the pulse counter by exactly 1
(in the 32-bit `ulong` type) and sets both the last-accepted time and `flow_stop` to
`curr`. Hence the pulse counter does not decrease (short of the wrap at `2^32`) and a
pulse that changes the state is at least 50 ms after the last accepted one. -/
theorem C12_flow_isr_debounce (c : Config) (curr : Nat) (s : State) :
    ((c.sensor_type ≠ SensorType.flow ∨ toUlong ((curr : Int) - s.flowcount_time_ms) < 50) →
      flow_isr c curr s = s)
    ∧ (¬ (c.sensor_type ≠ SensorType.flow
          ∨ toUlong ((curr : Int) - s.flowcount_time_ms) < 50) →
        (flow_isr c curr s).flow_count = (s.flow_count + 1) % ULONG_MOD
        ∧ (flow_isr c curr s).flowcount_time_ms = curr
        ∧ (flow_isr c curr s).flow_stop = curr)
    ∧ (s.flow_count + 1 < ULONG_MOD →
        s.flow_count ≤ (flow_isr c curr s).flow_count
        ∧ (flow_isr c curr s).flow_count ≤ s.flow_count + 1)
    ∧ (flow_isr c curr s ≠ s →
        c.sensor_type = SensorType.flow
        ∧ 50 ≤ toUlong ((curr : Int) - s.flowcount_time_ms)) := by
  by_cases hg : c.sensor_type ≠ SensorType.flow
      ∨ toUlong ((curr : Int) - s.flowcount_time_ms) < 50
  · have hs := flow_isr_rejected c curr s hg
    refine ⟨fun _ => hs, fun h => absurd hg h, fun _ => ?_, fun h => absurd hs h⟩
    rw [hs]
    exact ⟨le_refl _, Nat.le_succ _⟩
  · have hflow : c.sensor_type = SensorType.flow := by
      by_contra h
      exact hg (Or.inl h)
    have hacc : 50 ≤ toUlong ((curr : Int) - s.flowcount_time_ms) := by
      by_contra h
      exact hg (Or.inr (Nat.not_le.mp h))
    obtain ⟨e1, e2, e3, _⟩ := flow_isr_accepted c curr s hflow hacc
    refine ⟨fun h => absurd h hg, fun _ => ⟨e1, e2, e3⟩, fun hlt => ?_, fun _ => ⟨hflow, hacc⟩⟩
    rw [e1, Nat.mod_eq_of_lt hlt]
    exact ⟨Nat.le_succ _, le_refl _⟩

/-- Witness of C12: a pulse 20 ms after the last accepted one is discarded. -/
theorem C12_flow_isr_debounce_witness :
    flow_isr { demo_config with sensor_type := SensorType.flow } 1020
        { demo_state with flowcount_time_ms := 1000 }
      = { demo_state with flowcount_time_ms := 1000 } :=
  (C12_flow_isr_debounce { demo_config with sensor_type := SensorType.flow } 1020
    { demo_state with flowcount_time_ms := 1000 }).1 (Or.inr (by decide))

/-! ## Flow rate at shutoff: claim C13 -/

theorem turn_off_station_gpm (sid t : Nat) (s : State) (q : RuntimeQueueStruct)
    (h : s.queue[s.station_qid.getD sid 255]? = some q) :
    (turn_off_station sid t s).flow_last_gpm
      = (if s.flow_gallons > 1 then flow_gpm s else some 0) := by
  rw [turn_off_station_tracked sid t s q h, (dequeue_frame _ _).2.2,
    (turn_off_record_frame _ _ _ _ _).2.2.1]
  rfl

/-- C13: at the shutoff of a tracked station, `turn_off_station` sets the last flow rate
to `60000 / ((flowStop - flowBegin) / (gallons - 1))` when `gallons > 1`, the inner
quotient being an unsigned 32-bit integer division (a zero quotient makes the float
quotient non-finite, written `none`), and to 0 when `gallons <= 1`. -/
theorem C13_flow_rate_at_shutoff (sid now : Nat) (s : State) (q : RuntimeQueueStruct)
    (hq : s.queue[s.station_qid.getD sid 255]? = some q) :
    (1 < s.flow_gallons →
      toUlong ((s.flow_stop : Int) - s.flow_begin) / (s.flow_gallons - 1) ≠ 0 →
      (turn_off_station sid now s).flow_last_gpm
        = some ((60000 : ℚ)
            / ((toUlong ((s.flow_stop : Int) - s.flow_begin) / (s.flow_gallons - 1) : Nat) : ℚ)))
    ∧ (1 < s.flow_gallons →
        toUlong ((s.flow_stop : Int) - s.flow_begin) / (s.flow_gallons - 1) = 0 →
        (turn_off_station sid now s).flow_last_gpm = none)
    ∧ (s.flow_gallons ≤ 1 → (turn_off_station sid now s).flow_last_gpm = some 0)
    ∧ (s.flow_begin ≤ s.flow_stop → s.flow_stop < ULONG_MOD →
        toUlong ((s.flow_stop : Int) - s.flow_begin) = s.flow_stop - s.flow_begin) := by
  rw [turn_off_station_gpm sid now s q hq]
  refine ⟨?_, ?_, ?_, ?_⟩
  · intro hg hd
    rw [if_pos hg]
    unfold flow_gpm
    simp only [hd, if_false]
  · intro hg hd
    rw [if_pos hg]
    unfold flow_gpm
    simp only [hd, if_true]
  · intro hg
    rw [if_neg (by omega)]
  · intro h1 h2
    exact toUlong_sub _ _ h1 h2

/-- Witness of C13: four counted gallons between 91 s and 131 s. -/
theorem C13_flow_rate_at_shutoff_witness :
    (turn_off_station 1 1200
        { demo_state with
          queue := [{ demo_run 0 10 with st := 1001 }, { demo_run 1 20 with st := 1016 }]
          station_qid := [0, 1, 255, 255, 255, 255, 255, 255]
          flow_begin := 91000, flow_stop := 131000, flow_gallons := 4 }).flow_last_gpm
      = some ((60000 : ℚ)
          / ((toUlong (((131000 : Nat) : Int) - (91000 : Nat)) / (4 - 1) : Nat) : ℚ))
    ∧ toUlong (((131000 : Nat) : Int) - (91000 : Nat)) / (4 - 1) = 13333 :=
  ⟨(C13_flow_rate_at_shutoff 1 1200
      { demo_state with
        queue := [{ demo_run 0 10 with st := 1001 }, { demo_run 1 20 with st := 1016 }]
        station_qid := [0, 1, 255, 255, 255, 255, 255, 255]
        flow_begin := 91000, flow_stop := 131000, flow_gallons := 4 }
      { demo_run 1 20 with st := 1016 } (by decide)).1 (by decide) (by decide),
    by decide⟩

/-! ## Network check: claims C14, C15 -/

/-- A requested run of `check_network` while Idle, field by field. -/
theorem check_network_requested (failed r : Bool) (s : State)
    (hidle : s.program_busy = false) (hreq : s.req_network = true) :
    (check_network failed r s).network_fails
      = (if (if failed then (if s.network_fails + 1 > 6 then 6 else s.network_fails + 1)
              else 0) ≥ 6
          then (if failed then (if s.network_fails + 1 > 6 then 6 else s.network_fails + 1)
                else 0)
          else if (if failed then (if s.network_fails + 1 > 6 then 6 else s.network_fails + 1)
                    else 0) > 2 ∧ r = true
            then 0
            else (if failed then (if s.network_fails + 1 > 6 then 6 else s.network_fails + 1)
                  else 0))
    ∧ (check_network failed r s).safe_reboot
        = (if (if failed then (if s.network_fails + 1 > 6 then 6 else s.network_fails + 1)
                else 0) ≥ 6
            then true else s.safe_reboot)
    ∧ (check_network failed r s).program_busy = false
    ∧ (check_network failed r s).events = s.events := by
  unfold check_network
  rw [if_neg (by simp [hidle]), if_pos hreq]
  cases failed
  · simp [hidle]
  · by_cases h6 : s.network_fails + 1 > 6
    · simp [h6, hidle]
    · by_cases h5 : s.network_fails + 1 ≥ 6
      · have h56 : s.network_fails + 1 = 6 := by omega
        simp [h56, hidle]
      · by_cases h2 : s.network_fails + 1 > 2
        · cases r <;> simp [h6, h5, h2, hidle]
        · simp [h6, h5, h2, hidle]

/-- C14: one requested `check_network` run while Idle, on a failure counter `c` within
0..6, updates the counter as follows: a successful ping sets `c = 0`; a failed ping sets
`c = min(c+1, 6)`; then, if `c = 6` the pending safe-reboot flag is set (and is otherwise
left as it was), and if `2 < c < 6` a reconnect is attempted which resets `c` to 0 when
it succeeds. After the call `0 <= c <= 6`, and `check_network` records no reboot. -/
theorem C14_check_network (failed r : Bool) (s : State)
    (hidle : s.program_busy = false) (hreq : s.req_network = true)
    (hc : s.network_fails ≤ 6) :
    (check_network failed r s).network_fails
      = (if (if failed then min (s.network_fails + 1) 6 else 0) = 6 then 6
          else if 2 < (if failed then min (s.network_fails + 1) 6 else 0) ∧ r = true then 0
          else (if failed then min (s.network_fails + 1) 6 else 0))
    ∧ (check_network failed r s).safe_reboot
        = (if (if failed then min (s.network_fails + 1) 6 else 0) = 6 then true
            else s.safe_reboot)
    ∧ (check_network failed r s).network_fails ≤ 6
    ∧ (check_network failed r s).events = s.events := by
  obtain ⟨e1, e2, _, e4⟩ := check_network_requested failed r s hidle hreq
  have hmin : (if s.network_fails + 1 > 6 then 6 else s.network_fails + 1)
      = min (s.network_fails + 1) 6 := by
    split <;> omega
  rw [hmin] at e1 e2
  have hle : (if failed then min (s.network_fails + 1) 6 else 0) ≤ 6 := by
    split <;> omega
  generalize (if failed then min (s.network_fails + 1) 6 else 0) = c1 at e1 e2 hle ⊢
  refine ⟨?_, ?_, ?_, e4⟩
  · rw [e1]
    by_cases h6 : c1 = 6
    · rw [if_pos (by omega), if_pos h6, h6]
    · rw [if_neg (by omega), if_neg h6]
  · rw [e2]
    by_cases h6 : c1 = 6
    · rw [if_pos (by omega), if_pos h6]
    · rw [if_neg (by omega), if_neg h6]
  · rw [e1]
    split
    · omega
    · split <;> omega

/-- Witness of C14: the third failed ping in a row with a successful reconnect. -/
theorem C14_check_network_witness :
    (check_network true true { demo_state with network_fails := 2, req_network := true }).network_fails
      = 0
    ∧ (check_network true true
        { demo_state with network_fails := 2, req_network := true }).events = [] :=
  ⟨((C14_check_network true true { demo_state with network_fails := 2, req_network := true }
      rfl rfl (by decide)).1).trans (by decide),
    (C14_check_network true true { demo_state with network_fails := 2, req_network := true }
      rfl rfl (by decide)).2.2.2⟩

/-- One requested run with a failed ping while Idle. -/
theorem request_check_network_failed (r : Bool) (x : State) (hidle : x.program_busy = false) :
    (request_check_network true r x).program_busy = false
    ∧ (request_check_network true r x).network_fails
        = (if min (x.network_fails + 1) 6 ≥ 6 then 6
            else if min (x.network_fails + 1) 6 > 2 ∧ r = true then 0
            else min (x.network_fails + 1) 6)
    ∧ (request_check_network true r x).safe_reboot
        = (if min (x.network_fails + 1) 6 ≥ 6 then true else x.safe_reboot) := by
  obtain ⟨e1, e2, e3, _⟩ := check_network_requested true r { x with req_network := true }
    hidle rfl
  have hmin : (if x.network_fails + 1 > 6 then 6 else x.network_fails + 1)
      = min (x.network_fails + 1) 6 := by
    split <;> omega
  simp only [if_true, hmin] at e1 e2
  refine ⟨e3, ?_, e2⟩
  unfold request_check_network
  rw [e1]
  split
  · omega
  · rfl

/-- Counterexample to C15 as stated: when the reconnect attempts succeed, six
consecutive runs with a failed ping leave the safe-reboot flag unset (the counter is
reset to 0 at every third failure). -/
theorem C15_counterexample :
    (check_network_runs
        [(true, true), (true, true), (true, true), (true, true), (true, true), (true, true)]
        demo_state).safe_reboot = false
    ∧ (check_network_runs
        [(true, true), (true, true), (true, true), (true, true), (true, true), (true, true)]
        demo_state).network_fails = 0
    ∧ demo_state.network_fails = 0 ∧ demo_state.program_busy = false := by
  decide

/-- C15 (amended): starting from a failure counter of 0 while Idle, after six
consecutive `check_network` runs in each of which the ping fails, the safe-reboot flag is
set by these runs exactly when every reconnect attempt made in between (after the third,
fourth and fifth failure) fails; a successful reconnect resets the counter to 0. -/
theorem C15_six_failed_pings (s : State) (r1 r2 r3 r4 r5 r6 : Bool)
    (hidle : s.program_busy = false) (hc : s.network_fails = 0) :
    (check_network_runs
        [(true, r1), (true, r2), (true, r3), (true, r4), (true, r5), (true, r6)]
        s).safe_reboot = (s.safe_reboot || (!r3 && !r4 && !r5))
    ∧ (r3 = false → r4 = false → r5 = false →
        (check_network_runs
          [(true, r1), (true, r2), (true, r3), (true, r4), (true, r5), (true, r6)]
          s).safe_reboot = true
        ∧ (check_network_runs
          [(true, r1), (true, r2), (true, r3), (true, r4), (true, r5), (true, r6)]
          s).network_fails = 6) := by
  simp only [check_network_runs, List.foldl_cons, List.foldl_nil]
  obtain ⟨a1, b1, c1⟩ := request_check_network_failed r1 s hidle
  generalize request_check_network true r1 s = x1 at a1 b1 c1 ⊢
  obtain ⟨a2, b2, c2⟩ := request_check_network_failed r2 x1 a1
  generalize request_check_network true r2 x1 = x2 at a2 b2 c2 ⊢
  obtain ⟨a3, b3, c3⟩ := request_check_network_failed r3 x2 a2
  generalize request_check_network true r3 x2 = x3 at a3 b3 c3 ⊢
  obtain ⟨a4, b4, c4⟩ := request_check_network_failed r4 x3 a3
  generalize request_check_network true r4 x3 = x4 at a4 b4 c4 ⊢
  obtain ⟨a5, b5, c5⟩ := request_check_network_failed r5 x4 a4
  generalize request_check_network true r5 x4 = x5 at a5 b5 c5 ⊢
  obtain ⟨_, b6, c6⟩ := request_check_network_failed r6 x5 a5
  generalize request_check_network true r6 x5 = x6 at b6 c6 ⊢
  rw [hc] at b1 c1
  simp only [Nat.zero_add] at b1 c1
  norm_num at b1 c1
  rw [b1] at b2 c2
  norm_num at b2 c2
  rw [b2] at b3 c3
  norm_num at b3 c3
  cases r3 <;> cases r4 <;> cases r5 <;> simp_all

/-- Witness of C15 (amended): six failed pings with every reconnect attempt failing. -/
theorem C15_six_failed_pings_witness :
    demo_state.program_busy = false ∧ demo_state.network_fails = 0
    ∧ (check_network_runs
        [(true, false), (true, false), (true, false), (true, false), (true, false),
          (true, false)]
        demo_state).safe_reboot = true :=
  ⟨rfl, rfl,
    ((C15_six_failed_pings demo_state false false false false false false rfl rfl).2
      rfl rfl rfl).1⟩

/-! ## Reboots: claims C16, C17 -/

theorem do_loop_safe_reboot_eq (progs : List ProgramStruct) (now : Nat) (s : State) :
    do_loop_safe_reboot progs now s
      = if s.safe_reboot = true ∧ s.program_busy = false
            ∧ ∀ prog ∈ progs, prog.check_match ((now + 60) % ULONG_MOD) = false
        then reboot_dev s else s := by
  unfold do_loop_safe_reboot
  by_cases h1 : s.safe_reboot = true
  · by_cases h2 : s.program_busy = true
    · simp [h1, h2]
    · have h2f : s.program_busy = false := by simpa using h2
      by_cases h3 : ∀ prog ∈ progs, prog.check_match ((now + 60) % ULONG_MOD) = false
      · have hany : progs.any (fun prog => prog.check_match ((now + 60) % ULONG_MOD)) = false := by
          rw [List.any_eq_false]
          intro prog hp
          simp [h3 prog hp]
        rw [if_pos h1, if_neg h2]
        simp only [hany, Bool.false_eq_true, if_false]
        rw [if_pos ⟨h1, h2f, h3⟩]
      · have hany : progs.any (fun prog => prog.check_match ((now + 60) % ULONG_MOD)) = true := by
          rw [List.any_eq_true]
          push_neg at h3
          obtain ⟨prog, hp, hm⟩ := h3
          exact ⟨prog, hp, by simpa using hm⟩
        rw [if_pos h1, if_neg h2]
        simp only [hany, if_true]
        rw [if_neg (fun h => h3 h.2.2)]
  · rw [if_neg h1, if_neg (fun h => h1 h.1)]

/-- C16: in a tick at time `now`, the safe-reboot step reboots the device (it records the
event `reboot_dev` and changes nothing else) if and only if the safe-reboot flag is set,
the system is Idle (`program_busy` is 0) and no stored program matches at time `now+60`
(a `ulong` sum); in every other case the step leaves the state as it is, so a pending
reboot is never executed while Running. -/
theorem C16_safe_reboot_step (progs : List ProgramStruct) (now : Nat) (s : State) :
    ((s.safe_reboot = true ∧ s.program_busy = false
        ∧ ∀ prog ∈ progs, prog.check_match ((now + 60) % ULONG_MOD) = false) →
      do_loop_safe_reboot progs now s = { s with events := s.events ++ [Event.reboot_dev] })
    ∧ (¬ (s.safe_reboot = true ∧ s.program_busy = false
          ∧ ∀ prog ∈ progs, prog.check_match ((now + 60) % ULONG_MOD) = false) →
        do_loop_safe_reboot progs now s = s)
    ∧ (s.program_busy = true → do_loop_safe_reboot progs now s = s)
    ∧ ((do_loop_safe_reboot progs now s).events = s.events ++ [Event.reboot_dev] ↔
        (s.safe_reboot = true ∧ s.program_busy = false
          ∧ ∀ prog ∈ progs, prog.check_match ((now + 60) % ULONG_MOD) = false)) := by
  rw [do_loop_safe_reboot_eq]
  refine ⟨?_, ?_, ?_, ?_⟩
  · intro h
    rw [if_pos h]
    rfl
  · intro h
    rw [if_neg h]
  · intro h
    rw [if_neg (fun hc => by simp [h] at hc)]
  · constructor
    · intro h
      by_contra hc
      rw [if_neg hc] at h
      simp at h
    · intro h
      rw [if_pos h]
      rfl

/-- Witness of C16: a pending reboot is executed while Idle with no stored program. -/
theorem C16_safe_reboot_step_witness :
    do_loop_safe_reboot [] 1000 { demo_state with safe_reboot := true }
      = { ({ demo_state with safe_reboot := true } : State) with
          events := ({ demo_state with safe_reboot := true } : State).events
            ++ [Event.reboot_dev] } :=
  (C16_safe_reboot_step [] 1000 { demo_state with safe_reboot := true }).1
    ⟨rfl, rfl, by simp⟩

/-- Counterexample to C17 as stated: a day after a start with an unset clock, the first
successful NTP sync restarts the device in the tick although a stored program matches
at `now+60`. -/
theorem C17_counterexample :
    (do_loop_ntp demo_config 1500000000 90000
        { demo_state with sys_time := 90000 }).events = [Event.reboot_dev]
    ∧ ({ demo_state with sys_time := 90000 } : State).events = []
    ∧ ({ demo_state with sys_time := 90000 } : State).program_busy = false
    ∧ (demo_prog 300 false).check_match ((90000 + 60) % ULONG_MOD) = true := by
  decide

/-- C17 (amended): every device reboot that the per-second tick can trigger happens only
while the system is Idle; the safe-reboot step reboots only when, in addition, no stored
program matches at `now+60`, whereas the restart after a first successful NTP sync in
`perform_ntp_sync` (clock unset before the sync and set after it) is immediate and does
not look at the stored programs. -/
theorem C17_reboot_only_idle (c : Config) (progs : List ProgramStruct) (ntp_time now : Nat)
    (s : State) :
    ((do_loop_safe_reboot progs now s).events = s.events
      ∨ ((do_loop_safe_reboot progs now s).events = s.events ++ [Event.reboot_dev]
          ∧ s.program_busy = false
          ∧ ∀ prog ∈ progs, prog.check_match ((now + 60) % ULONG_MOD) = false))
    ∧ ((perform_ntp_sync c ntp_time s).events = s.events
      ∨ ((perform_ntp_sync c ntp_time s).events = s.events ++ [Event.reboot_dev]
          ∧ s.program_busy = false ∧ s.sys_time ≤ 978307200 ∧ 978307200 < ntp_time))
    ∧ ((do_loop_ntp c ntp_time now s).events = s.events
      ∨ ((do_loop_ntp c ntp_time now s).events = s.events ++ [Event.reboot_dev]
          ∧ s.program_busy = false ∧ s.sys_time ≤ 978307200 ∧ 978307200 < ntp_time)) := by
  have hntp : ∀ x : State, (perform_ntp_sync c ntp_time x).events = x.events
      ∨ ((perform_ntp_sync c ntp_time x).events = x.events ++ [Event.reboot_dev]
          ∧ x.program_busy = false ∧ x.sys_time ≤ 978307200 ∧ 978307200 < ntp_time) := by
    intro x
    unfold perform_ntp_sync
    by_cases h1 : c.use_ntp = 0 ∨ x.network_fails > 0 ∨ x.program_busy = true
    · left
      rw [if_pos h1]
    · have hb : x.program_busy = false := by
        by_contra hb
        exact h1 (Or.inr (Or.inr (by simpa using hb)))
      rw [if_neg h1]
      by_cases h2 : x.req_ntpsync = true
      · rw [if_pos h2]
        by_cases h3 : ntp_time > 0
        · by_cases h4 : x.sys_time ≤ 978307200 ∧ ntp_time > 978307200
          · right
            refine ⟨?_, hb, h4.1, h4.2⟩
            simp [h3, h4.1, h4.2, reboot_dev, emit]
          · left
            simp only [h3, if_true]
            rw [if_neg (by simpa using h4)]
        · left
          simp [h3]
      · left
        rw [if_neg h2]
  refine ⟨?_, hntp s, ?_⟩
  · rw [do_loop_safe_reboot_eq]
    split
    · rename_i h
      exact Or.inr ⟨rfl, h.2.1, h.2.2⟩
    · exact Or.inl rfl
  · unfold do_loop_ntp
    split
    · exact hntp { s with req_ntpsync := true }
    · exact Or.inl rfl

/-- Witness of C17 (amended): the safe-reboot step with a stored program that matches at
every time does not reboot. -/
theorem C17_reboot_only_idle_witness :
    (do_loop_safe_reboot [demo_prog 300 false] 1000
        { demo_state with safe_reboot := true }).events
      = ({ demo_state with safe_reboot := true } : State).events :=
  ((C17_reboot_only_idle demo_config [demo_prog 300 false] 0 1000
      { demo_state with safe_reboot := true }).1).resolve_right
    (fun h => absurd (h.2.2 (demo_prog 300 false) (List.mem_singleton.mpr rfl)) (by decide))

/-! ## Master valves: claim C18 -/

theorem master_scan_eq (mas : Nat) (on_adj off_adj : Int) (masop : List Nat) (now : Nat)
    (s : State) (sids : List Nat)
    (hvalid : ∀ sid ∈ sids, mas ≠ sid + 1 → s.station_bits.getD sid false = true →
      attrib_bit masop sid = true → ∃ q, s.queue[s.station_qid.getD sid 255]? = some q) :
    ∃ b : Bool, master_scan mas on_adj off_adj masop now s sids = some b
      ∧ (b = true ↔ ∃ sid ∈ sids, mas ≠ sid + 1 ∧ s.station_bits.getD sid false = true
          ∧ attrib_bit masop sid = true
          ∧ ∃ q, s.queue[s.station_qid.getD sid 255]? = some q
              ∧ master_window on_adj off_adj now q = true) := by
  induction sids with
  | nil => exact ⟨false, rfl, by simp⟩
  | cons sid rest ih =>
    obtain ⟨b, hb, hiff⟩ := ih (fun x hx => hvalid x (List.mem_cons_of_mem _ hx))
    unfold master_scan
    by_cases h1 : mas = sid + 1
    · rw [if_pos h1]
      refine ⟨b, hb, ?_⟩
      rw [hiff]
      constructor
      · rintro ⟨x, hx, hr⟩
        exact ⟨x, List.mem_cons_of_mem _ hx, hr⟩
      · rintro ⟨x, hx, hr⟩
        rcases List.mem_cons.mp hx with hx | hx
        · subst hx
          exact absurd h1 hr.1
        · exact ⟨x, hx, hr⟩
    · rw [if_neg h1]
      by_cases h2 : (s.station_bits.getD sid false && attrib_bit masop sid) = true
      · rw [if_pos h2]
        have h2a : s.station_bits.getD sid false = true := by
          revert h2; cases s.station_bits.getD sid false <;> simp
        have h2b : attrib_bit masop sid = true := by
          revert h2; cases attrib_bit masop sid <;> simp
        obtain ⟨q, hq⟩ := hvalid sid (List.mem_cons_self _ _) h1 h2a h2b
        simp only [hq]
        by_cases hw : master_window on_adj off_adj now q = true
        · rw [if_pos hw]
          refine ⟨true, rfl, ?_⟩
          simp only [true_iff]
          exact ⟨sid, List.mem_cons_self _ _, h1, h2a, h2b, q, hq, hw⟩
        · rw [if_neg hw]
          refine ⟨b, hb, ?_⟩
          rw [hiff]
          constructor
          · rintro ⟨x, hx, hr⟩
            exact ⟨x, List.mem_cons_of_mem _ hx, hr⟩
          · rintro ⟨x, hx, hr⟩
            rcases List.mem_cons.mp hx with hx | hx
            · subst hx
              obtain ⟨_, _, _, q1, hq1, hw1⟩ := hr
              rw [hq] at hq1
              rw [Option.some.inj hq1] at hw
              exact absurd hw1 hw
            · exact ⟨x, hx, hr⟩
      · rw [if_neg h2]
        refine ⟨b, hb, ?_⟩
        rw [hiff]
        constructor
        · rintro ⟨x, hx, hr⟩
          exact ⟨x, List.mem_cons_of_mem _ hx, hr⟩
        · rintro ⟨x, hx, hr⟩
          rcases List.mem_cons.mp hx with hx | hx
          · subst hx
            exfalso
            apply h2
            rw [hr.2.1, hr.2.2.1]
            rfl
          · exact ⟨x, hx, hr⟩

/-- A master block of `do_loop` at time `now` ("handle master" or "handle master2", for
the master `mas` with its adjustments and master-operation bits) in a state in which
every station that the block looks up has a tracked run: the commanded bit of
the master valve is 1 if and only if there is a station other than that master's own
station (the station of the other master is not excluded) whose hardware bit is set,
whose master-operation bit for that master is set, and whose tracked run satisfies
`start + onAdjust <= now <= start + duration + offAdjust` (adjustments signed, sums
in the 32-bit `ulong` type); otherwise the bit is 0. No other station bit changes. -/
theorem handle_master_bit (c : Config) (mas : Nat) (on_adj off_adj : Int) (masop : List Nat)
    (now : Nat) (s : State) (hmas : 0 < mas) (hlen : mas - 1 < s.station_bits.length)
    (hvalid : ∀ sid, sid < c.nstations → mas ≠ sid + 1 →
      s.station_bits.getD sid false = true → attrib_bit masop sid = true →
      (s.queue[s.station_qid.getD sid 255]?).isSome = true) :
    ∃ b : Bool,
      handle_master c mas on_adj off_adj masop now s
        = some { s with station_bits := s.station_bits.set (mas - 1) b }
      ∧ (s.station_bits.set (mas - 1) b).getD (mas - 1) false = b
      ∧ (b = true ↔
          ∃ sid, sid < c.nstations ∧ mas ≠ sid + 1 ∧ s.station_bits.getD sid false = true
            ∧ attrib_bit masop sid = true
            ∧ ∃ q, s.queue[s.station_qid.getD sid 255]? = some q
                ∧ toUlong ((q.st : Int) + on_adj) ≤ now
                ∧ now ≤ toUlong ((((q.st + q.dur) % ULONG_MOD : Nat) : Int) + off_adj)) := by
  obtain ⟨b, hb, hiff⟩ := master_scan_eq mas on_adj off_adj masop now s (List.range c.nstations)
    (fun sid hs h1 h2 h3 =>
      Option.isSome_iff_exists.mp (hvalid sid (List.mem_range.mp hs) h1 h2 h3))
  refine ⟨b, ?_, ?_, ?_⟩
  · unfold handle_master
    rw [if_pos hmas, hb]
    rfl
  · rw [List.getD_eq_getElem?_getD, List.getElem?_set_self hlen]
    rfl
  · rw [hiff]
    constructor
    · rintro ⟨sid, hs, h1, h2, h3, q, hq, hw⟩
      refine ⟨sid, List.mem_range.mp hs, h1, h2, h3, q, hq, ?_⟩
      simpa [master_window] using hw
    · rintro ⟨sid, hs, h1, h2, h3, q, hq, hw⟩
      refine ⟨sid, List.mem_range.mpr hs, h1, h2, h3, q, hq, ?_⟩
      simpa [master_window] using hw

/-- Example of a master block with tracked runs: station 1 runs inside the window and
turns master station 8 on. -/
theorem handle_master_bit_demo :
    ∃ b : Bool,
      handle_master demo_config 8 0 0 [255] 1050
          { demo_state with
            queue := [{ demo_run 1 100 with st := 1001 }]
            station_qid := [255, 0, 255, 255, 255, 255, 255, 255]
            station_bits := [false, true, false, false, false, false, false, false]
            mas := 8 }
        = some { ({ demo_state with
            queue := [{ demo_run 1 100 with st := 1001 }]
            station_qid := [255, 0, 255, 255, 255, 255, 255, 255]
            station_bits := [false, true, false, false, false, false, false, false]
            mas := 8 } : State) with
            station_bits :=
              ([false, true, false, false, false, false, false, false] : List Bool).set (8 - 1) b } :=
  (handle_master_bit demo_config 8 0 0 [255] 1050
    { demo_state with
      queue := [{ demo_run 1 100 with st := 1001 }]
      station_qid := [255, 0, 255, 255, 255, 255, 255, 255]
      station_bits := [false, true, false, false, false, false, false, false]
      mas := 8 }
    (by decide) (by decide) (by decide)).imp (fun _ h => h.1)

/-- C18, the code at the failing input: station 0 is the first master and station 1 the
second; station 2 operates the first master and station 0 operates the second master; a
stored program waters station 2 for 30 s and matches at 1200. The tick at 1200 from the
initial state enqueues station 2. In the tick at 1201 the Running block starts station 2;
the block "handle master" turns the first master (station 0) on. At that moment no
station other than the two masters has its bit set together with its master-operation
bit for the second master, so the commanded bit of the second master is to be 0. The
block "handle master2" skips only station 1: it meets station 0, whose bit is set and
which operates the second master, and looks up its run, which is not tracked (index
entry 255): the read is outside the queue and the master step yields no state. -/
theorem C18_master_bit_outside_queue :
    ((do_loops demo_master_config id [demo_prog 30 false] [demo_tick 1200] demo_state).bind
        (fun x => do_loop_running demo_master_config 1201
          (do_loop_schedule demo_master_config id [demo_prog 30 false] 1201
            (do_loop_head demo_master_config id [demo_prog 30 false] (demo_tick 1201)
              { x with mas := demo_master_config.master_station,
                       mas2 := demo_master_config.master_station_2 })))).map
        (fun y => (y.mas, y.mas2, y.station_bits, y.station_qid))
      = some (1, 2, [false, false, true, false, false, false, false, false],
          [255, 255, 0, 255, 255, 255, 255, 255])
    ∧ ((do_loops demo_master_config id [demo_prog 30 false] [demo_tick 1200] demo_state).bind
        (fun x => (do_loop_running demo_master_config 1201
          (do_loop_schedule demo_master_config id [demo_prog 30 false] 1201
            (do_loop_head demo_master_config id [demo_prog 30 false] (demo_tick 1201)
              { x with mas := demo_master_config.master_station,
                       mas2 := demo_master_config.master_station_2 }))).bind
          (fun y => handle_master demo_master_config y.mas demo_master_config.mas_on_adj
            demo_master_config.mas_off_adj demo_master_config.mas_op 1201 y))).map
        (fun z => (z.station_bits,
          (List.range demo_master_config.nstations).filter (fun sid =>
            decide (z.mas ≠ sid + 1) && decide (z.mas2 ≠ sid + 1)
              && z.station_bits.getD sid false && attrib_bit demo_master_config.mas_op_2 sid),
          z.station_bits.getD 0 false && attrib_bit demo_master_config.mas_op_2 0,
          (handle_master demo_master_config z.mas2 demo_master_config.mas_on_adj_2
            demo_master_config.mas_off_adj_2 demo_master_config.mas_op_2 1201 z).isSome))
      = some ([true, false, true, false, false, false, false, false], [], true, false)
    ∧ ((do_loops demo_master_config id [demo_prog 30 false] [demo_tick 1200] demo_state).bind
        (fun x => (do_loop_running demo_master_config 1201
          (do_loop_schedule demo_master_config id [demo_prog 30 false] 1201
            (do_loop_head demo_master_config id [demo_prog 30 false] (demo_tick 1201)
              { x with mas := demo_master_config.master_station,
                       mas2 := demo_master_config.master_station_2 }))).bind
          (do_loop_master demo_master_config 1201))) = none
    ∧ ((do_loops demo_master_config id [demo_prog 30 false] [demo_tick 1200] demo_state).bind
        (do_loop demo_master_config id [demo_prog 30 false] (demo_tick 1201))) = none := by
  refine ⟨?_, ?_, ?_, ?_⟩
  · decide
  · decide
  · decide
  · decide

/-! ## Removal of finished queue elements: claim C20 -/

theorem gc_loop_spec (now : Nat) :
    ∀ (n : Nat) (s : State), n ≤ s.queue.length →
      (∀ i q, n ≤ i → s.queue[i]? = some q → finished now q = false) →
      ∃ s1, gc_loop now n s = some s1
        ∧ s1.queue.Perm (s.queue.filter (fun q => !finished now q)) := by
  intro n
  induction n with
  | zero =>
    intro s _ hkeep
    refine ⟨s, rfl, ?_⟩
    have : s.queue.filter (fun q => !finished now q) = s.queue := by
      rw [List.filter_eq_self]
      intro q hq
      obtain ⟨i, hi, hiq⟩ := List.getElem_of_mem hq
      have := hkeep i q (Nat.zero_le _) (by rw [List.getElem?_eq_getElem hi, hiq])
      simp [this]
    rw [this]
  | succ n ih =>
    intro s hn hkeep
    have hlt : n < s.queue.length := by omega
    have hq : s.queue[n]? = some s.queue[n] := List.getElem?_eq_getElem hlt
    unfold gc_loop
    simp only [hq]
    by_cases hf : finished now s.queue[n] = true
    · rw [if_pos hf]
      have hlast : s.queue.length - 1 < s.queue.length := by omega
      have hm : s.queue.getD (s.queue.length - 1) s.queue[n] = s.queue[s.queue.length - 1] := by
        rw [List.getD_eq_getElem?_getD, List.getElem?_eq_getElem hlast]
        rfl
      have hdq := dequeue_queue n s s.queue[n] hq
      rw [hm] at hdq
      have hperm : s.queue.Perm (s.queue[n] :: (dequeue n s).queue) := by
        rw [hdq]
        exact set_take_perm s.queue n s.queue[n] _ hq
          (fun _ => List.getElem?_eq_getElem hlast)
      have hlen : (dequeue n s).queue.length = s.queue.length - 1 := by
        rw [hdq, List.length_take, List.length_set]
        omega
      obtain ⟨s1, h1, h2⟩ := ih (dequeue n s) (by omega) (by
        intro i q hi hiq
        rw [hdq] at hiq
        have hil : i < s.queue.length - 1 := by
          by_contra hc
          rw [List.getElem?_eq_none (by rw [List.length_take, List.length_set]; omega)] at hiq
          simp at hiq
        rw [List.getElem?_take_of_lt hil] at hiq
        by_cases hin : n = i
        · subst hin
          rw [List.getElem?_set_self hlt] at hiq
          exact hkeep (s.queue.length - 1) q (by omega)
            (by rw [List.getElem?_eq_getElem hlast]; exact hiq)
        · rw [List.getElem?_set_ne hin] at hiq
          exact hkeep i q (by omega) hiq)
      refine ⟨s1, h1, h2.trans ?_⟩
      have := hperm.filter (fun q => !finished now q)
      rw [List.filter_cons, hf] at this
      simpa using this.symm
    · rw [if_neg hf]
      have hf1 : finished now s.queue[n] = false := by simpa using hf
      exact ih s (by omega) (by
        intro i q hi hiq
        by_cases hin : n = i
        · subst hin
          rw [hq] at hiq
          rw [← Option.some.inj hiq]
          exact hf1
        · exact hkeep i q (by omega) hiq)

/-- C20: after the clean-up loop of a Running tick at time `now`, which follows the
stop-pass and the start-pass and runs on whatever queue they leave, the queue holds
exactly the runs that were neither cancelled nor fully elapsed: every run still in the
queue has `duration != 0` and `start + duration > now` (a `ulong` sum), every other run
has been removed, also when removing one run relocates another within the queue, and
no run is read outside the queue. -/
theorem C20_queue_clean (now : Nat) (s : State) :
    ∃ s1, do_loop_gc now s = some s1
      ∧ s1.queue.Perm (s.queue.filter (fun q => !finished now q))
      ∧ (∀ q ∈ s1.queue, q.dur ≠ 0 ∧ now < (q.st + q.dur) % ULONG_MOD)
      ∧ (do_loop_gc 1031
            { demo_state with
              queue := [{ demo_run 0 10 with st := 1001 }, { demo_run 1 20 with st := 1016 },
                        { demo_run 2 30 with st := 1001 }, { demo_run 3 40 with st := 1002 }]
              station_qid := [0, 1, 2, 3, 255, 255, 255, 255] }).map
          (fun x => (x.queue.map (fun q => q.sid), x.station_qid))
        = some ([3, 1], [255, 1, 255, 0, 255, 255, 255, 255]) := by
  obtain ⟨s1, h1, h2⟩ := gc_loop_spec now s.queue.length s (le_refl _) (by
    intro i q hi hiq
    rw [List.getElem?_eq_none hi] at hiq
    simp at hiq)
  refine ⟨s1, h1, h2, ?_, by decide⟩
  intro q hq
  have hmem := (h2.mem_iff).mp hq
  rw [List.mem_filter] at hmem
  have hf : finished now q = false := by simpa using hmem.2
  unfold finished at hf
  simp only [Bool.or_eq_false_iff, beq_eq_false_iff_ne, decide_eq_false_iff_not] at hf
  exact ⟨hf.1, by omega⟩

/-! ## `process_dynamic_events`: claim C19 -/

theorem sid_bits (bid s_ : Nat) (h : s_ < 8) :
    (bid * 8 + s_) >>> 3 = bid ∧ (bid * 8 + s_) &&& 7 = s_ := by
  constructor
  · rw [Nat.shiftRight_eq_div_pow]
    omega
  · have h7 : (7 : Nat) = 2 ^ 3 - 1 := by norm_num
    rw [h7, Nat.and_pow_two_sub_one_eq_mod]
    omega

/-- The station index of a state that satisfies the queue invariant never holds the
index of the last slot or beyond, except 255. -/
theorem tracked_some_lt (s : State) (sid : Nat) (q : RuntimeQueueStruct)
    (h : tracked s sid = some q) :
    s.station_qid.getD sid 255 ≠ 255 ∧ s.queue[s.station_qid.getD sid 255]? = some q := by
  unfold tracked at h
  by_cases h5 : s.station_qid.getD sid 255 = 255
  · rw [if_pos h5] at h
    simp at h
  · rw [if_neg h5] at h
    exact ⟨h5, h⟩

/-- Removing a slot leaves the run tracked for every other station as it is. -/
theorem dequeue_tracked_other (qid : Nat) (s : State) (q : RuntimeQueueStruct)
    (h : queue_inv s) (hq : s.queue[qid]? = some q) (sid1 : Nat) (hne : sid1 ≠ q.sid) :
    tracked (dequeue qid s) sid1 = tracked s sid1 := by
  have hlt : qid < s.queue.length := by
    by_contra hc
    rw [List.getElem?_eq_none (by omega)] at hq
    simp at hq
  have hlast : s.queue.length - 1 < s.queue.length := by omega
  obtain ⟨m, hm⟩ : ∃ m, s.queue[s.queue.length - 1]? = some m :=
    ⟨_, List.getElem?_eq_getElem hlast⟩
  have hmd : s.queue.getD (s.queue.length - 1) q = m := by
    rw [List.getD_eq_getElem?_getD, hm]; rfl
  have h255 := h.1
  unfold tracked
  simp only [dequeue, hq, hmd]
  generalize hI1 : (if qid < s.queue.length - 1
      ∧ s.station_qid.getD m.sid 255 = s.queue.length - 1 then
        s.station_qid.set m.sid qid
      else s.station_qid) = I1
  have hI1get : I1.getD sid1 255
      = if (qid < s.queue.length - 1 ∧ s.station_qid.getD m.sid 255 = s.queue.length - 1)
            ∧ m.sid = sid1 ∧ sid1 < s.station_qid.length then qid
        else s.station_qid.getD sid1 255 := by
    rw [← hI1]
    by_cases hcond : qid < s.queue.length - 1
        ∧ s.station_qid.getD m.sid 255 = s.queue.length - 1
    · rw [if_pos hcond, getD_set_nat]
      by_cases hx : m.sid = sid1 ∧ sid1 < s.station_qid.length
      · rw [if_pos hx, if_pos ⟨hcond, hx⟩]
      · rw [if_neg hx, if_neg (fun hc => hx hc.2)]
    · rw [if_neg hcond, if_neg (fun hc => hcond hc.1)]
  have hset : (I1.set q.sid 255).getD sid1 255 = I1.getD sid1 255 := by
    rw [getD_set_nat]
    exact if_neg (fun hc => hne hc.1.symm)
  show (if (I1.set q.sid 255).getD sid1 255 = 255 then none
      else ((s.queue.set qid m).take (s.queue.length - 1))[(I1.set q.sid 255).getD sid1 255]?)
    = if s.station_qid.getD sid1 255 = 255 then none
      else s.queue[s.station_qid.getD sid1 255]?
  rw [hset, hI1get]
  by_cases hmv : (qid < s.queue.length - 1
        ∧ s.station_qid.getD m.sid 255 = s.queue.length - 1)
      ∧ m.sid = sid1 ∧ sid1 < s.station_qid.length
  · rw [if_pos hmv]
    have hidx : s.station_qid.getD sid1 255 = s.queue.length - 1 := by
      rw [← hmv.2.1]; exact hmv.1.2
    rw [hidx, if_neg (by omega), if_neg (by omega), hm,
      List.getElem?_take_of_lt hmv.1.1, List.getElem?_set_self hlt]
  · rw [if_neg hmv]
    by_cases hv : s.station_qid.getD sid1 255 = 255
    · rw [if_pos hv, if_pos hv]
    · rw [if_neg hv, if_neg hv]
      have hs1 : sid1 < s.station_qid.length := by
        by_contra hc
        apply hv
        rw [List.getD_eq_getElem?_getD, List.getElem?_eq_none (by omega)]
        rfl
      rcases h.2 sid1 hs1 with h1 | ⟨q0, hq1, hq2⟩
      · exact absurd h1 hv
      · have hvl : s.station_qid.getD sid1 255 < s.queue.length := by
          by_contra hc1
          rw [List.getElem?_eq_none (by omega)] at hq1
          simp at hq1
        have hneq : s.station_qid.getD sid1 255 ≠ qid := by
          intro hc1
          rw [hc1, hq] at hq1
          exact hne (by rw [Option.some.inj hq1]; exact hq2.symm)
        have hne2 : s.station_qid.getD sid1 255 ≠ s.queue.length - 1 := by
          intro hc1
          have hm2 : m.sid = sid1 := by
            rw [hc1, hm] at hq1
            rw [Option.some.inj hq1]; exact hq2
          apply hmv
          refine ⟨⟨?_, ?_⟩, hm2, hs1⟩
          · rw [hc1] at hneq
            omega
          · rw [hm2]; exact hc1
        rw [List.getElem?_take_of_lt (by omega), List.getElem?_set_ne (Ne.symm hneq)]

theorem turn_off_station_status (sid t : Nat) (s : State) :
    (turn_off_station sid t s).mas = s.mas ∧ (turn_off_station sid t s).mas2 = s.mas2 := by
  have hd : ∀ (qid : Nat) (x : State),
      (dequeue qid x).mas = x.mas ∧ (dequeue qid x).mas2 = x.mas2 := by
    intro qid x
    unfold dequeue
    cases x.queue[qid]? <;> exact ⟨rfl, rfl⟩
  have hr : ∀ (qid : Nat) (q : RuntimeQueueStruct) (x : State),
      (turn_off_record sid t qid q x).mas = x.mas
      ∧ (turn_off_record sid t qid q x).mas2 = x.mas2 := by
    intro qid q x
    unfold turn_off_record
    dsimp only
    split_ifs <;> exact ⟨rfl, rfl⟩
  cases hq : s.queue[s.station_qid.getD sid 255]? with
  | none =>
    rw [turn_off_station_untracked sid t s hq]
    exact ⟨rfl, rfl⟩
  | some q =>
    rw [turn_off_station_tracked sid t s q hq, (hd _ _).1, (hd _ _).2, (hr _ _ _).1,
      (hr _ _ _).2]
    exact ⟨rfl, rfl⟩

/-- Effect of `turn_off_station` on the tracked runs and on the station bits, for a
station with a tracked run in a state that satisfies the queue invariant. -/
theorem turn_off_station_tracked_frame (sid t : Nat) (s : State) (q : RuntimeQueueStruct)
    (h : queue_inv s) (hq : s.queue[s.station_qid.getD sid 255]? = some q) :
    tracked (turn_off_station sid t s) sid = none
    ∧ (turn_off_station sid t s).station_bits.getD sid false = false
    ∧ ∀ sid1, sid1 ≠ sid →
        tracked (turn_off_station sid t s) sid1 = tracked s sid1
        ∧ (turn_off_station sid t s).station_bits.getD sid1 false
            = s.station_bits.getD sid1 false := by
  have hlt : s.station_qid.getD sid 255 < s.queue.length := by
    by_contra hc
    rw [List.getElem?_eq_none (by omega)] at hq
    simp at hq
  have hsid : q.sid = sid := by
    by_cases hs : sid < s.station_qid.length
    · rcases h.2 sid hs with h255 | ⟨q1, hq1, hs1⟩
      · have := h.1
        omega
      · rw [hq] at hq1
        rw [Option.some.inj hq1]
        exact hs1
    · rw [List.getD_eq_getElem?_getD, List.getElem?_eq_none (by omega)] at hlt
      have := h.1
      simp at hlt
      omega
  obtain ⟨b1, b2, _, _⟩ := turn_off_station_shape sid t s q hq
  rw [hsid] at b2
  refine ⟨?_, ?_, ?_⟩
  · unfold tracked
    rw [if_pos b2]
  · rw [b1, List.getD_eq_getElem?_getD, List.getElem?_set]
    simp only [if_true]
    split <;> rfl
  · intro sid1 hne
    constructor
    · rw [turn_off_station_tracked sid t s q hq]
      generalize hs1 : ({ set_station_bit sid false s with
          flow_last_gpm :=
            if s.flow_gallons > 1 then flow_gpm (set_station_bit sid false s) else some 0 } : State)
        = s1
      have e1 : s1.station_qid = s.station_qid := by rw [← hs1]; rfl
      have e3 : s1.queue = s.queue := by rw [← hs1]; rfl
      obtain ⟨f1, _, _, f4, _⟩ := turn_off_record_frame sid t (s.station_qid.getD sid 255) q s1
      generalize hs2 : turn_off_record sid t (s.station_qid.getD sid 255) q s1 = s2 at f1 f4
      have hsids : s2.queue.map (fun q => q.sid) = s.queue.map (fun q => q.sid) := by
        rcases f4 with f4 | f4
        · rw [f4, e3]
        · rw [f4, e3]
          exact map_sid_set s.queue _ q (cancel q) hq rfl
      have hinv2 : queue_inv s2 := queue_inv_congr s s2 hsids (by rw [f1, e1]) h
      have hq2 : ∃ q2, s2.queue[s.station_qid.getD sid 255]? = some q2 ∧ q2.sid = sid := by
        rcases f4 with f4 | f4
        · exact ⟨q, by rw [f4, e3]; exact hq, hsid⟩
        · refine ⟨cancel q, ?_, hsid⟩
          rw [f4, e3, List.getElem?_set_self hlt]
      obtain ⟨q2, hq2a, hq2b⟩ := hq2
      rw [dequeue_tracked_other _ s2 q2 hinv2 hq2a sid1 (by rw [hq2b]; exact hne)]
      unfold tracked
      rw [f1, e1]
      by_cases hv : s.station_qid.getD sid1 255 = 255
      · rw [if_pos hv, if_pos hv]
      · rw [if_neg hv, if_neg hv]
        rcases f4 with f4 | f4
        · rw [f4, e3]
        · rw [f4, e3]
          have hneq : s.station_qid.getD sid 255 ≠ s.station_qid.getD sid1 255 := by
            intro hc
            have hs1l : sid1 < s.station_qid.length := by
              by_contra hc1
              apply hv
              rw [List.getD_eq_getElem?_getD, List.getElem?_eq_none (by omega)]
              rfl
            rcases h.2 sid1 hs1l with h1 | ⟨q0, hq1, hq2⟩
            · exact hv h1
            · rw [← hc, hq] at hq1
              rw [← Option.some.inj hq1, hsid] at hq2
              exact hne hq2.symm
          rw [List.getElem?_set_ne hneq]
    · rw [b1, List.getD_eq_getElem?_getD, List.getD_eq_getElem?_getD,
        List.getElem?_set_ne (Ne.symm hne)]

theorem preempt_condition_iff (c : Config) (s : State) (sid : Nat) :
    preempt_condition c s sid ↔ sid < c.nboards * 8 ∧ preempt_core c s sid := Iff.rfl

theorem pde_post_congr (c : Config) (s0 : State) (D1 D2 : Nat → Prop) (x : State)
    (h : ∀ sid, D1 sid ↔ D2 sid) (hp : pde_post c s0 D1 x) : pde_post c s0 D2 x := by
  have e : D1 = D2 := funext (fun sid => propext (h sid))
  rw [← e]
  exact hp

theorem ignrain_bit (c : Config) (bid s_ : Nat) (h : s_ < 8) :
    (c.stn_ignrain.getD bid 0 &&& (1 <<< s_)) = 0
      ↔ attrib_bit c.stn_ignrain (bid * 8 + s_) = false := by
  unfold attrib_bit
  rw [(sid_bits bid s_ h).1, (sid_bits bid s_ h).2]
  simp

/-- In a state that satisfies the queue invariant, a station with an index entry other
than 255 has a run in the slot of the entry. -/
theorem queue_inv_lookup (x : State) (h : queue_inv x) (sid : Nat)
    (hv : x.station_qid.getD sid 255 ≠ 255) :
    ∃ q, x.queue[x.station_qid.getD sid 255]? = some q ∧ q.sid = sid := by
  have hs : sid < x.station_qid.length := by
    by_contra hc
    apply hv
    rw [List.getD_eq_getElem?_getD, List.getElem?_eq_none (by omega)]
    rfl
  rcases h.2 sid hs with h1 | h1
  · exact absurd h1 hv
  · exact h1

/-- One iteration of the loops of `process_dynamic_events` keeps the loop invariant and
adds the station to the visited ones. -/
theorem pde_station_post (c : Config) (t : Nat) (s0 : State) (D : Nat → Prop)
    (bid s_ : Nat) (hb : bid < 32) (hs : s_ < 8) (x : State) (hp : pde_post c s0 D x) :
    ∃ x1, pde_station c t (rain_in_effect c s0) s0.enabled bid s_ x = some x1
      ∧ pde_post c s0 (fun sid => D sid ∨ sid = bid * 8 + s_) x1 := by
  obtain ⟨hinv, hm1, hm2, hall⟩ := hp
  -- the state is unchanged and the station is not to be preempted, or was already done
  have keep : (preempt_core c s0 (bid * 8 + s_) → D (bid * 8 + s_)) →
      pde_post c s0 (fun sid => D sid ∨ sid = bid * 8 + s_) x := by
    intro hk
    refine ⟨hinv, hm1, hm2, ?_⟩
    intro sid
    have hiff : ((D sid ∨ sid = bid * 8 + s_) ∧ preempt_core c s0 sid)
        ↔ (D sid ∧ preempt_core c s0 sid) := by
      constructor
      · rintro ⟨h1 | h1, h2⟩
        · exact ⟨h1, h2⟩
        · subst h1
          exact ⟨hk h2, h2⟩
      · rintro ⟨h1, h2⟩
        exact ⟨Or.inl h1, h2⟩
    rw [hiff]
    exact hall sid
  have hmod : (bid * 8 + s_) % 256 = bid * 8 + s_ := Nat.mod_eq_of_lt (by omega)
  unfold pde_station
  dsimp only
  rw [hmod]
  by_cases h1 : x.mas = bid * 8 + s_ + 1
  · rw [if_pos h1]
    exact ⟨x, rfl, keep (fun hc => absurd (hm1 ▸ h1) hc.1)⟩
  rw [if_neg h1]
  by_cases h2 : x.mas2 = bid * 8 + s_ + 1
  · rw [if_pos h2]
    exact ⟨x, rfl, keep (fun hc => absurd (hm2 ▸ h2) hc.2.1)⟩
  rw [if_neg h2]
  by_cases h3 : x.station_qid.getD (bid * 8 + s_) 255 = 255
  · rw [if_pos h3]
    refine ⟨x, rfl, keep ?_⟩
    intro hc
    by_contra hD
    have hx := ((hall (bid * 8 + s_)).2 (fun hh => hD hh.1)).1
    obtain ⟨q, hq, _⟩ := hc.2.2
    rw [hq] at hx
    unfold tracked at hx
    rw [if_pos h3] at hx
    simp at hx
  rw [if_neg h3]
  obtain ⟨q, hq, hqs⟩ := queue_inv_lookup x hinv _ h3
  rw [hq]
  dsimp only
  have htx : tracked x (bid * 8 + s_) = some q := by
    unfold tracked
    rw [if_neg h3]
    exact hq
  -- the station was not preempted before: its run is the one of the start state
  have hnotdone : ¬ (D (bid * 8 + s_) ∧ preempt_core c s0 (bid * 8 + s_)) := by
    intro hc
    have := ((hall _).1 hc).1
    rw [htx] at this
    simp at this
  have ht0 : tracked s0 (bid * 8 + s_) = some q := by
    rw [← ((hall _).2 hnotdone).1]
    exact htx
  by_cases h4 : q.pid < 99 ∧ (s0.enabled = false
      ∨ (rain_in_effect c s0 = true ∧ (c.stn_ignrain.getD bid 0 &&& (1 <<< s_)) = 0))
  · rw [if_pos h4]
    refine ⟨_, rfl, ?_⟩
    obtain ⟨f1, f2, f3⟩ := turn_off_station_tracked_frame (bid * 8 + s_) t x q hinv hq
    refine ⟨queue_inv_turn_off_station _ _ _ hinv, ?_, ?_, ?_⟩
    · rw [(turn_off_station_status _ _ _).1, hm1]
    · rw [(turn_off_station_status _ _ _).2, hm2]
    · intro sid
      by_cases he : sid = bid * 8 + s_
      · subst he
        constructor
        · intro _
          exact ⟨f1, f2⟩
        · intro hc
          exfalso
          apply hc
          refine ⟨Or.inr rfl, ?_, ?_, q, ht0, h4.1, ?_⟩
          · rw [← hm1]; exact h1
          · rw [← hm2]; exact h2
          · rcases h4.2 with h5 | h5
            · exact Or.inl h5
            · exact Or.inr ⟨h5.1, (ignrain_bit c bid s_ hs).mp h5.2⟩
      · have hiff : ((D sid ∨ sid = bid * 8 + s_) ∧ preempt_core c s0 sid)
            ↔ (D sid ∧ preempt_core c s0 sid) := by
          constructor
          · rintro ⟨h5 | h5, h6⟩
            · exact ⟨h5, h6⟩
            · exact absurd h5 he
          · rintro ⟨h5, h6⟩
            exact ⟨Or.inl h5, h6⟩
        rw [hiff, (f3 sid he).1, (f3 sid he).2]
        exact hall sid
  · rw [if_neg h4]
    refine ⟨x, rfl, keep ?_⟩
    intro hc
    exfalso
    apply h4
    obtain ⟨q1, hq1, hq2, hq3⟩ := hc.2.2
    rw [ht0] at hq1
    rw [Option.some.inj hq1]
    refine ⟨hq2, ?_⟩
    rcases hq3 with h5 | h5
    · exact Or.inl h5
    · exact Or.inr ⟨h5.1, (ignrain_bit c bid s_ hs).mpr h5.2⟩

/-- The loops of `process_dynamic_events` over a list of pairs keep the loop invariant
and add the stations of the list to the visited ones. -/
theorem pde_walk_post (c : Config) (t : Nat) (s0 : State) :
    ∀ (l : List (Nat × Nat)), (∀ p ∈ l, p.1 < 32 ∧ p.2 < 8) → ∀ (D : Nat → Prop) (x : State),
      pde_post c s0 D x →
      ∃ x1, pde_walk c t (rain_in_effect c s0) s0.enabled l x = some x1
        ∧ pde_post c s0 (fun sid => D sid ∨ ∃ p ∈ l, sid = p.1 * 8 + p.2) x1 := by
  intro l
  induction l with
  | nil =>
    intro _ D x hp
    refine ⟨x, rfl, pde_post_congr c s0 D _ x ?_ hp⟩
    intro sid
    simp
  | cons p rest ih =>
    intro hl D x hp
    obtain ⟨x1, e1, p1⟩ :=
      pde_station_post c t s0 D p.1 p.2 (hl p (List.mem_cons_self _ _)).1
        (hl p (List.mem_cons_self _ _)).2 x hp
    obtain ⟨x2, e2, p2⟩ :=
      ih (fun p0 hp0 => hl p0 (List.mem_cons_of_mem _ hp0)) _ x1 p1
    refine ⟨x2, ?_, pde_post_congr c s0 _ _ x2 ?_ p2⟩
    · show (pde_station c t (rain_in_effect c s0) s0.enabled p.1 p.2 x).bind _ = some x2
      rw [e1]
      exact e2
    · intro sid
      simp only [List.mem_cons, exists_eq_or_imp]
      tauto

theorem mem_board_stations (n : Nat) (p : Nat × Nat) :
    p ∈ board_stations n ↔ p.1 < n ∧ p.2 < 8 := by
  unfold board_stations
  simp only [List.mem_flatMap, List.mem_range, List.mem_map]
  constructor
  · rintro ⟨bid, hb, s_, hs, rfl⟩
    exact ⟨hb, hs⟩
  · rintro ⟨h1, h2⟩
    exact ⟨p.1, h1, p.2, h2, rfl⟩

theorem board_stations_sid (n sid : Nat) :
    (∃ p ∈ board_stations n, sid = p.1 * 8 + p.2) ↔ sid < n * 8 := by
  constructor
  · rintro ⟨p, hp, rfl⟩
    have := (mem_board_stations n p).mp hp
    omega
  · intro h
    refine ⟨(sid / 8, sid % 8), (mem_board_stations n _).mpr ⟨?_, ?_⟩, ?_⟩
    · show sid / 8 < n
      omega
    · show sid % 8 < 8
      omega
    · show sid = sid / 8 * 8 + sid % 8
      omega

/-- Claim C19: with at most 32 boards (station numbers are bytes) and in a state that
satisfies the queue invariant, `process_dynamic_events` returns a state, and in it
exactly the stations that were to be preempted (a station of a board that is not a
master station and has a tracked run with program id below 99, while the controller is
disabled or rain is in effect with the ignore-rain bit of the station clear) have lost
their tracked run and have their bit cleared; every other station keeps its tracked run,
in particular every tracked run with program id 99 or 254, and its bit. The queue
invariant holds afterwards. -/
theorem C19_process_dynamic_events (c : Config) (curr_time : Nat) (s : State)
    (hb : c.nboards ≤ 32) (hinv : queue_inv s) :
    ∃ s1, process_dynamic_events c curr_time s = some s1
      ∧ queue_inv s1
      ∧ (∀ sid, preempt_condition c s sid →
          tracked s1 sid = none ∧ s1.station_bits.getD sid false = false)
      ∧ (∀ sid, ¬ preempt_condition c s sid →
          tracked s1 sid = tracked s sid
          ∧ s1.station_bits.getD sid false = s.station_bits.getD sid false)
      ∧ (∀ sid q, tracked s sid = some q → 99 ≤ q.pid → tracked s1 sid = some q) := by
  have h0 : pde_post c s (fun _ => False) s :=
    ⟨hinv, rfl, rfl, fun sid => ⟨fun hc => absurd hc.1 id, fun _ => ⟨rfl, rfl⟩⟩⟩
  obtain ⟨s1, e1, p1⟩ := pde_walk_post c curr_time s (board_stations c.nboards)
    (fun p hp => ⟨by have := ((mem_board_stations _ p).mp hp).1; omega,
      ((mem_board_stations _ p).mp hp).2⟩) _ s h0
  have p2 : pde_post c s (fun sid => sid < c.nboards * 8) s1 := by
    refine pde_post_congr c s _ _ s1 ?_ p1
    intro sid
    rw [board_stations_sid]
    simp
  obtain ⟨q1, _, _, q4⟩ := p2
  refine ⟨s1, e1, q1, fun sid h => (q4 sid).1 h, fun sid h => (q4 sid).2 h, ?_⟩
  intro sid q hq hpid
  rw [← hq]
  refine ((q4 sid).2 ?_).1
  rintro ⟨_, _, _, q0, hq0, hlt, _⟩
  rw [hq] at hq0
  rw [← Option.some.inj hq0] at hlt
  omega

/-- Witness of C19: during a rain delay station 0, which runs program 1, is preempted,
and the test run of station 1 stays in the queue. -/
theorem C19_process_dynamic_events_witness :
    demo_rain_config.nboards ≤ 32 ∧ queue_inv demo_rain_state
    ∧ ∃ s1, process_dynamic_events demo_rain_config 1200 demo_rain_state = some s1
        ∧ tracked s1 0 = none ∧ s1.station_bits.getD 0 false = false
        ∧ tracked s1 1 = some { demo_run 1 20 with st := 1016, pid := 254 } :=
  ⟨by decide, by unfold queue_inv; decide,
    (C19_process_dynamic_events demo_rain_config 1200 demo_rain_state (by decide)
      (by unfold queue_inv; decide)).elim
      (fun s1 h =>
        ⟨s1, h.1,
          (h.2.2.1 0 ⟨by decide, by decide, by decide, { demo_run 0 10 with st := 1001 },
            by decide, by decide, Or.inr ⟨by decide, by decide⟩⟩).1,
          (h.2.2.1 0 ⟨by decide, by decide, by decide, { demo_run 0 10 with st := 1001 },
            by decide, by decide, Or.inr ⟨by decide, by decide⟩⟩).2,
          h.2.2.2.2 1 _ (by decide) (by decide)⟩)⟩

/-- The state that `process_dynamic_events` returns in the example of the witness of
C19: the run of station 0 is removed, the test run of station 1 and the run of station 2,
whose ignore-rain bit is set, remain. -/
theorem process_dynamic_events_demo :
    (process_dynamic_events demo_rain_config 1200 demo_rain_state).map
        (fun x => (x.queue.map (fun q => q.sid), x.station_qid, x.station_bits))
      = some ([2, 1], [255, 1, 0, 255, 255, 255, 255, 255],
          [false, true, true, false, false, false, false, false]) := by
  decide

/-! ## Rain sensor: claim C23 -/

/-- Counterexample to C23 as stated: rain was sensed at 1000 and the sensor goes off at
1010, so `now - sensorOnTime = 10 >= 10`, yet no log record is written and no event is
emitted. -/
theorem C23_counterexample :
    (do_loop_rainsensor { demo_config with sensor_type := SensorType.rain } false 1010
        { demo_state with rain_sensed := true, old_rain_sensed := true,
                          sensor_lasttime := 1000 }).events = []
    ∧ (1010 : Nat) - 1000 ≥ 10 := by
  decide

/-- C23 (amended): on a rain-sensor off-edge detected in a tick at time `now` (rain-type
sensor, remembered status on, sensor reading off), the rain-sensor log record and the
sensor-off event are produced if and only if more than 10 seconds have elapsed since
sensing began (`now > sensorOnTime + 10`, the sum taken in the 32-bit `ulong` type); in
either case the remembered sensor status is updated to the new value. -/
theorem C23_rainsensor_off_edge (c : Config) (now : Nat) (s : State)
    (hrain : c.sensor_type = SensorType.rain) (hold : s.old_rain_sensed = true) :
    (now > (s.sensor_lasttime + 10) % ULONG_MOD →
      (do_loop_rainsensor c false now s).events
        = s.events ++ [Event.write_log LogKind.rainsense now,
            Event.rainsensor_off
              (if now > s.sensor_lasttime then now - s.sensor_lasttime else 0)])
    ∧ (¬ now > (s.sensor_lasttime + 10) % ULONG_MOD →
        (do_loop_rainsensor c false now s).events = s.events)
    ∧ (do_loop_rainsensor c false now s).old_rain_sensed = false
    ∧ (do_loop_rainsensor c false now s).rain_sensed = false
    ∧ ((do_loop_rainsensor c false now s).events ≠ s.events ↔
        now > (s.sensor_lasttime + 10) % ULONG_MOD) := by
  have key : do_loop_rainsensor c false now s
      = if now > (s.sensor_lasttime + 10) % ULONG_MOD then
          { s with
            rain_sensed := false
            old_rain_sensed := false
            events := s.events ++ [Event.write_log LogKind.rainsense now,
              Event.rainsensor_off
                (if now > s.sensor_lasttime then now - s.sensor_lasttime else 0)] }
        else { s with rain_sensed := false, old_rain_sensed := false } := by
    unfold do_loop_rainsensor rainsensor_status
    simp only [hrain, if_true, hold]
    by_cases h : now > (s.sensor_lasttime + 10) % ULONG_MOD
    · simp [h, emit]
    · simp [h]
  rw [key]
  by_cases h : now > (s.sensor_lasttime + 10) % ULONG_MOD
  · simp [h]
  · simp [h]

/-- Witness of C23 (amended): rain sensed at 1000, sensor off at 1011. -/
theorem C23_rainsensor_off_edge_witness :
    (do_loop_rainsensor { demo_config with sensor_type := SensorType.rain } false 1011
        { demo_state with rain_sensed := true, old_rain_sensed := true,
                          sensor_lasttime := 1000 }).events
      = [Event.write_log LogKind.rainsense 1011, Event.rainsensor_off 11] :=
  ((C23_rainsensor_off_edge { demo_config with sensor_type := SensorType.rain } 1011
    { demo_state with rain_sensed := true, old_rain_sensed := true, sensor_lasttime := 1000 }
    rfl rfl).1 (by decide))

/-! ## `manual_start_program`: claim C22 -/

/-- C22, the code at the failing input: `manual_start_program(1, 0)` on the eight-station
controller whose stored program 0 waters station 2 for 300 s. When the uninitialised
local `prog` holds no duration, nothing is enqueued; when it holds 45 s for station 5,
station 5 is run for 45 s. In neither case is the run of the stored program enqueued. -/
theorem C22_manual_start_program_uninitialised :
    (demo_prog 300 false).durations.getD 2 0 = 300
    ∧ (manual_start_program demo_config id
          { durations := [], use_weather := false, check_match := fun _ => false }
          1 false 1200 demo_state).queue = []
    ∧ (manual_start_program demo_config id
          { durations := [0, 0, 0, 0, 0, 45], use_weather := false,
            check_match := fun _ => false }
          1 false 1200 demo_state).queue.map (fun q => (q.sid, q.pid, q.st, q.dur))
        = [(5, 254, 1201, 45)] := by
  decide

/-! ## Flow rate divisor: claim C27 -/

/-- C27, the code at the failing input: from the warm-up baseline (`flow_start = 0`) a
pulse at 1000 ms and a pulse at 91000 ms, both accepted, leave `flow_gallons = 2` with
`flow_stop = flow_begin = 91000`: the integer quotient
`(flow_stop - flow_begin) / (flow_gallons - 1)` is 0, and `turn_off_station` on a tracked
station divides by it (the rate is not finite). -/
theorem C27_zero_divisor :
    (flow_pulses { demo_config with sensor_type := SensorType.flow } [1000, 91000]
        demo_state).flow_gallons = 2
    ∧ (flow_pulses { demo_config with sensor_type := SensorType.flow } [1000, 91000]
        demo_state).flow_stop = 91000
    ∧ (flow_pulses { demo_config with sensor_type := SensorType.flow } [1000, 91000]
        demo_state).flow_begin = 91000
    ∧ toUlong (((91000 : Nat) : Int) - (91000 : Nat)) / (2 - 1) = 0
    ∧ all_accepted { demo_config with sensor_type := SensorType.flow } [1000, 91000] demo_state
    ∧ (turn_off_station 1 1200
        (flow_pulses { demo_config with sensor_type := SensorType.flow } [1000, 91000]
          { demo_state with
            queue := [{ demo_run 1 200 with st := 1001 }]
            station_qid := [255, 0, 255, 255, 255, 255, 255, 255] })).flow_last_gpm = none := by
  refine ⟨by decide, by decide, by decide, by decide, ?_, by decide⟩
  exact ⟨⟨rfl, by decide⟩, ⟨rfl, by decide⟩, trivial⟩

/-! ## Placement never in the past: claim C29 -/

theorem toUlong_nat (n : Nat) : toUlong (n : Int) = n % ULONG_MOD := by
  unfold toUlong ULONG_MOD
  omega

/-- Counterexample to C29 as stated: with the station delay -20 and a last sequential
stop time of 1010, the pass at `now = 1000` places a sequential run at 990, before `now`;
and at `now = 1000` with the last sequential stop time 0 it places two sequential runs of
100 s and 50 s at 1001 and 1081, the second one before the end 1101 of the first. -/
theorem C29_counterexample :
    (schedule_all_stations { demo_config with station_delay := -20 } 1000
        { demo_state with last_seq_stop_time := 1010, queue := [demo_run 0 100] }).queue.map
        (fun q => q.st) = [990]
    ∧ (schedule_all_stations { demo_config with station_delay := -20 } 1000
        { demo_state with queue := [demo_run 0 100, demo_run 1 50] }).queue.map
        (fun q => (q.st, q.dur)) = [(1001, 100), (1081, 50)] := by
  decide

/-- Bounds on the start times that the loop of `schedule_all_stations` assigns when the
station delay is `d >= 0` and the cursors do not overflow. -/
theorem schedule_walk_bounds (c : Config) (t lo d : Nat) (hd : c.station_delay = (d : Int)) :
    ∀ (qs : List RuntimeQueueStruct) (l : SchedLoop),
      lo ≤ l.con_start_time → lo ≤ l.seq_start_time →
      l.con_start_time + (qs.map (fun q => q.dur + d + 1)).sum < ULONG_MOD →
      l.seq_start_time + (qs.map (fun q => q.dur + d + 1)).sum < ULONG_MOD →
      (∀ p ∈ qs.zip (schedule_walk c t l qs).2, unplaced p.1 = true →
          lo ≤ p.2.st ∧ (is_sequential c p.1 = true → l.seq_start_time ≤ p.2.st))
      ∧ List.Chain' (fun a b : RuntimeQueueStruct => a.st + a.dur + d ≤ b.st)
          (((qs.zip (schedule_walk c t l qs).2).filter
            (fun p => unplaced p.1 && is_sequential c p.1)).map (fun p => p.2)) := by
  intro qs
  induction qs with
  | nil =>
    intro l _ _ _ _
    exact ⟨fun p hp => by simp [schedule_walk] at hp, by simp [schedule_walk]⟩
  | cons q qs ih =>
    intro l h1 h2 h3 h4
    rw [schedule_walk_cons, List.zip_cons_cons]
    simp only [List.map_cons, List.sum_cons] at h3 h4
    have hM : ULONG_MOD = 4294967296 := rfl
    by_cases hu : unplaced q = true
    · by_cases hs : is_sequential c q = true
      · obtain ⟨e1, e2, e3⟩ := schedule_iter_seq c t l q hu hs
        have e2b : (schedule_iter c t l q).1.seq_start_time = l.seq_start_time + q.dur + d := by
          rw [e2, toUlong_add_mod, hd]
          have : ((l.seq_start_time : Int) + q.dur + d) = ((l.seq_start_time + q.dur + d : Nat) : Int) := by
            push_cast; ring
          rw [this, toUlong_nat, Nat.mod_eq_of_lt (by omega)]
        obtain ⟨i1, i2⟩ := ih (schedule_iter c t l q).1 (by rw [e3]; exact h1)
          (by rw [e2b]; omega) (by rw [e3]; omega) (by rw [e2b]; omega)
        constructor
        · intro p hp hpu
          rcases List.mem_cons.mp hp with hp | hp
          · subst hp
            simp only [e1, schedule]
            exact ⟨h2, fun _ => le_refl _⟩
          · obtain ⟨j1, j2⟩ := i1 p hp hpu
            refine ⟨j1, fun hps => ?_⟩
            have := j2 hps
            rw [e2b] at this
            omega
        · rw [List.filter_cons_of_pos (by simp [hu, hs]), List.map_cons, List.chain'_cons']
          refine ⟨?_, i2⟩
          intro y hy
          have hy1 := List.mem_of_mem_head? hy
          obtain ⟨p, hp, rfl⟩ := List.mem_map.mp hy1
          have hp1 := List.mem_filter.mp hp
          have hp2 : unplaced p.1 = true ∧ is_sequential c p.1 = true := by
            simpa using hp1.2
          have := (i1 p hp1.1 hp2.1).2 hp2.2
          rw [e2b] at this
          simp only [e1, schedule]
          omega
      · have hs1 : is_sequential c q = false := by simpa using hs
        obtain ⟨e1, e2, e3⟩ := schedule_iter_con c t l q hu hs1
        have e2b : (schedule_iter c t l q).1.con_start_time = l.con_start_time + 1 := by
          rw [e2, Nat.mod_eq_of_lt (by omega)]
        obtain ⟨i1, i2⟩ := ih (schedule_iter c t l q).1 (by rw [e2b]; omega)
          (by rw [e3]; exact h2) (by rw [e2b]; omega) (by rw [e3]; omega)
        constructor
        · intro p hp hpu
          rcases List.mem_cons.mp hp with hp | hp
          · subst hp
            simp only [e1, schedule]
            exact ⟨h1, fun h => absurd h hs⟩
          · have := i1 p hp hpu
            rw [e3] at this
            exact this
        · rw [List.filter_cons_of_neg (by simp [hs1])]
          exact i2
    · have hu1 : unplaced q = false := by simpa using hu
      rw [schedule_iter_skip c t l q hu1]
      obtain ⟨i1, i2⟩ := ih l h1 h2 (by omega) (by omega)
      constructor
      · intro p hp hpu
        rcases List.mem_cons.mp hp with hp | hp
        · subst hp
          exact absurd hpu hu
        · exact i1 p hp hpu
      · rw [List.filter_cons_of_neg (by simp [hu1])]
        exact i2

/-- C29 (amended): when the station delay is not negative and the cursors do not overflow
the 32-bit `ulong` type (the later of `now + 1` and `lastSequentialStop + delay`, plus
`dur + delay + 1` for every run of the queue, stays below `2^32`), every start time that
`schedule_all_stations(now)` assigns is at least `now + 1`: it is never the unscheduled
sentinel 0 and never a time in the past, and consecutive sequentially placed runs satisfy
`start_(k+1) >= start_k + dur_k + delay`, hence `start_(k+1) >= start_k + dur_k`. -/
theorem C29_starts_not_in_past (c : Config) (now d : Nat) (s : State)
    (hd : c.station_delay = (d : Int))
    (hbound : max (now + 1) (s.last_seq_stop_time + d)
        + (s.queue.map (fun q => q.dur + d + 1)).sum < ULONG_MOD) :
    (∀ p ∈ s.queue.zip (schedule_all_stations c now s).queue, unplaced p.1 = true →
        now + 1 ≤ p.2.st ∧ p.2.st ≠ 0 ∧ now < p.2.st)
    ∧ List.Chain' (fun a b : RuntimeQueueStruct => a.st + a.dur + d ≤ b.st ∧ a.st + a.dur ≤ b.st)
        (((s.queue.zip (schedule_all_stations c now s).queue).filter
          (fun p => unplaced p.1 && is_sequential c p.1)).map (fun p => p.2)) := by
  have hM : ULONG_MOD = 4294967296 := rfl
  have hcon : (now + 1) % ULONG_MOD = now + 1 := Nat.mod_eq_of_lt (by omega)
  have hseq : now + 1 ≤ seq_start_init c now s
      ∧ seq_start_init c now s ≤ max (now + 1) (s.last_seq_stop_time + d) := by
    unfold seq_start_init
    by_cases h : s.last_seq_stop_time > now
    · rw [if_pos h, hd]
      have : ((s.last_seq_stop_time : Int) + d) = ((s.last_seq_stop_time + d : Nat) : Int) := by
        push_cast; ring
      rw [this, toUlong_nat, Nat.mod_eq_of_lt (by omega)]
      omega
    · rw [if_neg h, hcon]
      omega
  obtain ⟨i1, i2⟩ := schedule_walk_bounds c now (now + 1) d hd s.queue
    ⟨(now + 1) % ULONG_MOD, seq_start_init c now s, s⟩
    (by rw [hcon]) hseq.1 (by rw [hcon]; dsimp only; omega) (by dsimp only; omega)
  rw [schedule_all_stations_queue]
  constructor
  · intro p hp hu
    have := (i1 p hp hu).1
    omega
  · exact List.Chain'.imp (fun a b h => ⟨h, by omega⟩) i2

/-- Witness of C29 (amended): the two sequential runs of scenario C. -/
theorem C29_starts_not_in_past_witness :
    List.Chain' (fun a b : RuntimeQueueStruct => a.st + a.dur + 5 ≤ b.st ∧ a.st + a.dur ≤ b.st)
      ((((({ demo_state with queue := [demo_run 0 100, demo_run 1 50] } : State).queue).zip
          (schedule_all_stations demo_config 1000
            { demo_state with queue := [demo_run 0 100, demo_run 1 50] }).queue).filter
        (fun p => unplaced p.1 && is_sequential demo_config p.1)).map (fun p => p.2)) :=
  (C29_starts_not_in_past demo_config 1000 5
    { demo_state with queue := [demo_run 0 100, demo_run 1 50] } rfl (by decide)).2

/-! ## Several runs of one station: claim C28 -/

/-- Counterexample to C28 as stated: two stored programs that both match at 1200 and both
water station 2 leave two runs of station 2 in the queue after one scheduler pass; and a
pass in a later minute adds a run of station 2 to a queue that already holds one. -/
theorem C28_counterexample :
    (do_loop_schedule demo_config id [demo_prog 30 false, demo_prog 40 false] 1200
        demo_state).queue.map (fun q => (q.sid, q.pid, q.dur)) = [(2, 1, 30), (2, 2, 40)]
    ∧ (do_loop_schedule demo_config id [demo_prog 30 false] 1260
        { demo_state with
          queue := [{ demo_run 2 100 with st := 1201 }]
          station_qid := [255, 255, 0, 255, 255, 255, 255, 255]
          program_busy := true
          last_minute := 20 }).queue.map (fun q => (q.sid, q.pid, q.dur))
        = [(2, 1, 100), (2, 1, 30)] := by
  decide

theorem enqueue_sids (c : Config) (q : RuntimeQueueStruct) (s : State) :
    (enqueue c q s).queue.map (fun r => r.sid) = s.queue.map (fun r => r.sid)
    ∨ (enqueue c q s).queue.map (fun r => r.sid) = s.queue.map (fun r => r.sid) ++ [q.sid] := by
  unfold enqueue
  split
  · exact Or.inl rfl
  · split <;> exact Or.inr (by simp)

/-- One iteration of the station loop of the scheduler pass adds at most one run, and
only a run of the station of the iteration. -/
theorem sched_station_count (c : Config) (wtr : Nat → Nat) (now : Nat) (prog : ProgramStruct)
    (pid : Nat) (acc : State × Bool) (sid k : Nat) :
    ((sched_station c wtr now prog pid acc sid).1.queue.map (fun r => r.sid)).count k
      ≤ (acc.1.queue.map (fun r => r.sid)).count k + (if sid = k then 1 else 0) := by
  obtain ⟨s, mf⟩ := acc
  rw [sched_station_eq]
  split
  · rcases enqueue_sids c (new_run c wtr now prog pid sid) s with h | h
    · simp only [h]
      omega
    · have hsid : (new_run c wtr now prog pid sid).sid = sid := rfl
      rw [h, hsid, List.count_append, List.count_singleton]
      by_cases he : sid = k
      · simp [he]
      · have hb : (sid == k) = false := by simpa using he
        simp [he, hb]
  · simp

theorem sched_stations_count (c : Config) (wtr : Nat → Nat) (now : Nat) (prog : ProgramStruct)
    (pid k : Nat) :
    ∀ (sids : List Nat) (acc : State × Bool),
      ((sids.foldl (sched_station c wtr now prog pid) acc).1.queue.map (fun r => r.sid)).count k
        ≤ (acc.1.queue.map (fun r => r.sid)).count k + sids.count k := by
  intro sids
  induction sids with
  | nil => intro acc; simp
  | cons sid rest ih =>
    intro acc
    rw [List.foldl_cons]
    have h1 := ih (sched_station c wtr now prog pid acc sid)
    have h2 := sched_station_count c wtr now prog pid acc sid k
    rw [List.count_cons]
    by_cases he : sid = k
    · simp only [he, if_true, beq_self_eq_true] at h2 ⊢
      rw [he] at h1
      omega
    · have hb : (sid == k) = false := by simpa using he
      simp only [he, if_false, hb] at h2 ⊢
      omega

theorem sched_program_count (c : Config) (wtr : Nat → Nat) (now : Nat) (acc : State × Bool)
    (pid : Nat) (prog : ProgramStruct) (k : Nat) :
    ((sched_program c wtr now acc pid prog).1.queue.map (fun r => r.sid)).count k
      ≤ (acc.1.queue.map (fun r => r.sid)).count k
        + (if prog.check_match now then 1 else 0) := by
  unfold sched_program
  by_cases h : prog.check_match now = true
  · rw [if_pos h, if_pos h]
    have h1 := sched_stations_count c wtr now prog pid k (List.range c.nstations) acc
    have h2 : (List.range c.nstations).count k ≤ 1 :=
      List.nodup_iff_count_le_one.mp (List.nodup_range _) k
    omega
  · rw [if_neg h, if_neg h]
    omega

theorem sched_programs_count (c : Config) (wtr : Nat → Nat) (now k : Nat) :
    ∀ (progs : List ProgramStruct) (pid : Nat) (acc : State × Bool),
      ((sched_programs c wtr now pid progs acc).1.queue.map (fun r => r.sid)).count k
        ≤ (acc.1.queue.map (fun r => r.sid)).count k
          + (progs.filter (fun p => p.check_match now)).length := by
  intro progs
  induction progs with
  | nil => intro pid acc; simp [sched_programs]
  | cons prog rest ih =>
    intro pid acc
    have h1 := ih (pid + 1) (sched_program c wtr now acc pid prog)
    have h2 := sched_program_count c wtr now acc pid prog k
    show ((sched_programs c wtr now (pid + 1) rest
      (sched_program c wtr now acc pid prog)).1.queue.map (fun r => r.sid)).count k ≤ _
    by_cases h : prog.check_match now = true
    · rw [if_pos h] at h2
      rw [List.filter_cons_of_pos (by simpa using h), List.length_cons]
      omega
    · rw [if_neg h] at h2
      rw [List.filter_cons_of_neg (by simpa using h)]
      omega

/-- C28 (amended): the scheduler pass does not look for a run that a station already has
in the queue, so the queue may hold several runs of one station. Each stored program that
matches in the pass enqueues at most one run per station: the number of runs of a station
in the queue grows in one pass by at most the number of matching programs, and a pass in
which no program matches adds no run. -/
theorem C28_runs_per_station (c : Config) (wtr : Nat → Nat) (progs : List ProgramStruct)
    (now : Nat) (s : State) (sid : Nat) :
    ((do_loop_schedule c wtr progs now s).queue.map (fun r => r.sid)).count sid
      ≤ (s.queue.map (fun r => r.sid)).count sid
        + (progs.filter (fun p => p.check_match now)).length := by
  unfold do_loop_schedule
  dsimp only
  by_cases hm : now / 60 ≠ s.last_minute
  · rw [if_pos hm]
    have h1 := sched_programs_count c wtr now sid progs 0 ({ s with last_minute := now / 60 }, false)
    split
    · rw [schedule_all_stations_queue, schedule_walk_sids]
      exact h1
    · exact h1
  · rw [if_neg hm]
    omega

/-! ## Frame lemmas for the passes of `do_loop` -/

theorem same_status_refl (s : State) : same_status s s :=
  ⟨rfl, rfl, rfl, rfl, rfl, rfl, rfl⟩

theorem same_status_trans (s s1 s2 : State) (h1 : same_status s s1) (h2 : same_status s1 s2) :
    same_status s s2 := by
  obtain ⟨a1, a2, a3, a4, a5, a6, a7⟩ := h1
  obtain ⟨b1, b2, b3, b4, b5, b6, b7⟩ := h2
  exact ⟨b1.trans a1, b2.trans a2, b3.trans a3, b4.trans a4, b5.trans a5, b6.trans a6,
    b7.trans a7⟩

theorem same_status_dequeue (qid : Nat) (s : State) : same_status s (dequeue qid s) := by
  unfold dequeue
  split <;> exact same_status_refl _

theorem same_status_turn_off_record (sid t qid : Nat) (q : RuntimeQueueStruct) (s : State) :
    same_status s (turn_off_record sid t qid q s) := by
  unfold turn_off_record
  dsimp only
  split_ifs <;> exact same_status_refl _

theorem same_status_turn_off_station (sid t : Nat) (s : State) :
    same_status s (turn_off_station sid t s) := by
  cases hq : s.queue[s.station_qid.getD sid 255]? with
  | none =>
    rw [turn_off_station_untracked sid t s hq]
    exact same_status_refl _
  | some q =>
    rw [turn_off_station_tracked sid t s q hq]
    refine same_status_trans _ _ _ ?_ (same_status_dequeue _ _)
    refine same_status_trans _ _ _ ?_ (same_status_turn_off_record _ _ _ _ _)
    exact same_status_refl _

/-- A loop over stations whose body keeps a property `P` and returns under `P` returns
and keeps `P`. -/
theorem station_walk_inv (P : State → Prop) (body : Nat → Nat → State → Option State) :
    ∀ (l : List (Nat × Nat)),
      (∀ p ∈ l, ∀ x, P x → ∃ x1, body p.1 p.2 x = some x1 ∧ P x1) →
      ∀ x, P x → ∃ x1, station_walk body l x = some x1 ∧ P x1 := by
  intro l
  induction l with
  | nil =>
    intro _ x hx
    exact ⟨x, rfl, hx⟩
  | cons p rest ih =>
    intro hb x hx
    obtain ⟨x1, e1, p1⟩ := hb p (List.mem_cons_self _ _) x hx
    obtain ⟨x2, e2, p2⟩ := ih (fun p0 hp0 => hb p0 (List.mem_cons_of_mem _ hp0)) x1 p1
    refine ⟨x2, ?_, p2⟩
    show (body p.1 p.2 x).bind _ = some x2
    rw [e1]
    exact e2

theorem pde_walk_eq (c : Config) (t : Nat) (rain en : Bool) :
    ∀ (l : List (Nat × Nat)) (x : State),
      pde_walk c t rain en l x = station_walk (pde_station c t rain en) l x := by
  intro l
  induction l with
  | nil => intro x; rfl
  | cons p rest ih =>
    intro x
    show (pde_station c t rain en p.1 p.2 x).bind (pde_walk c t rain en rest)
      = (pde_station c t rain en p.1 p.2 x).bind (station_walk (pde_station c t rain en) rest)
    congr 1
    funext y
    exact ih y

/-- The body of the stop pass returns in a state that satisfies the queue invariant and
keeps the invariant and the status flags. -/
theorem stop_station_inv (t bid s_ : Nat) (s0 x : State)
    (h : queue_inv x ∧ same_status s0 x) :
    ∃ x1, stop_station t bid s_ x = some x1 ∧ queue_inv x1 ∧ same_status s0 x1 := by
  unfold stop_station
  dsimp only
  split_ifs with h1 h2 h3
  · exact ⟨x, rfl, h⟩
  · exact ⟨x, rfl, h⟩
  · exact ⟨x, rfl, h⟩
  · obtain ⟨q, hq, _⟩ := queue_inv_lookup x h.1 _ h3
    rw [hq]
    dsimp only
    split_ifs
    · exact ⟨_, rfl, queue_inv_turn_off_station _ _ _ h.1,
        same_status_trans _ _ _ h.2 (same_status_turn_off_station _ _ _)⟩
    · exact ⟨x, rfl, h⟩
    · exact ⟨x, rfl, h⟩

theorem stop_pass_inv (c : Config) (t : Nat) (s : State) (h : queue_inv s) :
    ∃ s1, stop_pass c t s = some s1 ∧ queue_inv s1 ∧ same_status s s1 :=
  station_walk_inv (fun x => queue_inv x ∧ same_status s x) (stop_station t) _
    (fun p _ x hx => stop_station_inv t p.1 p.2 s x hx) s ⟨h, same_status_refl s⟩

/-- The body of the dynamic events returns in a state that satisfies the queue invariant
and keeps the invariant and the status flags. -/
theorem pde_station_inv (c : Config) (t : Nat) (rain en : Bool) (bid s_ : Nat) (s0 x : State)
    (h : queue_inv x ∧ same_status s0 x) :
    ∃ x1, pde_station c t rain en bid s_ x = some x1 ∧ queue_inv x1 ∧ same_status s0 x1 := by
  unfold pde_station
  dsimp only
  split_ifs with h1 h2 h3
  · exact ⟨x, rfl, h⟩
  · exact ⟨x, rfl, h⟩
  · exact ⟨x, rfl, h⟩
  · obtain ⟨q, hq, _⟩ := queue_inv_lookup x h.1 _ h3
    rw [hq]
    dsimp only
    split_ifs
    · exact ⟨_, rfl, queue_inv_turn_off_station _ _ _ h.1,
        same_status_trans _ _ _ h.2 (same_status_turn_off_station _ _ _)⟩
    · exact ⟨x, rfl, h⟩

theorem process_dynamic_events_inv (c : Config) (t : Nat) (s : State) (h : queue_inv s) :
    ∃ s1, process_dynamic_events c t s = some s1 ∧ queue_inv s1 ∧ same_status s s1 := by
  unfold process_dynamic_events
  dsimp only
  rw [pde_walk_eq]
  exact station_walk_inv (fun x => queue_inv x ∧ same_status s x) _ _
    (fun p _ x hx => pde_station_inv c t _ _ p.1 p.2 s x hx) s ⟨h, same_status_refl s⟩

/-- The clean-up loop returns and keeps every property that `dequeue` keeps. -/
theorem gc_loop_inv (P : State → Prop) (hP : ∀ qid x, P x → P (dequeue qid x)) (now : Nat) :
    ∀ (n : Nat) (s : State), n ≤ s.queue.length → P s →
      ∃ s1, gc_loop now n s = some s1 ∧ P s1 := by
  intro n
  induction n with
  | zero =>
    intro s _ hs
    exact ⟨s, rfl, hs⟩
  | succ n ih =>
    intro s hn hs
    obtain ⟨q, hq⟩ : ∃ q, s.queue[n]? = some q := ⟨_, List.getElem?_eq_getElem (by omega)⟩
    unfold gc_loop
    rw [hq]
    dsimp only
    split_ifs
    · refine ih (dequeue n s) ?_ (hP n s hs)
      rw [dequeue_queue n s q hq]
      simp
      omega
    · exact ih s (by omega) hs

theorem do_loop_gc_inv (now : Nat) (s : State) (h : queue_inv s) :
    ∃ s1, do_loop_gc now s = some s1 ∧ queue_inv s1 ∧ same_status s s1 :=
  gc_loop_inv (fun x => queue_inv x ∧ same_status s x)
    (fun qid x hx => ⟨queue_inv_dequeue qid x hx.1,
      same_status_trans _ _ _ hx.2 (same_status_dequeue qid x)⟩)
    now s.queue.length s (le_refl _) ⟨h, same_status_refl s⟩

/-! ## The start pass: claim C25 -/

theorem start_post_congr (now : Nat) (s0 : State) (D1 D2 : Nat → Prop) (x : State)
    (h : ∀ sid, D1 sid ↔ D2 sid) (hp : start_post now s0 D1 x) : start_post now s0 D2 x := by
  have e : D1 = D2 := funext (fun sid => propext (h sid))
  rw [← e]
  exact hp

theorem pgm_running_modify (s : State) (k j : Nat) (pg : List ProgramRunStats)
    (hpg : pg = s.pgms.modify (fun p => { p with running := true }) k) :
    ((s.pgms.getD j ⟨false, 0, 0⟩).running = true →
      (pg.getD j ⟨false, 0, 0⟩).running = true)
    ∧ (k < s.pgms.length → (pg.getD k ⟨false, 0, 0⟩).running = true)
    ∧ pg.length = s.pgms.length := by
  subst hpg
  refine ⟨?_, ?_, by simp⟩
  · intro h
    rw [List.getD_eq_getElem?_getD, List.getElem?_modify]
    rw [List.getD_eq_getElem?_getD] at h
    cases hg : s.pgms[j]? with
    | none => rw [hg] at h; simp at h
    | some p =>
      rw [hg] at h
      by_cases e : k = j
      · simp [e]
      · simpa [e] using h
  · intro hk
    rw [List.getD_eq_getElem?_getD, List.getElem?_modify, List.getElem?_eq_getElem hk]
    simp

theorem set_same (l : List RuntimeQueueStruct) (i : Nat) (q : RuntimeQueueStruct)
    (h : l[i]? = some q) : l.set i q = l := by
  apply List.ext_getElem?
  intro j
  rw [List.getElem?_set]
  by_cases hij : i = j
  · subst hij
    have hlt : i < l.length := by
      by_contra hc
      rw [List.getElem?_eq_none (by omega)] at h
      simp at h
    rw [if_pos rfl, if_pos hlt, h]
  · rw [if_neg hij]

/-- Shape of the state after the activation of a run by the start pass. -/
theorem start_run_shape (sid qid : Nat) (q : RuntimeQueueStruct) (x : State)
    (hq : x.queue[qid]? = some q) :
    ∃ pg ev,
      start_run sid qid q x
        = { x with
            station_bits := x.station_bits.set sid true
            queue := x.queue.set qid { q with running := true }
            pgms := pg
            events := ev
            flow_start := 0 }
      ∧ (∀ j, pgm_running x j = true → (pg.getD j ⟨false, 0, 0⟩).running = true)
      ∧ (q.pgm < x.pgms.length → (pg.getD q.pgm ⟨false, 0, 0⟩).running = true)
      ∧ pg.length = x.pgms.length := by
  have hmod := pgm_running_modify x q.pgm
  unfold start_run set_station_bit emit
  by_cases hr : (x.pgms.getD q.pgm ⟨false, 0, 0⟩).running = true
  · by_cases hqr : q.running = true
    · refine ⟨x.pgms, x.events, ?_, fun j h => h, fun _ => hr, rfl⟩
      have hqq : ({ q with running := true } : RuntimeQueueStruct) = q := by
        cases q
        simp_all
      simp only [hr, hqr, if_true]
      rw [hqq, set_same x.queue qid q hq]
    · refine ⟨x.pgms, x.events ++ [Event.station_open q.sid], ?_, fun j h => h, fun _ => hr, rfl⟩
      simp only [hr, hqr, if_true]
      rfl
  · by_cases hqr : q.running = true
    · refine ⟨x.pgms.modify (fun p => { p with running := true }) q.pgm,
        x.events ++ [Event.program_start q.pgm], ?_, fun j h => (hmod j _ rfl).1 h,
        (hmod 0 _ rfl).2.1, (hmod 0 _ rfl).2.2⟩
      have hqq : ({ q with running := true } : RuntimeQueueStruct) = q := by
        cases q
        simp_all
      simp only [hr, hqr, if_true]
      rw [hqq, set_same x.queue qid q hq]
      rfl
    · refine ⟨x.pgms.modify (fun p => { p with running := true }) q.pgm,
        x.events ++ [Event.program_start q.pgm] ++ [Event.station_open q.sid], ?_,
        fun j h => (hmod j _ rfl).1 h, (hmod 0 _ rfl).2.1, (hmod 0 _ rfl).2.2⟩
      simp only [hr, hqr, if_true]
      rfl

/-- Setting a run in the slot that the station index holds for station `sid` leaves the
run tracked for every other station as it is. -/
theorem tracked_set_other (x x1 : State) (sid sid1 : Nat) (q q1 : RuntimeQueueStruct)
    (hinv : queue_inv x) (hq : x.queue[x.station_qid.getD sid 255]? = some q)
    (hqs : q.sid = sid) (hi : x1.station_qid = x.station_qid)
    (hqu : x1.queue = x.queue.set (x.station_qid.getD sid 255) q1) (hne : sid1 ≠ sid) :
    tracked x1 sid1 = tracked x sid1 := by
  unfold tracked
  rw [hi, hqu]
  by_cases hv : x.station_qid.getD sid1 255 = 255
  · rw [if_pos hv, if_pos hv]
  · rw [if_neg hv, if_neg hv]
    obtain ⟨q0, hq0, hq0s⟩ := queue_inv_lookup x hinv sid1 hv
    have hneq : x.station_qid.getD sid 255 ≠ x.station_qid.getD sid1 255 := by
      intro hc
      rw [hc, hq0] at hq
      rw [← Option.some.inj hq, hq0s] at hqs
      exact hne hqs
    rw [List.getElem?_set_ne hneq]

/-- One iteration of the start pass on a station that was not visited before keeps the
loop invariant and adds the station to the visited ones. -/
theorem start_station_post (now : Nat) (s0 : State) (D : Nat → Prop) (bv : List Bool)
    (bid s_ : Nat) (hb : bid < 32) (hs : s_ < 8) (hD : ¬ D (bid * 8 + s_))
    (hbv : bv.getD s_ false = s0.station_bits.getD (bid * 8 + s_) false)
    (hlen : bid * 8 + s_ < s0.station_bits.length)
    (x : State) (hp : start_post now s0 D x) :
    ∃ x1, start_station now bv bid s_ x = some x1
      ∧ start_post now s0 (fun sid => D sid ∨ sid = bid * 8 + s_) x1 := by
  obtain ⟨hinv, hst, hqid, hbl, hpl, hql, hpg, hall⟩ := hp
  have hvis := (hall (bid * 8 + s_)).2 (fun h => hD h.1)
  have keep : ¬ start_condition now s0 (bid * 8 + s_) →
      start_post now s0 (fun sid => D sid ∨ sid = bid * 8 + s_) x := by
    intro hk
    refine ⟨hinv, hst, hqid, hbl, hpl, hql, hpg, ?_⟩
    intro sid
    have hiff : ((D sid ∨ sid = bid * 8 + s_) ∧ start_condition now s0 sid)
        ↔ (D sid ∧ start_condition now s0 sid) := by
      constructor
      · rintro ⟨h1 | h1, h2⟩
        · exact ⟨h1, h2⟩
        · subst h1
          exact absurd h2 hk
      · rintro ⟨h1, h2⟩
        exact ⟨Or.inl h1, h2⟩
    rw [hiff]
    exact hall sid
  have hmod : (bid * 8 + s_) % 256 = bid * 8 + s_ := Nat.mod_eq_of_lt (by omega)
  unfold start_station
  dsimp only
  rw [hmod]
  by_cases h1 : x.mas = bid * 8 + s_ + 1
  · rw [if_pos h1]
    exact ⟨x, rfl, keep (fun hc => hc.1 (hst.2.2.2.2.1 ▸ h1))⟩
  rw [if_neg h1]
  by_cases h2 : x.mas2 = bid * 8 + s_ + 1
  · rw [if_pos h2]
    exact ⟨x, rfl, keep (fun hc => hc.2.1 (hst.2.2.2.2.2.1 ▸ h2))⟩
  rw [if_neg h2]
  by_cases h3 : x.station_qid.getD (bid * 8 + s_) 255 = 255
  · rw [if_pos h3]
    refine ⟨x, rfl, keep ?_⟩
    intro hc
    obtain ⟨q, hq, _⟩ := hc.2.2.2
    rw [← hvis.2] at hq
    unfold tracked at hq
    rw [if_pos h3] at hq
    simp at hq
  rw [if_neg h3]
  by_cases h4 : bv.getD s_ false = true
  · rw [if_pos h4]
    refine ⟨x, rfl, keep ?_⟩
    intro hc
    rw [hbv, hc.2.2.1] at h4
    simp at h4
  rw [if_neg h4]
  obtain ⟨q, hq, hqs⟩ := queue_inv_lookup x hinv _ h3
  rw [hq]
  dsimp only
  have htx : tracked x (bid * 8 + s_) = some q := by
    unfold tracked
    rw [if_neg h3]
    exact hq
  have ht0 : tracked s0 (bid * 8 + s_) = some q := by
    rw [← hvis.2]
    exact htx
  by_cases hw : q.st ≤ now ∧ now < (q.st + q.dur) % ULONG_MOD
  · rw [if_pos hw]
    refine ⟨_, rfl, ?_⟩
    obtain ⟨pg, ev, hX, g1, g2, g3⟩ := start_run_shape (bid * 8 + s_)
      (x.station_qid.getD (bid * 8 + s_) 255) q x hq
    generalize start_run (bid * 8 + s_) (x.station_qid.getD (bid * 8 + s_) 255) q x = X at hX
    have f1 : X.station_qid = x.station_qid := by rw [hX]
    have f2 : X.station_bits = x.station_bits.set (bid * 8 + s_) true := by rw [hX]
    have f3 : X.queue
        = x.queue.set (x.station_qid.getD (bid * 8 + s_) 255) { q with running := true } := by
      rw [hX]
    have f4 : X.pgms = pg := by rw [hX]
    have f5 : same_status x X := by
      rw [hX]
      exact same_status_refl x
    have hqlt : x.station_qid.getD (bid * 8 + s_) 255 < x.queue.length := by
      by_contra hc
      rw [List.getElem?_eq_none (by omega)] at hq
      simp at hq
    have hcond : start_condition now s0 (bid * 8 + s_) := by
      refine ⟨?_, ?_, ?_, q, ht0, ?_⟩
      · rw [← hst.2.2.2.2.1]; exact h1
      · rw [← hst.2.2.2.2.2.1]; exact h2
      · rw [← hbv]; simpa using h4
      · unfold in_window
        simp [hw.1, hw.2]
    have hmono : ∀ k, pgm_running x k = true → pgm_running X k = true := by
      intro k hk
      unfold pgm_running
      rw [f4]
      exact g1 k hk
    refine ⟨?_, same_status_trans _ _ _ hst f5, by rw [f1, hqid], ?_, ?_, ?_, ?_, ?_⟩
    · refine queue_inv_congr x X ?_ f1 hinv
      rw [f3]
      exact map_sid_set x.queue _ q _ hq rfl
    · rw [f2, List.length_set, hbl]
    · rw [f4, g3, hpl]
    · rw [f3, List.length_set, hql]
    · intro k hk
      exact hmono k (hpg k hk)
    · intro sid
      by_cases he : sid = bid * 8 + s_
      · subst he
        constructor
        · intro _
          refine ⟨?_, ?_⟩
          · rw [f2, List.getD_eq_getElem?_getD, List.getElem?_set_self (by omega)]
            rfl
          · intro q0 hq0
            rw [ht0] at hq0
            have hq0e : q0 = q := (Option.some.inj hq0).symm
            subst hq0e
            constructor
            · unfold tracked
              rw [f1, if_neg h3, f3, List.getElem?_set_self hqlt]
            · intro hk
              unfold pgm_running
              rw [f4]
              exact g2 (by omega)
        · intro hc
          exact absurd ⟨Or.inr rfl, hcond⟩ hc
      · have hiff : ((D sid ∨ sid = bid * 8 + s_) ∧ start_condition now s0 sid)
            ↔ (D sid ∧ start_condition now s0 sid) := by
          constructor
          · rintro ⟨h5 | h5, h6⟩
            · exact ⟨h5, h6⟩
            · exact absurd h5 he
          · rintro ⟨h5, h6⟩
            exact ⟨Or.inl h5, h6⟩
        have hb1 : X.station_bits.getD sid false = x.station_bits.getD sid false := by
          rw [f2, List.getD_eq_getElem?_getD, List.getD_eq_getElem?_getD,
            List.getElem?_set_ne (Ne.symm he)]
        have ht1 : tracked X sid = tracked x sid :=
          tracked_set_other x X (bid * 8 + s_) sid q _ hinv hq hqs f1 f3 he
        rw [hiff, hb1, ht1]
        constructor
        · intro hc
          obtain ⟨a1, a2⟩ := (hall sid).1 hc
          refine ⟨a1, fun q0 hq0 => ⟨(a2 q0 hq0).1, fun hk => hmono _ ((a2 q0 hq0).2 hk)⟩⟩
        · exact (hall sid).2
  · rw [if_neg hw]
    refine ⟨x, rfl, keep ?_⟩
    intro hc
    obtain ⟨q1, hq1, hq2⟩ := hc.2.2.2
    rw [ht0] at hq1
    rw [← Option.some.inj hq1] at hq2
    unfold in_window at hq2
    simp at hq2
    exact hw hq2

theorem board_bits_getD (bid s_ : Nat) (x : State) (hs : s_ < 8) :
    (board_bits bid x).getD s_ false = x.station_bits.getD (bid * 8 + s_) false := by
  unfold board_bits
  rw [List.getD_eq_getElem?_getD, List.getElem?_map, List.getElem?_range hs]
  rfl

/-- The inner loop of the start pass for board `bid`, from station `j` of the board on. -/
theorem start_board_walk_post (now : Nat) (s0 : State) (bid : Nat) (hb : bid < 32)
    (hlen : bid * 8 + 8 ≤ s0.station_bits.length) (bv : List Bool)
    (hbv : ∀ s_, s_ < 8 → bv.getD s_ false = s0.station_bits.getD (bid * 8 + s_) false) :
    ∀ (n j : Nat), j + n = 8 → ∀ x, start_post now s0 (fun sid => sid < bid * 8 + j) x →
      ∃ x1, station_walk (start_station now bv) ((List.range' j n).map (fun s_ => (bid, s_))) x
          = some x1
        ∧ start_post now s0 (fun sid => sid < bid * 8 + 8) x1 := by
  intro n
  induction n with
  | zero =>
    intro j hj x hx
    have : j = 8 := by omega
    subst this
    exact ⟨x, rfl, hx⟩
  | succ n ih =>
    intro j hj x hx
    obtain ⟨x1, e1, p1⟩ := start_station_post now s0 _ bv bid j hb (by omega)
      (by omega) (hbv j (by omega)) (by omega) x hx
    have p1b : start_post now s0 (fun sid => sid < bid * 8 + (j + 1)) x1 := by
      refine start_post_congr now s0 _ _ x1 ?_ p1
      intro sid
      constructor <;> intro h <;> omega
    obtain ⟨x2, e2, p2⟩ := ih (j + 1) (by omega) x1 p1b
    refine ⟨x2, ?_, p2⟩
    rw [List.range'_succ, List.map_cons]
    show (start_station now bv bid j x).bind _ = some x2
    rw [e1]
    exact e2

theorem start_board_post (now : Nat) (s0 : State) (bid : Nat) (hb : bid < 32)
    (hlen : bid * 8 + 8 ≤ s0.station_bits.length) (x : State)
    (hx : start_post now s0 (fun sid => sid < bid * 8) x) :
    ∃ x1, start_board now bid x = some x1
      ∧ start_post now s0 (fun sid => sid < (bid + 1) * 8) x1 := by
  have hbv : ∀ s_, s_ < 8 →
      (board_bits bid x).getD s_ false = s0.station_bits.getD (bid * 8 + s_) false := by
    intro s_ hs
    rw [board_bits_getD bid s_ x hs]
    exact ((hx.2.2.2.2.2.2.2 (bid * 8 + s_)).2 (fun h => by omega)).1
  obtain ⟨x1, e1, p1⟩ := start_board_walk_post now s0 bid hb hlen (board_bits bid x) hbv 8 0
    rfl x hx
  refine ⟨x1, ?_, start_post_congr now s0 _ _ x1 (fun sid => by constructor <;> intro h <;> omega)
    p1⟩
  unfold start_board
  rw [List.range_eq_range']
  exact e1

theorem start_boards_post (now : Nat) (s0 : State) (nb : Nat) (hnb : nb ≤ 32)
    (hlen : nb * 8 ≤ s0.station_bits.length) :
    ∀ (n b : Nat), b + n = nb → ∀ x, start_post now s0 (fun sid => sid < b * 8) x →
      ∃ x1, start_boards now (List.range' b n) x = some x1
        ∧ start_post now s0 (fun sid => sid < nb * 8) x1 := by
  intro n
  induction n with
  | zero =>
    intro b hbn x hx
    have : b = nb := by omega
    subst this
    exact ⟨x, rfl, hx⟩
  | succ n ih =>
    intro b hbn x hx
    obtain ⟨x1, e1, p1⟩ := start_board_post now s0 b (by omega) (by omega) x hx
    obtain ⟨x2, e2, p2⟩ := ih (b + 1) (by omega) x1 p1
    refine ⟨x2, ?_, p2⟩
    rw [List.range'_succ]
    show (start_board now b x).bind _ = some x2
    rw [e1]
    exact e2

theorem start_post_init (now : Nat) (s : State) (h : queue_inv s) :
    start_post now s (fun sid => sid < 0 * 8) s :=
  ⟨h, same_status_refl s, rfl, rfl, rfl, rfl, fun _ hk => hk,
    fun _ => ⟨fun hc => absurd hc.1 (by omega), fun _ => ⟨rfl, rfl⟩⟩⟩

/-- Counterexample to C25 as stated: a stored program waters station 2 for 100 s and
matches at every minute. The passes of `do_loop` at 1200, 1201 and 1260 start station 2
at 1201 and enqueue it a second time with the start 1261. The start pass at 1261 finds
the bit of station 2 set and leaves the running flags of its tracked run and of the
`ProgramRunStats` of that run clear, although `start <= now < start + duration` holds
for the run. -/
theorem C25_counterexample :
    ((do_loops demo_config id [demo_prog 100 false]
        [demo_tick 1200, demo_tick 1201, demo_tick 1260] demo_state).bind
      (start_pass demo_config 1261)).map
        (fun x => (x.station_bits.getD 2 false,
          (tracked x 2).map
            (fun q => (q.st, q.dur, in_window 1261 q, q.running || pgm_running x q.pgm))))
      = some (true, some (1261, 100, true, false)) := by
  decide

/-- C25 (amended): with at most 32 boards, in a state that satisfies the queue invariant
and holds a bit for every station of the boards, the start pass at time `now` returns,
and afterwards every non-master station of the boards whose tracked run satisfies
`start <= now < start + duration` (a `ulong` sum) has its hardware bit set; when the bit
of such a station was clear before the pass, the running flag of its run and the running
flag of the `ProgramRunStats` of the run are set as well (a station whose bit was already
set is skipped by the pass). A non-master station whose bit was clear and whose tracked
run is outside that window, or that has no tracked run, still has its bit clear. -/
theorem C25_start_pass (c : Config) (now : Nat) (s : State) (hb : c.nboards ≤ 32)
    (hinv : queue_inv s) (hlen : c.nboards * 8 ≤ s.station_bits.length) :
    ∃ s1, start_pass c now s = some s1
      ∧ ∀ sid, sid < c.nboards * 8 → s.mas ≠ sid + 1 → s.mas2 ≠ sid + 1 →
          (∀ q, tracked s sid = some q → in_window now q = true →
            s1.station_bits.getD sid false = true
            ∧ (s.station_bits.getD sid false = false →
                tracked s1 sid = some { q with running := true }
                ∧ (q.pgm < s.pgms.length → pgm_running s1 q.pgm = true)))
          ∧ (s.station_bits.getD sid false = false →
              (tracked s sid = none ∨ ∃ q, tracked s sid = some q ∧ in_window now q = false) →
              s1.station_bits.getD sid false = false) := by
  obtain ⟨s1, e1, p1⟩ := start_boards_post now s c.nboards hb hlen c.nboards 0 (by omega) s
    (start_post_init now s hinv)
  refine ⟨s1, ?_, ?_⟩
  · unfold start_pass
    rw [List.range_eq_range']
    exact e1
  · obtain ⟨_, _, _, _, _, _, _, hall⟩ := p1
    intro sid hsid hm1 hm2
    constructor
    · intro q hq hw
      by_cases hbit : s.station_bits.getD sid false = false
      · have hcond : start_condition now s sid := ⟨hm1, hm2, hbit, q, hq, hw⟩
        obtain ⟨a1, a2⟩ := (hall sid).1 ⟨hsid, hcond⟩
        exact ⟨a1, fun _ => a2 q hq⟩
      · have hnc : ¬ (sid < c.nboards * 8 ∧ start_condition now s sid) :=
          fun hc => hbit hc.2.2.2.1
        refine ⟨?_, fun h => absurd h hbit⟩
        rw [((hall sid).2 hnc).1]
        simpa using hbit
    · intro hbit hout
      have hnc : ¬ (sid < c.nboards * 8 ∧ start_condition now s sid) := by
        rintro ⟨_, _, _, _, q, hq, hw⟩
        rcases hout with h | ⟨q1, hq1, hw1⟩
        · rw [h] at hq
          simp at hq
        · rw [hq] at hq1
          rw [Option.some.inj hq1, hw1] at hw
          simp at hw
      rw [((hall sid).2 hnc).1]
      exact hbit

/-- Witness of C25 (amended): at 1201 the start pass activates station 2, whose run was
placed at 1201. -/
theorem C25_start_pass_witness :
    ∃ s1, start_pass demo_config 1201
        { demo_state with
          queue := [{ demo_run 2 100 with st := 1201 }]
          station_qid := [255, 255, 0, 255, 255, 255, 255, 255]
          pgms := [{ running := false, count := 1, volume := 0 }]
          program_busy := true } = some s1
      ∧ s1.station_bits.getD 2 false = true
      ∧ tracked s1 2 = some { demo_run 2 100 with st := 1201, running := true }
      ∧ pgm_running s1 0 = true :=
  (C25_start_pass demo_config 1201
    { demo_state with
      queue := [{ demo_run 2 100 with st := 1201 }]
      station_qid := [255, 255, 0, 255, 255, 255, 255, 255]
      pgms := [{ running := false, count := 1, volume := 0 }]
      program_busy := true }
    (by decide) (by unfold queue_inv; decide) (by decide)).elim
    (fun s1 h =>
      ⟨s1, h.1,
        ((h.2 2 (by decide) (by decide) (by decide)).1 { demo_run 2 100 with st := 1201 }
          (by decide) (by decide)).1,
        (((h.2 2 (by decide) (by decide) (by decide)).1 { demo_run 2 100 with st := 1201 }
          (by decide) (by decide)).2 (by decide)).1,
        (((h.2 2 (by decide) (by decide) (by decide)).1 { demo_run 2 100 with st := 1201 }
          (by decide) (by decide)).2 (by decide)).2 (by decide)⟩)

/-! ## The Running block of `do_loop` -/

/-- The body of the start pass returns in a state that satisfies the queue invariant and
keeps the invariant, the status flags and the length of the queue, whatever the copy of
the bits of the board is. -/
theorem start_station_inv (t : Nat) (bv : List Bool) (bid s_ : Nat) (s0 x : State)
    (h : queue_inv x ∧ same_status s0 x) :
    ∃ x1, start_station t bv bid s_ x = some x1 ∧ queue_inv x1 ∧ same_status s0 x1 := by
  unfold start_station
  dsimp only
  split_ifs with h1 h2 h3 h4
  · exact ⟨x, rfl, h⟩
  · exact ⟨x, rfl, h⟩
  · exact ⟨x, rfl, h⟩
  · exact ⟨x, rfl, h⟩
  · obtain ⟨q, hq, _⟩ := queue_inv_lookup x h.1 _ h3
    rw [hq]
    dsimp only
    split_ifs
    · refine ⟨_, rfl, ?_⟩
      obtain ⟨pg, ev, hX, _⟩ := start_run_shape ((bid * 8 + s_) % 256)
        (x.station_qid.getD ((bid * 8 + s_) % 256) 255) q x hq
      rw [hX]
      refine ⟨queue_inv_congr x _ ?_ rfl h.1, same_status_trans _ _ _ h.2 (same_status_refl x)⟩
      exact map_sid_set x.queue _ q _ hq rfl
    · exact ⟨x, rfl, h⟩

theorem start_boards_inv (t : Nat) (s0 : State) :
    ∀ (bids : List Nat) (x : State), queue_inv x ∧ same_status s0 x →
      ∃ x1, start_boards t bids x = some x1 ∧ queue_inv x1 ∧ same_status s0 x1 := by
  intro bids
  induction bids with
  | nil =>
    intro x hx
    exact ⟨x, rfl, hx⟩
  | cons bid rest ih =>
    intro x hx
    obtain ⟨x1, e1, p1⟩ := station_walk_inv (fun y => queue_inv y ∧ same_status s0 y)
      (start_station t (board_bits bid x)) ((List.range 8).map (fun s_ => (bid, s_)))
      (fun p _ y hy => start_station_inv t _ p.1 p.2 s0 y hy) x hx
    obtain ⟨x2, e2, p2⟩ := ih x1 p1
    refine ⟨x2, ?_, p2⟩
    show (start_board t bid x).bind _ = some x2
    unfold start_board
    rw [e1]
    exact e2

theorem start_pass_inv (c : Config) (t : Nat) (s : State) (h : queue_inv s) :
    ∃ s1, start_pass c t s = some s1 ∧ queue_inv s1 ∧ same_status s s1 :=
  start_boards_inv t s _ s ⟨h, same_status_refl s⟩

/-- After the dynamic events no station of the boards is left to be preempted. -/
theorem process_dynamic_events_settled (c : Config) (t : Nat) (s : State)
    (hb : c.nboards ≤ 32) (hinv : queue_inv s) :
    ∃ s1, process_dynamic_events c t s = some s1 ∧ queue_inv s1 ∧ same_status s s1
      ∧ ∀ sid, sid < c.nboards * 8 → ¬ preempt_core c s1 sid := by
  obtain ⟨s1, e1, q1, st1⟩ := process_dynamic_events_inv c t s hinv
  have h0 : pde_post c s (fun _ => False) s :=
    ⟨hinv, rfl, rfl, fun sid => ⟨fun hc => absurd hc.1 id, fun _ => ⟨rfl, rfl⟩⟩⟩
  obtain ⟨s2, e2, p2⟩ := pde_walk_post c t s (board_stations c.nboards)
    (fun p hp => ⟨by have := ((mem_board_stations _ p).mp hp).1; omega,
      ((mem_board_stations _ p).mp hp).2⟩) _ s h0
  have e12 : s2 = s1 := by
    have : process_dynamic_events c t s = some s2 := e2
    rw [e1] at this
    exact (Option.some.inj this).symm
  subst e12
  refine ⟨s2, e1, q1, st1, ?_⟩
  intro sid hsid hc
  obtain ⟨_, _, _, hall⟩ := p2
  obtain ⟨a1, a2, a3, a4, a5, a6, _⟩ := st1
  have hrain : rain_in_effect c s2 = rain_in_effect c s := by
    unfold rain_in_effect
    rw [a3, a4]
  by_cases hp : preempt_core c s sid
  · have hD : (False ∨ ∃ p ∈ board_stations c.nboards, sid = p.1 * 8 + p.2) :=
      Or.inr ((board_stations_sid c.nboards sid).mpr hsid)
    have := ((hall sid).1 ⟨hD, hp⟩).1
    obtain ⟨q, hq, _⟩ := hc.2.2
    rw [this] at hq
    simp at hq
  · have := ((hall sid).2 (fun h => hp h.2)).1
    apply hp
    obtain ⟨b1, b2, q, hq, hpid, hcause⟩ := hc
    refine ⟨a5 ▸ b1, a6 ▸ b2, q, this ▸ hq, hpid, ?_⟩
    rw [a2, hrain] at hcause
    exact hcause

/-- The body of the dynamic events leaves the state as it is on a station that is not to
be preempted. -/
theorem pde_station_noop (c : Config) (t bid s_ : Nat) (hb : bid < 32) (hs : s_ < 8)
    (x : State) (hinv : queue_inv x) (hn : ¬ preempt_core c x (bid * 8 + s_)) :
    pde_station c t (rain_in_effect c x) x.enabled bid s_ x = some x := by
  have hmod : (bid * 8 + s_) % 256 = bid * 8 + s_ := Nat.mod_eq_of_lt (by omega)
  unfold pde_station
  dsimp only
  rw [hmod]
  split_ifs with h1 h2 h3
  · rfl
  · rfl
  · rfl
  · obtain ⟨q, hq, _⟩ := queue_inv_lookup x hinv _ h3
    rw [hq]
    dsimp only
    rw [if_neg]
    intro hc
    apply hn
    refine ⟨h1, h2, q, ?_, hc.1, ?_⟩
    · unfold tracked
      rw [if_neg h3]
      exact hq
    · rcases hc.2 with h5 | h5
      · exact Or.inl h5
      · exact Or.inr ⟨h5.1, (ignrain_bit c bid s_ hs).mp h5.2⟩

/-- When no station of the boards is to be preempted, the dynamic events leave the state
as it is. -/
theorem process_dynamic_events_noop (c : Config) (t : Nat) (s : State) (hb : c.nboards ≤ 32)
    (hinv : queue_inv s) (hn : ∀ sid, sid < c.nboards * 8 → ¬ preempt_core c s sid) :
    process_dynamic_events c t s = some s := by
  have key : ∀ l : List (Nat × Nat), (∀ p ∈ l, p.1 < c.nboards ∧ p.2 < 8) →
      pde_walk c t (rain_in_effect c s) s.enabled l s = some s := by
    intro l
    induction l with
    | nil => intro _; rfl
    | cons p rest ih =>
      intro hl
      have hp := hl p (List.mem_cons_self _ _)
      show (pde_station c t (rain_in_effect c s) s.enabled p.1 p.2 s).bind _ = some s
      rw [pde_station_noop c t p.1 p.2 (by omega) hp.2 s hinv (hn _ (by omega))]
      exact ih (fun p0 hp0 => hl p0 (List.mem_cons_of_mem _ hp0))
  exact key _ (fun p hp => (mem_board_stations _ p).mp hp)

/-! ## Last sequential stop time: claim C26 -/

theorem last_seq_stop_fold (c : Config) (now : Nat) (qs : List RuntimeQueueStruct) :
    ∀ acc : Nat,
      qs.foldl
          (fun acc q =>
            let sst := (q.st + q.dur) % ULONG_MOD
            if sst > now then
              if is_sequential c q then (if sst > acc then sst else acc) else acc
            else acc)
          acc
        = max acc
            (((qs.filter (fun q => is_sequential c q
                && decide (now < (q.st + q.dur) % ULONG_MOD))).map
              (fun q => (q.st + q.dur) % ULONG_MOD)).foldr max 0) := by
  induction qs with
  | nil => intro acc; simp
  | cons q qs ih =>
    intro acc
    rw [List.foldl_cons, ih]
    by_cases h1 : (q.st + q.dur) % ULONG_MOD > now
    · by_cases h2 : is_sequential c q = true
      · rw [List.filter_cons_of_pos (by simp [h1, h2])]
        simp only [h1, h2, if_true, List.map_cons, List.foldr_cons]
        split_ifs <;> omega
      · have h2f : is_sequential c q = false := by simpa using h2
        rw [List.filter_cons_of_neg (by simp [h2f])]
        simp [h1, h2f]
    · rw [List.filter_cons_of_neg (by simp; intro _; omega)]
      simp [h1]

theorem last_seq_stop_eq (c : Config) (now : Nat) (qs : List RuntimeQueueStruct) :
    last_seq_stop c now qs
      = ((qs.filter (fun q => is_sequential c q
            && decide (now < (q.st + q.dur) % ULONG_MOD))).map
          (fun q => (q.st + q.dur) % ULONG_MOD)).foldr max 0 := by
  unfold last_seq_stop
  rw [last_seq_stop_fold c now qs 0]
  simp

theorem do_loop_idle_nonempty (c : Config) (now : Nat) (y : State) (h : y.queue ≠ []) :
    do_loop_idle c now y = y := by
  unfold do_loop_idle
  rw [if_neg]
  intro hc
  exact h (List.length_eq_zero.mp hc)

theorem do_loop_idle_empty (c : Config) (now : Nat) (y : State) (h : y.queue = []) :
    (do_loop_idle c now y).queue = []
    ∧ (do_loop_idle c now y).program_busy = false
    ∧ (do_loop_idle c now y).station_bits = y.station_bits.map (fun _ => false)
    ∧ (do_loop_idle c now y).station_qid = y.station_qid.map (fun _ => 255)
    ∧ (do_loop_idle c now y).enabled = y.enabled
    ∧ (do_loop_idle c now y).rain_delayed = y.rain_delayed
    ∧ (do_loop_idle c now y).rain_sensed = y.rain_sensed
    ∧ (do_loop_idle c now y).last_minute = y.last_minute := by
  unfold do_loop_idle
  rw [if_pos (by rw [h]; rfl)]
  dsimp only
  split_ifs <;> exact ⟨rfl, rfl, rfl, rfl, rfl, rfl, rfl, rfl⟩

/-- The Running block of `do_loop` returns in a busy state that satisfies the queue
invariant: the four passes lead to a state `x` that satisfies the invariant, and the
block ends with the last sequential stop time of the queue of `x` and the return to
idle. -/
theorem do_loop_running_spec (c : Config) (now : Nat) (s : State) (hinv : queue_inv s)
    (hbusy : s.program_busy = true) :
    ∃ x, queue_inv x ∧ same_status s x
      ∧ (c.nboards ≤ 32 → ∀ sid, sid < c.nboards * 8 → ¬ preempt_core c x sid)
      ∧ do_loop_running c now s
          = some (do_loop_idle c now
              { x with last_seq_stop_time := last_seq_stop c now x.queue }) := by
  obtain ⟨x1, e1, i1, t1⟩ := stop_pass_inv c now s hinv
  obtain ⟨x2, e2, i2, t2⟩ := start_pass_inv c now x1 i1
  obtain ⟨x3, e3, i3, t3⟩ := do_loop_gc_inv now x2 i2
  obtain ⟨x4, e4, i4, t4⟩ := process_dynamic_events_inv c now x3 i3
  refine ⟨x4, i4, same_status_trans _ _ _ (same_status_trans _ _ _
    (same_status_trans _ _ _ t1 t2) t3) t4, ?_, ?_⟩
  · intro hb
    obtain ⟨x5, e5, _, _, n5⟩ := process_dynamic_events_settled c now x3 hb i3
    rw [e4] at e5
    rw [Option.some.inj e5]
    exact n5
  · unfold do_loop_running
    rw [if_pos hbusy, e1]
    simp only [Option.bind, e2, e3, e4, Option.map]

/-- C26: the Running block of a tick at time `now`, in a busy state that satisfies the
queue invariant, returns; when it leaves the queue non-empty, `lastSequentialStop` equals
the maximum of `start + duration` (a `ulong` sum) over the remaining runs whose station
is sequential (controller not in remote-extension mode) and whose end time is `> now`,
and equals 0 when there is no such run. -/
theorem C26_last_seq_stop_time (c : Config) (now : Nat) (s : State) (hinv : queue_inv s)
    (hbusy : s.program_busy = true) :
    ∃ s1, do_loop_running c now s = some s1
      ∧ (s1.queue ≠ [] →
          s1.last_seq_stop_time
            = ((s1.queue.filter (fun q => is_sequential c q
                  && decide (now < (q.st + q.dur) % ULONG_MOD))).map
                (fun q => (q.st + q.dur) % ULONG_MOD)).foldr max 0
          ∧ (∀ q ∈ s1.queue, is_sequential c q = true → now < (q.st + q.dur) % ULONG_MOD →
              (q.st + q.dur) % ULONG_MOD ≤ s1.last_seq_stop_time)
          ∧ ((∀ q ∈ s1.queue, ¬ (is_sequential c q = true ∧ now < (q.st + q.dur) % ULONG_MOD)) →
              s1.last_seq_stop_time = 0)) := by
  obtain ⟨x, _, _, _, e⟩ := do_loop_running_spec c now s hinv hbusy
  generalize hy : ({ x with last_seq_stop_time := last_seq_stop c now x.queue } : State) = y
    at e
  have hyq : y.queue = x.queue := by rw [← hy]
  have hyl : y.last_seq_stop_time = last_seq_stop c now y.queue := by rw [← hy]
  refine ⟨_, e, ?_⟩
  intro hne
  by_cases hx : y.queue = []
  · exfalso
    exact hne (do_loop_idle_empty c now y hx).1
  · rw [do_loop_idle_nonempty c now y hx]
    have hmax : ∀ (l : List Nat) (a : Nat), a ∈ l → a ≤ l.foldr max 0 := by
      intro l
      induction l with
      | nil => intro a ha; simp at ha
      | cons b l ih =>
        intro a ha
        rw [List.foldr_cons]
        rcases List.mem_cons.mp ha with h | h
        · subst h; exact le_max_left _ _
        · exact le_trans (ih a h) (le_max_right _ _)
    rw [hyl, last_seq_stop_eq]
    refine ⟨rfl, ?_, ?_⟩
    · intro q hq h1 h2
      apply hmax
      exact List.mem_map.mpr ⟨q, List.mem_filter.mpr ⟨hq, by simp [h1, h2]⟩, rfl⟩
    · intro hnone
      have : y.queue.filter (fun q => is_sequential c q
          && decide (now < (q.st + q.dur) % ULONG_MOD)) = [] := by
        rw [List.filter_eq_nil_iff]
        intro q hq hc
        apply hnone q hq
        simpa using hc
      rw [this]
      rfl

/-- Witness of C26: at 1050 the sequential runs of stations 0 and 1 end at 1101 and 1156
and the concurrent run of station 2 ends at 1301. -/
theorem C26_last_seq_stop_time_witness :
    ∃ s1, do_loop_running demo_config 1050
          { demo_state with
            queue := [{ demo_run 0 100 with st := 1001 }, { demo_run 1 50 with st := 1106 },
                      { demo_run 2 300 with st := 1001 }]
            station_qid := [0, 1, 2, 255, 255, 255, 255, 255]
            program_busy := true } = some s1
      ∧ (s1.queue ≠ [] → s1.last_seq_stop_time
            = ((s1.queue.filter (fun q => is_sequential demo_config q
                  && decide (1050 < (q.st + q.dur) % ULONG_MOD))).map
                (fun q => (q.st + q.dur) % ULONG_MOD)).foldr max 0) :=
  (C26_last_seq_stop_time demo_config 1050
    { demo_state with
      queue := [{ demo_run 0 100 with st := 1001 }, { demo_run 1 50 with st := 1106 },
                { demo_run 2 300 with st := 1001 }]
      station_qid := [0, 1, 2, 255, 255, 255, 255, 255]
      program_busy := true }
    (by unfold queue_inv; decide) rfl).elim
    (fun s1 h => ⟨s1, h.1, fun hne => (h.2 hne).1⟩)

/-- The value of the last sequential stop time in the example of the witness of C26. -/
theorem do_loop_running_demo :
    (do_loop_running demo_config 1050
        { demo_state with
          queue := [{ demo_run 0 100 with st := 1001 }, { demo_run 1 50 with st := 1106 },
                    { demo_run 2 300 with st := 1001 }]
          station_qid := [0, 1, 2, 255, 255, 255, 255, 255]
          program_busy := true }).map
        (fun x => (x.queue.length, x.last_seq_stop_time, x.station_bits))
      = some (3, 1156, [true, false, true, false, false, false, false, false]) := by
  decide

/-! ## Run lookup of the master blocks: claim C30 -/

/-- C30, the code at the failing input: station 0 is the first master and station 1 the
second; station 2 operates the first master and station 0 operates the second master; a
stored program waters station 2. From the initial state the pass of `do_loop` at 1200
enqueues station 2, and in the pass at 1201 station 2 is started, the block "handle
master" sets the bit of station 0, and the block "handle master2" then looks up the run
of station 0, whose station index entry is 255: the read is outside the queue. -/
theorem C30_master_lookup_outside_queue :
    (do_loops demo_master_config id [demo_prog 30 false] [demo_tick 1200] demo_state).map
        (fun x => (x.queue.map (fun q => (q.sid, q.st, q.dur)), x.station_qid, x.station_bits))
      = some ([(2, 1201, 30)], [255, 255, 0, 255, 255, 255, 255, 255],
          [false, false, false, false, false, false, false, false])
    ∧ do_loops demo_master_config id [demo_prog 30 false] [demo_tick 1200, demo_tick 1201]
        demo_state = none
    ∧ ((do_loops demo_master_config id [demo_prog 30 false] [demo_tick 1200] demo_state).bind
          (fun x =>
            (do_loop_running demo_master_config 1201
                { x with mas := demo_master_config.master_station,
                         mas2 := demo_master_config.master_station_2 }).bind
              (handle_master demo_master_config 1 0 0 [4] 1201))).map
        (fun x => (x.station_bits, x.station_qid.getD 0 255, x.queue.length,
          attrib_bit demo_master_config.mas_op_2 0))
      = some ([true, false, true, false, false, false, false, false], 255, 1, true) := by
  decide

/-! ## The blocks of `do_loop` before the Running block -/

theorem enqueue_frame (c : Config) (q : RuntimeQueueStruct) (s : State) :
    (enqueue c q s).program_busy = s.program_busy
    ∧ (enqueue c q s).last_minute = s.last_minute
    ∧ ((enqueue c q s).queue = s.queue
        ∨ ∃ k, (enqueue c q s).queue = s.queue ++ [{ q with pgm := k }]) := by
  unfold enqueue
  split
  · exact ⟨rfl, rfl, Or.inl rfl⟩
  · split
    · exact ⟨rfl, rfl, Or.inr ⟨_, rfl⟩⟩
    · exact ⟨rfl, rfl, Or.inr ⟨_, rfl⟩⟩

/-- Enqueueing a run that is still to be placed keeps the invariant of the enqueueing
loops and sets the flag `match_found`. -/
theorem enq_inv_enqueue (c : Config) (hc : c.queue_size ≤ 255) (m : Nat) (s : State)
    (mf : Bool) (q : RuntimeQueueStruct) (hq : unplaced q = true) (h : enq_inv m (s, mf)) :
    enq_inv m (enqueue c q s, true) := by
  obtain ⟨h1, h2, h3⟩ := h
  obtain ⟨f1, f2, f3⟩ := enqueue_frame c q s
  refine ⟨queue_inv_enqueue c q s hc h1, f2.trans h2, ?_⟩
  intro hne
  show (enqueue c q s).program_busy = true
    ∨ (true = true ∧ ∃ r ∈ (enqueue c q s).queue, unplaced r = true)
  rcases f3 with f3 | ⟨k, f3⟩
  · rw [f3] at hne ⊢
    rcases h3 hne with h4 | ⟨_, h4⟩
    · exact Or.inl (f1.trans h4)
    · exact Or.inr ⟨rfl, h4⟩
  · right
    refine ⟨rfl, { q with pgm := k }, ?_, hq⟩
    rw [f3]
    simp

theorem enq_inv_sched_station (c : Config) (hc : c.queue_size ≤ 255) (wtr : Nat → Nat)
    (now : Nat) (prog : ProgramStruct) (pid m : Nat) (acc : State × Bool) (sid : Nat)
    (h : enq_inv m acc) : enq_inv m (sched_station c wtr now prog pid acc sid) := by
  obtain ⟨s, mf⟩ := acc
  rw [sched_station_eq]
  split
  · rename_i hcond
    refine enq_inv_enqueue c hc m s mf _ ?_ h
    have : scaled_water_time c wtr prog sid ≠ 0 := hcond.2.2.2.2.1
    simp [unplaced, new_run, this]
  · exact h

theorem enq_inv_manual_station (c : Config) (hc : c.queue_size ≤ 255) (wtr : Nat → Nat)
    (prog : ProgramStruct) (pid : Nat) (uwt : Bool) (now m : Nat) (acc : State × Bool)
    (sid : Nat) (h : enq_inv m acc) :
    enq_inv m (manual_station c wtr prog pid uwt now acc sid) := by
  obtain ⟨s, mf⟩ := acc
  unfold manual_station
  dsimp only
  split_ifs with h1 h2 h3
  · exact h
  · refine enq_inv_enqueue c hc m s mf _ ?_ h
    have : manual_dur c wtr prog pid uwt sid ≠ 0 := by omega
    simp [unplaced, manual_run, this]
  · exact h
  · exact h

theorem foldl_inv {α β : Type} (P : β → Prop) (f : β → α → β)
    (hf : ∀ b a, P b → P (f b a)) : ∀ (l : List α) (b : β), P b → P (l.foldl f b) := by
  intro l
  induction l with
  | nil => intro b hb; exact hb
  | cons a l ih => intro b hb; exact ih (f b a) (hf b a hb)

theorem enq_inv_sched_programs (c : Config) (hc : c.queue_size ≤ 255) (wtr : Nat → Nat)
    (now m : Nat) :
    ∀ (progs : List ProgramStruct) (pid : Nat) (acc : State × Bool), enq_inv m acc →
      enq_inv m (sched_programs c wtr now pid progs acc) := by
  intro progs
  induction progs with
  | nil => intro pid acc h; exact h
  | cons prog rest ih =>
    intro pid acc h
    show enq_inv m (sched_programs c wtr now (pid + 1) rest (sched_program c wtr now acc pid prog))
    apply ih
    unfold sched_program
    split
    · exact foldl_inv (enq_inv m) _
        (fun b a hb => enq_inv_sched_station c hc wtr now prog pid m b a hb) _ acc h
    · exact h

/-- Effect of one iteration of the placement loop on the busy flag and on the minute
watermark. -/
theorem schedule_iter_busy (c : Config) (t : Nat) (l : SchedLoop) (q : RuntimeQueueStruct) :
    (schedule_iter c t l q).1.g.last_minute = l.g.last_minute
    ∧ (l.g.program_busy = true → (schedule_iter c t l q).1.g.program_busy = true)
    ∧ (unplaced q = true → (schedule_iter c t l q).1.g.program_busy = true) := by
  by_cases hu : unplaced q = true
  · have h12 : q.st = 0 ∧ q.dur ≠ 0 := by simpa [unplaced] using hu
    unfold schedule_iter
    rw [if_neg (by simp [h12.1]), if_neg h12.2]
    by_cases h3 : is_sequential c q = true
    · simp only [h3, if_true, emit]
      split_ifs <;> simp_all
    · simp only [h3, Bool.false_eq_true, if_false, emit]
      split_ifs <;> simp_all
  · have hu1 : unplaced q = false := by simpa using hu
    rw [schedule_iter_skip c t l q hu1]
    exact ⟨rfl, fun h => h, fun h => absurd h hu⟩

theorem schedule_walk_busy (c : Config) (t : Nat) (qs : List RuntimeQueueStruct) :
    ∀ l : SchedLoop,
      (schedule_walk c t l qs).1.g.last_minute = l.g.last_minute
      ∧ (l.g.program_busy = true → (schedule_walk c t l qs).1.g.program_busy = true)
      ∧ ((∃ q ∈ qs, unplaced q = true) → (schedule_walk c t l qs).1.g.program_busy = true) := by
  induction qs with
  | nil =>
    intro l
    exact ⟨rfl, fun h => h, fun h => by simp at h⟩
  | cons q qs ih =>
    intro l
    obtain ⟨a1, a2, a3⟩ := schedule_iter_busy c t l q
    obtain ⟨b1, b2, b3⟩ := ih (schedule_iter c t l q).1
    show (schedule_walk c t (schedule_iter c t l q).1 qs).1.g.last_minute = l.g.last_minute
      ∧ (l.g.program_busy = true →
          (schedule_walk c t (schedule_iter c t l q).1 qs).1.g.program_busy = true)
      ∧ ((∃ r ∈ q :: qs, unplaced r = true) →
          (schedule_walk c t (schedule_iter c t l q).1 qs).1.g.program_busy = true)
    refine ⟨b1.trans a1, fun h => b2 (a2 h), ?_⟩
    rintro ⟨r, hr, hru⟩
    rcases List.mem_cons.mp hr with h | h
    · subst h
      exact b2 (a3 hru)
    · exact b3 ⟨r, h, hru⟩

/-- After an enqueueing loop and the placement pass that follows it when a run was
enqueued, the queue invariant holds, the minute watermark is kept, and the controller is
busy when the queue is not empty. -/
theorem enq_inv_placed (c : Config) (t m : Nat) (r : State × Bool) (h : enq_inv m r) :
    queue_inv (if r.2 then schedule_all_stations c t r.1 else r.1)
    ∧ (if r.2 then schedule_all_stations c t r.1 else r.1).last_minute = m
    ∧ ((if r.2 then schedule_all_stations c t r.1 else r.1).queue ≠ [] →
        (if r.2 then schedule_all_stations c t r.1 else r.1).program_busy = true) := by
  obtain ⟨h1, h2, h3⟩ := h
  by_cases hr : r.2 = true
  · rw [if_pos hr]
    obtain ⟨b1, b2, b3⟩ := schedule_walk_busy c t r.1.queue
      ⟨(t + 1) % ULONG_MOD, seq_start_init c t r.1, r.1⟩
    refine ⟨queue_inv_schedule_all_stations c t r.1 h1, b1.trans h2, ?_⟩
    intro hne
    have hne1 : r.1.queue ≠ [] := by
      intro hc
      apply hne
      rw [schedule_all_stations_queue, hc]
      rfl
    rcases h3 hne1 with h4 | ⟨_, h4⟩
    · exact b2 h4
    · exact b3 h4
  · rw [if_neg hr]
    refine ⟨h1, h2, ?_⟩
    intro hne
    rcases h3 hne with h4 | ⟨h4, _⟩
    · exact h4
    · exact absurd h4 hr

theorem do_loop_schedule_inv (c : Config) (hc : c.queue_size ≤ 255) (wtr : Nat → Nat)
    (progs : List ProgramStruct) (now : Nat) (s : State) (h1 : queue_inv s)
    (h2 : s.queue ≠ [] → s.program_busy = true) :
    queue_inv (do_loop_schedule c wtr progs now s)
    ∧ (do_loop_schedule c wtr progs now s).last_minute = now / 60
    ∧ ((do_loop_schedule c wtr progs now s).queue ≠ [] →
        (do_loop_schedule c wtr progs now s).program_busy = true) := by
  unfold do_loop_schedule
  dsimp only
  by_cases hm : now / 60 ≠ s.last_minute
  · rw [if_pos hm]
    apply enq_inv_placed
    apply enq_inv_sched_programs c hc
    exact ⟨queue_inv_congr s _ rfl rfl h1, rfl, fun hne => Or.inl (h2 hne)⟩
  · rw [if_neg hm]
    exact ⟨h1, by omega, h2⟩

theorem queue_inv_reset (s : State) : queue_inv (reset_all_stations_immediate s) := by
  refine ⟨by simp [reset_all_stations_immediate, reset_runtime], ?_⟩
  intro sid _
  left
  simp only [reset_all_stations_immediate, reset_runtime, clear_all_station_bits,
    List.getD_eq_getElem?_getD, List.getElem?_map]
  cases s.station_qid[sid]? <;> rfl

theorem manual_start_program_inv (c : Config) (hc : c.queue_size ≤ 255) (wtr : Nat → Nat)
    (prog : ProgramStruct) (pid : Nat) (uwt : Bool) (now : Nat) (s : State) :
    queue_inv (manual_start_program c wtr prog pid uwt now s)
    ∧ (manual_start_program c wtr prog pid uwt now s).last_minute = s.last_minute
    ∧ ((manual_start_program c wtr prog pid uwt now s).queue ≠ [] →
        (manual_start_program c wtr prog pid uwt now s).program_busy = true) := by
  unfold manual_start_program
  dsimp only
  apply enq_inv_placed
  apply foldl_inv (enq_inv s.last_minute) _
    (fun b a hb => enq_inv_manual_station c hc wtr prog pid uwt now s.last_minute b a hb)
  exact ⟨queue_inv_reset s, rfl, fun hne => absurd rfl hne⟩

theorem do_loop_flow_frame (c : Config) (s : State) :
    (do_loop_flow c s).program_busy = s.program_busy
    ∧ (do_loop_flow c s).last_minute = s.last_minute
    ∧ (do_loop_flow c s).queue.length = s.queue.length := by
  unfold do_loop_flow
  dsimp only
  split_ifs
  · refine ⟨rfl, rfl, ?_⟩
    show (flow_walk _ s.queue s.pgms).1.length = s.queue.length
    rw [flow_walk_queue, List.length_map]
  · exact ⟨rfl, rfl, rfl⟩
  · exact ⟨rfl, rfl, rfl⟩

theorem same_queue_refl (s : State) : same_queue s s := ⟨rfl, rfl, rfl, rfl⟩

theorem same_queue_trans (s s1 s2 : State) (h1 : same_queue s s1) (h2 : same_queue s1 s2) :
    same_queue s s2 :=
  ⟨h2.1.trans h1.1, h2.2.1.trans h1.2.1, h2.2.2.1.trans h1.2.2.1, h2.2.2.2.trans h1.2.2.2⟩

theorem same_queue_raindelay (rd now : Nat) (s : State) :
    same_queue s (do_loop_raindelay rd now s) := by
  unfold do_loop_raindelay raindelay_start raindelay_stop emit
  dsimp only
  split_ifs <;> exact same_queue_refl _

theorem same_queue_rainsensor (c : Config) (sensor : Bool) (now : Nat) (s : State) :
    same_queue s (do_loop_rainsensor c sensor now s) := by
  unfold do_loop_rainsensor rainsensor_status emit
  dsimp only
  split_ifs <;> exact same_queue_refl _

theorem same_queue_check_network (f r : Bool) (s : State) :
    same_queue s (check_network f r s) := by
  unfold check_network
  dsimp only
  split_ifs <;> exact same_queue_refl _

theorem same_queue_tail (c : Config) (progs : List ProgramStruct) (i : TickInput) (s : State) :
    same_queue s (do_loop_tail c progs i s) := by
  have h1 : same_queue s (do_loop_safe_reboot progs i.curr_time s) := by
    unfold do_loop_safe_reboot reboot_dev emit
    dsimp only
    split_ifs <;> exact same_queue_refl _
  have h2 : ∀ x : State, same_queue x (do_loop_ntp c i.ntp_time i.curr_time x) := by
    intro x
    unfold do_loop_ntp perform_ntp_sync reboot_dev emit
    dsimp only
    split_ifs <;> exact same_queue_refl _
  have h3 : ∀ x : State,
      same_queue x (do_loop_network i.ping_failed i.reconnect_ok i.curr_time x) := by
    intro x
    unfold do_loop_network request_check_network
    split_ifs
    · exact same_queue_check_network _ _ { x with req_network := true }
    · exact same_queue_refl _
  unfold do_loop_tail
  exact same_queue_trans _ _ _ (same_queue_trans _ _ _ h1 (h2 _)) (h3 _)

theorem queue_inv_same_queue (s s1 : State) (h : same_queue s s1) (hi : queue_inv s) :
    queue_inv s1 :=
  queue_inv_congr s s1 (by rw [h.1]) h.2.1 hi

theorem do_loop_program_switch_inv (c : Config) (hc : c.queue_size ≤ 255) (wtr : Nat → Nat)
    (progs : List ProgramStruct) (prog : ProgramStruct) (sw : Bool) (now : Nat) (s : State)
    (h1 : queue_inv s) (h2 : s.queue ≠ [] → s.program_busy = true) :
    queue_inv (do_loop_program_switch c wtr progs prog sw now s)
    ∧ (do_loop_program_switch c wtr progs prog sw now s).last_minute = s.last_minute
    ∧ ((do_loop_program_switch c wtr progs prog sw now s).queue ≠ [] →
        (do_loop_program_switch c wtr progs prog sw now s).program_busy = true) := by
  unfold do_loop_program_switch
  dsimp only
  split_ifs
  · exact manual_start_program_inv c hc wtr prog 1 false now (reset_all_stations_immediate s)
  · exact ⟨queue_inv_reset s, rfl, fun hne => absurd rfl hne⟩
  · exact ⟨h1, rfl, h2⟩

theorem do_loop_head_inv (c : Config) (hc : c.queue_size ≤ 255) (wtr : Nat → Nat)
    (progs : List ProgramStruct) (i : TickInput) (s : State) (h1 : queue_inv s)
    (h2 : s.queue ≠ [] → s.program_busy = true) :
    queue_inv (do_loop_head c wtr progs i s)
    ∧ (do_loop_head c wtr progs i s).last_minute = s.last_minute
    ∧ ((do_loop_head c wtr progs i s).queue ≠ [] →
        (do_loop_head c wtr progs i s).program_busy = true) := by
  unfold do_loop_head
  dsimp only
  generalize hs1 : ({ s with last_time := i.curr_time } : State) = s1
  have a1 : queue_inv s1 := by rw [← hs1]; exact queue_inv_congr s _ rfl rfl h1
  have a2 : s1.queue ≠ [] → s1.program_busy = true := by rw [← hs1]; exact h2
  have a3 : s1.last_minute = s.last_minute := by rw [← hs1]
  obtain ⟨f1, f2, f3⟩ := do_loop_flow_frame c s1
  have b1 : queue_inv (do_loop_flow c s1) := queue_inv_do_loop_flow c s1 a1
  have b2 : (do_loop_flow c s1).queue ≠ [] → (do_loop_flow c s1).program_busy = true := by
    intro hne
    rw [f1]
    apply a2
    intro hc1
    apply hne
    apply List.length_eq_zero.mp
    rw [f3, hc1]
    rfl
  have g1 := same_queue_raindelay i.rd_stop_time i.curr_time (do_loop_flow c s1)
  have g2 := same_queue_rainsensor c i.rain_sensor i.curr_time
    (do_loop_raindelay i.rd_stop_time i.curr_time (do_loop_flow c s1))
  have g := same_queue_trans _ _ _ g1 g2
  obtain ⟨k1, k2, k3⟩ := do_loop_program_switch_inv c hc wtr progs i.prog i.program_switch
    i.curr_time _ (queue_inv_same_queue _ _ g b1)
    (by rw [g.1, g.2.2.1]; exact b2)
  exact ⟨k1, by rw [k2, g.2.2.2, f2, a3], k3⟩

theorem handle_master_frame (c : Config) (mas : Nat) (on_adj off_adj : Int)
    (masop : List Nat) (t : Nat) (s z : State)
    (h : handle_master c mas on_adj off_adj masop t s = some z) :
    ∃ bits, z = { s with station_bits := bits } := by
  unfold handle_master at h
  split_ifs at h
  · obtain ⟨b, _, hb⟩ := Option.map_eq_some'.mp h
    exact ⟨_, hb.symm⟩
  · exact ⟨s.station_bits, (Option.some.inj h).symm⟩

theorem do_loop_master_frame (c : Config) (t : Nat) (s z : State)
    (h : do_loop_master c t s = some z) :
    ∃ bits, z = { s with station_bits := bits } := by
  unfold do_loop_master at h
  obtain ⟨y, hy, hz⟩ := Option.bind_eq_some.mp h
  obtain ⟨b1, e1⟩ := handle_master_frame c _ _ _ _ t s y hy
  obtain ⟨b2, e2⟩ := handle_master_frame c _ _ _ _ t y z hz
  exact ⟨b2, by rw [e2, e1]⟩

theorem no_preempt_of_empty (c : Config) (s : State) (h : s.queue = []) (sid : Nat) :
    ¬ preempt_core c s sid := by
  rintro ⟨_, _, q, hq, _⟩
  unfold tracked at hq
  rw [h] at hq
  split_ifs at hq
  simp at hq

/-- The Running block of `do_loop`, in a state that satisfies the queue invariant and is
busy when its queue is not empty, returns in a state that satisfies the invariant, is
busy exactly when its queue is not empty and in which no station of the boards is left to
be preempted. -/
theorem do_loop_running_inv (c : Config) (hb : c.nboards ≤ 32) (now : Nat) (s : State)
    (h1 : queue_inv s) (h2 : s.queue ≠ [] → s.program_busy = true) :
    ∃ y, do_loop_running c now s = some y ∧ queue_inv y
      ∧ (y.program_busy = true ↔ y.queue ≠ [])
      ∧ (∀ sid, sid < c.nboards * 8 → ¬ preempt_core c y sid)
      ∧ y.last_minute = s.last_minute := by
  by_cases hbusy : s.program_busy = true
  · obtain ⟨x, i1, t1, n1, e⟩ := do_loop_running_spec c now s h1 hbusy
    refine ⟨_, e, ?_⟩
    generalize hy : ({ x with last_seq_stop_time := last_seq_stop c now x.queue } : State) = y
    have hyq : y.queue = x.queue := by rw [← hy]
    have hyi : y.station_qid = x.station_qid := by rw [← hy]
    have hyb : y.program_busy = x.program_busy := by rw [← hy]
    have hym : y.last_minute = x.last_minute := by rw [← hy]
    have hyn : ∀ sid, sid < c.nboards * 8 → ¬ preempt_core c y sid := by
      rw [← hy]
      exact n1 hb
    by_cases hq : y.queue = []
    · obtain ⟨d1, d2, _, d4, _, _, _, d8⟩ := do_loop_idle_empty c now y hq
      refine ⟨?_, ?_, fun sid _ => no_preempt_of_empty c _ d1 sid, ?_⟩
      · refine ⟨by rw [d1]; simp, ?_⟩
        intro sid _
        left
        rw [d4, List.getD_eq_getElem?_getD, List.getElem?_map]
        cases y.station_qid[sid]? <;> rfl
      · rw [d1, d2]
        simp
      · rw [d8, hym]
        exact t1.2.2.2.2.2.2
    · rw [do_loop_idle_nonempty c now y hq]
      refine ⟨queue_inv_congr x y (by rw [hyq]) hyi i1, ?_, hyn, ?_⟩
      · rw [hyb, t1.1, hbusy]
        simp [hq]
      · rw [hym]
        exact t1.2.2.2.2.2.2
  · have hq : s.queue = [] := by
      by_contra hc
      exact hbusy (h2 hc)
    refine ⟨s, ?_, h1, ?_, fun sid _ => no_preempt_of_empty c s hq sid, rfl⟩
    · unfold do_loop_running
      rw [if_neg hbusy]
    · rw [hq]
      simp [hbusy]

/-- One pass of `do_loop` that returns keeps the queue invariant and the equivalence of
"busy" and "queue not empty"; it sets the minute watermark to the minute of the pass when
a second has passed and leaves it as it is otherwise. -/
theorem do_loop_keeps (c : Config) (hb : c.nboards ≤ 32) (hc : c.queue_size ≤ 255)
    (wtr : Nat → Nat) (progs : List ProgramStruct) (i : TickInput) (s s1 : State)
    (h1 : queue_inv s) (h2 : s.program_busy = true ↔ s.queue ≠ [])
    (e : do_loop c wtr progs i s = some s1) :
    queue_inv s1 ∧ (s1.program_busy = true ↔ s1.queue ≠ [])
    ∧ s1.last_minute = (if s.last_time ≠ i.curr_time then i.curr_time / 60 else s.last_minute) := by
  unfold do_loop at e
  dsimp only at e
  generalize hs0 : ({ s with mas := c.master_station, mas2 := c.master_station_2 } : State) = s0
    at e
  have a1 : queue_inv s0 := by rw [← hs0]; exact queue_inv_congr s _ rfl rfl h1
  have a2 : s0.program_busy = true ↔ s0.queue ≠ [] := by rw [← hs0]; exact h2
  have a3 : s0.last_minute = s.last_minute := by rw [← hs0]
  by_cases ht : s.last_time ≠ i.curr_time
  · rw [if_pos ht] at e ⊢
    obtain ⟨b1, _, b3⟩ := do_loop_head_inv c hc wtr progs i s0 a1 a2.mpr
    obtain ⟨c1, c2, c3⟩ := do_loop_schedule_inv c hc wtr progs i.curr_time _ b1 b3
    obtain ⟨y, ey, d1, d2, d3, d4⟩ := do_loop_running_inv c hb i.curr_time _ c1 c3
    rw [ey] at e
    obtain ⟨z9, ez9, etail⟩ := Option.map_eq_some'.mp e
    obtain ⟨z, ez, epde⟩ := Option.bind_eq_some.mp ez9
    have ez1 : do_loop_master c i.curr_time y = some z := ez
    obtain ⟨bits, hz⟩ := do_loop_master_frame c i.curr_time y z ez1
    have hzq : same_queue y z := by
      rw [hz]
      exact same_queue_refl y
    have hzi : queue_inv z := queue_inv_same_queue y z hzq d1
    have hzn : ∀ sid, sid < c.nboards * 8 → ¬ preempt_core c z sid := by
      rw [hz]
      exact d3
    rw [process_dynamic_events_noop c i.curr_time z hb hzi hzn] at epde
    have hz9 : z9 = z := (Option.some.inj epde).symm
    subst hz9
    have htl := same_queue_tail c progs i z9
    rw [etail] at htl
    have hall := same_queue_trans _ _ _ hzq htl
    refine ⟨queue_inv_same_queue y s1 hall d1, ?_, ?_⟩
    · rw [hall.1, hall.2.2.1]
      exact d2
    · rw [hall.2.2.2, d4, c2]
  · rw [if_neg ht] at e ⊢
    rw [← Option.some.inj e]
    exact ⟨a1, a2, a3⟩

/-- In a state that satisfies the queue invariant and is busy exactly when its queue is
not empty, a pass of `do_loop` after a second has passed reads outside the queue only in
the master blocks: the Running block returns a state `y`, and the pass returns exactly
when the master blocks return on `y`. -/
theorem do_loop_defined (c : Config) (hb : c.nboards ≤ 32) (hc : c.queue_size ≤ 255)
    (wtr : Nat → Nat) (progs : List ProgramStruct) (i : TickInput) (s : State)
    (h1 : queue_inv s) (h2 : s.program_busy = true ↔ s.queue ≠ [])
    (ht : s.last_time ≠ i.curr_time) :
    ∃ y, queue_inv y
      ∧ do_loop_running c i.curr_time
          (do_loop_schedule c wtr progs i.curr_time
            (do_loop_head c wtr progs i
              { s with mas := c.master_station, mas2 := c.master_station_2 })) = some y
      ∧ do_loop c wtr progs i s
          = (do_loop_master c i.curr_time y).map (do_loop_tail c progs i) := by
  obtain ⟨b1, _, b3⟩ := do_loop_head_inv c hc wtr progs i
    { s with mas := c.master_station, mas2 := c.master_station_2 }
    (queue_inv_congr s _ rfl rfl h1) h2.mpr
  obtain ⟨c1, _, c3⟩ := do_loop_schedule_inv c hc wtr progs i.curr_time _ b1 b3
  obtain ⟨y, ey, d1, _, d3, _⟩ := do_loop_running_inv c hb i.curr_time _ c1 c3
  refine ⟨y, d1, ey, ?_⟩
  unfold do_loop
  dsimp only
  rw [if_pos ht, ey]
  cases ez : do_loop_master c i.curr_time y with
  | none =>
    show Option.map _ (((some y).bind (do_loop_master c i.curr_time)).bind _) = _
    rw [Option.some_bind, ez]
    rfl
  | some z =>
    show Option.map _ (((some y).bind (do_loop_master c i.curr_time)).bind _) = _
    rw [Option.some_bind, ez, Option.some_bind]
    obtain ⟨bits, hz⟩ := do_loop_master_frame c i.curr_time y z ez
    have hzi : queue_inv z := by
      rw [hz]
      exact queue_inv_congr y _ rfl rfl d1
    have hzn : ∀ sid, sid < c.nboards * 8 → ¬ preempt_core c z sid := by
      rw [hz]
      exact d3
    rw [process_dynamic_events_noop c i.curr_time z hb hzi hzn]

/-! ## Idle and Running: claim C21 -/

theorem reachable_inv (c : Config) (hb : c.nboards ≤ 32) (hc : c.queue_size ≤ 255)
    (wtr : Nat → Nat) (progs : List ProgramStruct) (s : State)
    (h : reachable c wtr progs s) :
    queue_inv s ∧ (s.program_busy = true ↔ s.queue ≠ []) := by
  induction h with
  | init s h1 h2 h3 =>
    refine ⟨⟨by rw [h1]; simp, fun sid hsid => Or.inl ?_⟩, ?_⟩
    · rw [List.getD_eq_getElem?_getD, List.getElem?_eq_getElem hsid]
      exact h3 _ (List.getElem_mem hsid)
    rw [h1, h2]
    simp
  | tick s s1 i _ e ih =>
    obtain ⟨k1, k2, _⟩ := do_loop_keeps c hb hc wtr progs i s s1 ih.1 ih.2 e
    exact ⟨k1, k2⟩

theorem reachable_do_loops (c : Config) (wtr : Nat → Nat) (progs : List ProgramStruct) :
    ∀ (l : List TickInput) (s s1 : State), reachable c wtr progs s →
      do_loops c wtr progs l s = some s1 → reachable c wtr progs s1 := by
  intro l
  induction l with
  | nil =>
    intro s s1 h e
    rw [← Option.some.inj e]
    exact h
  | cons i rest ih =>
    intro s s1 h e
    obtain ⟨x, ex, er⟩ := Option.bind_eq_some.mp e
    exact ih x s1 (reachable.tick s x i h ex) er

/-- C21: with at most 32 boards and a queue of at most 255 slots, at the end of every
tick reachable from the initial state (idle, empty queue, no tracked station) by passes
of `do_loop`, the system is Running (`program_busy` set) if and only if the runtime
queue is non-empty. The block `if (!pd.nqueue)` of the Running block, when it finds the
queue empty, clears all hardware station bits and sets `program_busy` to 0; and the
Running block, entered busy in a state that satisfies the queue invariant, returns idle
with an empty queue and every station bit clear, or busy with a non-empty queue. -/
theorem C21_running_iff_queue (c : Config) (hb : c.nboards ≤ 32) (hc : c.queue_size ≤ 255)
    (wtr : Nat → Nat) (progs : List ProgramStruct) (s : State)
    (h : reachable c wtr progs s) :
    (s.program_busy = true ↔ s.queue ≠ [])
    ∧ (∀ now y, y.queue = [] →
        (do_loop_idle c now y).program_busy = false
        ∧ (∀ sid, (do_loop_idle c now y).station_bits.getD sid false = false)
        ∧ (do_loop_idle c now y).queue = [])
    ∧ (∀ now x, queue_inv x → x.program_busy = true →
        ∃ y, do_loop_running c now x = some y
          ∧ ((y.queue = [] ∧ y.program_busy = false
                ∧ ∀ sid, y.station_bits.getD sid false = false)
              ∨ (y.queue ≠ [] ∧ y.program_busy = true))) := by
  have hbits : ∀ now y, y.queue = [] →
      ∀ sid, (do_loop_idle c now y).station_bits.getD sid false = false := by
    intro now y hy sid
    rw [(do_loop_idle_empty c now y hy).2.2.1, List.getD_eq_getElem?_getD, List.getElem?_map]
    cases y.station_bits[sid]? <;> rfl
  refine ⟨(reachable_inv c hb hc wtr progs s h).2, ?_, ?_⟩
  · intro now y hy
    exact ⟨(do_loop_idle_empty c now y hy).2.1, hbits now y hy, (do_loop_idle_empty c now y hy).1⟩
  · intro now x hx hbusy
    obtain ⟨x4, _, t4, _, e⟩ := do_loop_running_spec c now x hx hbusy
    refine ⟨_, e, ?_⟩
    generalize hy : ({ x4 with last_seq_stop_time := last_seq_stop c now x4.queue } : State) = y
    have hyb : y.program_busy = x4.program_busy := by rw [← hy]
    by_cases hq : y.queue = []
    · left
      exact ⟨(do_loop_idle_empty c now y hq).1, (do_loop_idle_empty c now y hq).2.1,
        hbits now y hq⟩
    · right
      rw [do_loop_idle_nonempty c now y hq]
      exact ⟨hq, by rw [hyb, t4.1, hbusy]⟩

/-- Witness of C21: after the passes of `do_loop` at 1200 and 1201 with a stored program
that waters station 2, the controller is busy and the queue is not empty. -/
theorem C21_running_iff_queue_witness :
    ∃ s1, do_loops demo_config id [demo_prog 30 false] [demo_tick 1200, demo_tick 1201]
          demo_state = some s1
      ∧ (s1.program_busy = true ↔ s1.queue ≠ []) := by
  cases e : do_loops demo_config id [demo_prog 30 false] [demo_tick 1200, demo_tick 1201]
      demo_state with
  | none => exact absurd e (by decide)
  | some s1 =>
    exact ⟨s1, rfl,
      (C21_running_iff_queue demo_config (by decide) (by decide) id [demo_prog 30 false] s1
        (reachable_do_loops demo_config id [demo_prog 30 false] _ demo_state s1
          (reachable.init demo_state rfl rfl (by decide)) e)).1⟩

/-- The states of the example of the witness of C21: busy with one run at 1201, idle with
an empty queue and every bit clear at 1231. -/
theorem do_loops_demo :
    (do_loops demo_config id [demo_prog 30 false] [demo_tick 1200, demo_tick 1201]
        demo_state).map (fun x => (x.program_busy, x.queue.length, x.station_bits))
      = some (true, 1, [false, false, true, false, false, false, false, false])
    ∧ (do_loops demo_config id [demo_prog 30 false]
        [demo_tick 1200, demo_tick 1201, demo_tick 1231] demo_state).map
        (fun x => (x.program_busy, x.queue.length, x.station_bits))
      = some (false, 0, [false, false, false, false, false, false, false, false]) := by
  decide

/-! ## The minute watermark: claim C24 -/

theorem do_loops_last_minute (c : Config) (hb : c.nboards ≤ 32) (hc : c.queue_size ≤ 255)
    (wtr : Nat → Nat) (progs : List ProgramStruct) (m : Nat) :
    ∀ (l : List TickInput) (s s1 : State), queue_inv s →
      (s.program_busy = true ↔ s.queue ≠ []) → s.last_minute = m →
      (∀ i ∈ l, i.curr_time / 60 = m) → do_loops c wtr progs l s = some s1 →
      queue_inv s1 ∧ (s1.program_busy = true ↔ s1.queue ≠ []) ∧ s1.last_minute = m := by
  intro l
  induction l with
  | nil =>
    intro s s1 h1 h2 h3 _ e
    rw [← Option.some.inj e]
    exact ⟨h1, h2, h3⟩
  | cons i rest ih =>
    intro s s1 h1 h2 h3 hl e
    obtain ⟨x, ex, er⟩ := Option.bind_eq_some.mp e
    obtain ⟨k1, k2, k3⟩ := do_loop_keeps c hb hc wtr progs i s x h1 h2 ex
    refine ih x s1 k1 k2 ?_ (fun j hj => hl j (List.mem_cons_of_mem _ hj)) er
    rw [k3]
    split_ifs
    · exact hl i (List.mem_cons_self _ _)
    · exact h3

/-- C24: the scheduler pass runs at most once per minute. With at most 32 boards and a
queue of at most 255 slots, let a tick at time `t1` (a second has passed since the tick
before it) be followed by ticks that all lie in the minute of `t1`; then in a further
tick at a time `t2` of the same minute the scheduler block leaves the state that it is
handed as it is, whatever the stored programs are: it evaluates no program match and
enqueues no run. -/
theorem C24_scheduler_once_per_minute (c : Config) (hb : c.nboards ≤ 32)
    (hc : c.queue_size ≤ 255) (wtr : Nat → Nat) (progs : List ProgramStruct)
    (i1 i2 : TickInput) (mids : List TickInput) (s s2 : State)
    (hs : reachable c wtr progs s) (h1 : s.last_time ≠ i1.curr_time)
    (e : do_loops c wtr progs (i1 :: mids) s = some s2)
    (hmid : ∀ i ∈ mids, i.curr_time / 60 = i1.curr_time / 60)
    (h2 : i2.curr_time / 60 = i1.curr_time / 60) :
    s2.last_minute = i2.curr_time / 60
    ∧ ∀ progs2 : List ProgramStruct,
        do_loop_schedule c wtr progs2 i2.curr_time
            (do_loop_head c wtr progs i2
              { s2 with mas := c.master_station, mas2 := c.master_station_2 })
          = do_loop_head c wtr progs i2
              { s2 with mas := c.master_station, mas2 := c.master_station_2 } := by
  obtain ⟨r1, r2⟩ := reachable_inv c hb hc wtr progs s hs
  obtain ⟨s1, e1, emid⟩ := Option.bind_eq_some.mp e
  obtain ⟨k1, k2, k3⟩ := do_loop_keeps c hb hc wtr progs i1 s s1 r1 r2 e1
  rw [if_pos h1] at k3
  obtain ⟨m1, m2, m3⟩ := do_loops_last_minute c hb hc wtr progs (i1.curr_time / 60) mids s1 s2
    k1 k2 k3 hmid emid
  refine ⟨by rw [m3, h2], ?_⟩
  intro progs2
  obtain ⟨_, n2, _⟩ := do_loop_head_inv c hc wtr progs i2
    { s2 with mas := c.master_station, mas2 := c.master_station_2 }
    (queue_inv_congr s2 _ rfl rfl m1) m2.mpr
  unfold do_loop_schedule
  dsimp only
  rw [if_neg]
  rw [n2]
  show ¬ i2.curr_time / 60 ≠ s2.last_minute
  rw [m3, h2]
  simp

/-- Witness of C24: after ticks at 1200 and 1201 the scheduler block of a tick at 1202
leaves the state as it is, although the stored program matches at every time. -/
theorem C24_scheduler_once_per_minute_witness :
    ∃ s2, do_loops demo_config id [demo_prog 30 false] [demo_tick 1200, demo_tick 1201]
          demo_state = some s2
      ∧ s2.last_minute = 1202 / 60
      ∧ do_loop_schedule demo_config id [demo_prog 30 false] 1202
            (do_loop_head demo_config id [demo_prog 30 false] (demo_tick 1202)
              { s2 with mas := demo_config.master_station,
                        mas2 := demo_config.master_station_2 })
          = do_loop_head demo_config id [demo_prog 30 false] (demo_tick 1202)
              { s2 with mas := demo_config.master_station,
                        mas2 := demo_config.master_station_2 } := by
  cases e : do_loops demo_config id [demo_prog 30 false] [demo_tick 1200, demo_tick 1201]
      demo_state with
  | none => exact absurd e (by decide)
  | some s2 =>
    exact ⟨s2, rfl,
      (C24_scheduler_once_per_minute demo_config (by decide) (by decide) id
        [demo_prog 30 false] (demo_tick 1200) (demo_tick 1202) [demo_tick 1201] demo_state s2
        (reachable.init demo_state rfl rfl (by decide)) (by decide) e (by decide)
        (by decide)).1,
      (C24_scheduler_once_per_minute demo_config (by decide) (by decide) id
        [demo_prog 30 false] (demo_tick 1200) (demo_tick 1202) [demo_tick 1201] demo_state s2
        (reachable.init demo_state rfl rfl (by decide)) (by decide) e (by decide)
        (by decide)).2 [demo_prog 30 false]⟩

end OpenSprinkler
